import Mathlib

/-!
# Verification of the `ai-daily-report` content pipeline

Shallow embedding of the repository's five Python scripts
(`scripts/validate_json.py`, `scripts/render.py`, `scripts/fetch_sources.py`,
`scripts/migrate_archives.py`, `scripts/update_techneme.py`) together with
proofs settling the frozen claims about them.

Modelling conventions:
* JSON values are modelled by the inductive type `Json`; JSON numbers are
  modelled as integers (the digests and configs in this repository only use
  integer numbers).
* Python exceptions other than the validator's deliberate `SystemExit(2)`
  (`AttributeError`, `TypeError`, `ValueError`, ...) are modelled with
  `Except String`.
* The network (`urllib` via `fetch_url`), the XML library (`ET.fromstring`),
  the subprocess running the TechMeme scraper, and the wall clock are
  modelled as explicit oracle parameters, since they are environment
  dependent.
* Python `str.replace`, `str.split`, `str.strip`, slicing and the concrete
  regular expressions appearing in the scripts are implemented directly on
  `List Char`.
-/

namespace AiDaily

/-- JSON values as produced by Python's `json.loads`.  Numbers are modelled
as integers; object fields keep insertion order (Python dicts preserve it). -/
inductive Json where
  | null : Json
  | bool : Bool → Json
  | num : Int → Json
  | str : String → Json
  | arr : List Json → Json
  | obj : List (String × Json) → Json

/-- Association-list lookup used to model Python `dict` access (keys of a
parsed JSON object are unique, so first-match lookup is adequate). -/
def jlookup : List (String × Json) → String → Option Json
  | [], _ => none
  | (k, v) :: rest, key => if k = key then some v else jlookup rest key

/-- Python truthiness of a parsed-JSON value: `None`, `False`, `0`, `""`,
`[]` and `{}` are falsy, everything else truthy. -/
def pyTruthy : Json → Bool
  | .null => false
  | .bool b => b
  | .num n => n != 0
  | .str s => s != ""
  | .arr l => !l.isEmpty
  | .obj l => !l.isEmpty

/-- Python `dict.get(key)` (`None` when absent) for a JSON object; `.get`
on a non-object raises `AttributeError`, which callers model separately. -/
def jget (j : Json) (key : String) : Option Json :=
  match j with
  | .obj kvs => jlookup kvs key
  | _ => none

/-- Python `dict.get(key, default)`. -/
def jgetD (j : Json) (key : String) (d : Json) : Json :=
  match jget j key with
  | some v => v
  | none => d

/-- Whether the value is a Python `dict` (`isinstance(x, dict)`). -/
def isObj : Json → Bool
  | .obj _ => true
  | _ => false

/-- Python's whitespace test used by `str.strip()` (ASCII portion). -/
def pySpace (c : Char) : Bool :=
  c = ' ' || c = '\t' || c = '\n' || c = '\x0d' || c = '\x0b' || c = '\x0c'

/-- Python `str.strip()` on the character list. -/
def stripChars (cs : List Char) : List Char :=
  ((cs.dropWhile pySpace).reverse.dropWhile pySpace).reverse

/-- Python `str.strip()`. -/
def pyStrip (s : String) : String := ⟨stripChars s.data⟩

/-- Single-quote character, used when modelling Python `repr`. -/
def sq : Char := Char.ofNat 39

/-- Opening-brace character (used for `repr` of dicts and for the template
placeholder tokens). -/
def obr : Char := Char.ofNat 123

/-- Closing-brace character. -/
def cbr : Char := Char.ofNat 125

mutual
/-- Python `repr` of a parsed-JSON value (escape sequences inside strings
are not modelled; the repository only ever applies this to warning-level
string searches and display text). -/
def pyRepr : Json → String
  | .null => "None"
  | .bool true => "True"
  | .bool false => "False"
  | .num n => toString n
  | .str s => ⟨sq :: (s.data ++ [sq])⟩
  | .arr l => "[" ++ pyReprList l ++ "]"
  | .obj kvs => ⟨obr :: (pyReprObj kvs).data ++ [cbr]⟩

/-- Comma-separated `repr`s of the elements of a list. -/
def pyReprList : List Json → String
  | [] => ""
  | [x] => pyRepr x
  | x :: rest => pyRepr x ++ ", " ++ pyReprList rest

/-- Comma-separated `repr`s of the entries of a dict. -/
def pyReprObj : List (String × Json) → String
  | [] => ""
  | [(k, v)] => pyRepr (.str k) ++ ": " ++ pyRepr v
  | (k, v) :: rest => pyRepr (.str k) ++ ": " ++ pyRepr v ++ ", " ++ pyReprObj rest
end

/-- Python `str()` of a parsed-JSON value. -/
def pyStr : Json → String
  | .str s => s
  | v => pyRepr v

/-- Is `p` a contiguous sublist of `s`?  Models Python's `"p" in s`
substring test. -/
def containsSub (s p : List Char) : Bool :=
  match s with
  | [] => p.isEmpty
  | _ :: rest => p.isPrefixOf s || containsSub rest p

/-! ## `scripts/validate_json.py` -/

/-- Outcome of a failing validator run: `die msg` models the deliberate
`SystemExit(2)` raised by `die`, while `attrError` models the uncaught
`AttributeError` raised when `.get` is called on a non-dict (which makes
the interpreter exit with a traceback, not with code 2). -/
inductive VErr where
  | die (msg : String)
  | attrError
deriving DecidableEq

/-- Result type of validator fragments. -/
abbrev V (α : Type) := Except VErr α

/-- Sequencing of validator steps: a failure (raised exception) aborts the
rest of the run. -/
def vseq {α β : Type} (e : V α) (k : α → V β) : V β :=
  match e with
  | .error err => .error err
  | .ok x => k x

/-- `must_str(obj, key, ctx)`: the value must be a string that is non-empty
after `strip()`, else `die`.  `.get` on a non-dict raises `AttributeError`. -/
def must_str (o : Json) (key ctx : String) : V String :=
  match o with
  | .obj kvs =>
    match jlookup kvs key with
    | some (.str v) =>
      if pyStrip v = "" then .error (.die (ctx ++ ": missing/empty " ++ key))
      else .ok v
    | _ => .error (.die (ctx ++ ": missing/empty " ++ key))
  | _ => .error .attrError

/-- `must_list(obj, key, ctx)`: the value must be a list, else `die`. -/
def must_list (o : Json) (key ctx : String) : V (List Json) :=
  match o with
  | .obj kvs =>
    match jlookup kvs key with
    | some (.arr l) => .ok l
    | _ => .error (.die (ctx ++ ": " ++ key ++ " must be a list"))
  | _ => .error .attrError

/-- Membership of a key in a JSON object (`key in it` on a dict). -/
def hasKey (kvs : List (String × Json)) (k : String) : Bool :=
  (jlookup kvs k).isSome

/-- `isinstance(x, int)` in Python: booleans are a subclass of `int`. -/
def isPyInt : Json → Bool
  | .num _ => true
  | .bool _ => true
  | _ => false

/-- Validation of one entry of an item's `sources` list. -/
def validate_source (s : Json) (ctx : String) : V Unit :=
  match s with
  | .obj _ =>
    vseq (must_str s "name" ctx) fun _ =>
    vseq (must_str s "url" ctx) fun _ => .ok ()
  | _ => .error (.die (ctx ++ ": sources entry must be object"))

/-- Validation of the whole `sources` list of an item. -/
def validate_sources (ctx : String) : List Json → V Unit
  | [] => .ok ()
  | s :: rest =>
    vseq (validate_source s ctx) fun _ => validate_sources ctx rest

/-- `validate_item`: legacy-field rejection, four required non-blank string
fields, the 48-hour freshness warning (the clock-dependent condition
"`time` parses as `%Y-%m-%d` and is older than 48h" is abstracted as the
oracle `isOld`), and the `sources` checks.  Returns the warning lines the
item contributes. -/
def validate_item (isOld : String → Bool) (it : Json) (ctx : String) :
    V (List String) :=
  match it with
  | .obj kvs =>
    if hasKey kvs "source" then .error (.die (ctx ++ ": found legacy field source"))
    else if hasKey kvs "published" then .error (.die (ctx ++ ": found legacy field published"))
    else if hasKey kvs "summary" then .error (.die (ctx ++ ": found legacy field summary"))
    else if hasKey kvs "category" then .error (.die (ctx ++ ": found legacy field category"))
    else
      vseq (must_str it "title" ctx) fun _ =>
      vseq (must_str it "time" ctx) fun time_str =>
      vseq (must_str it "what" ctx) fun _ =>
      vseq (must_str it "why" ctx) fun _ =>
      let warns :=
        if isOld time_str then
          ["WARNING: " ++ ctx ++ " time is older than 48h"]
        else []
      vseq (must_list it "sources" ctx) fun sources =>
      if sources.length < 1 then
        .error (.die (ctx ++ ": sources must have at least 1 entry"))
      else
        vseq (validate_sources ctx sources) fun _ => .ok warns
  | _ => .error (.die (ctx ++ ": item must be object"))

/-- Validation of a list of items, concatenating their warnings. -/
def validate_items (isOld : String → Bool) (ctx : String) :
    List Json → V (List String)
  | [] => .ok []
  | it :: rest =>
    vseq (validate_item isOld it ctx) fun w =>
    vseq (validate_items isOld ctx rest) fun ws => .ok (w ++ ws)

/-- The six required section keys. -/
def REQUIRED_SECTIONS : List String :=
  ["releases", "updates", "opensource", "benchmarks", "business", "risks"]

/-- Validation of `daily.sections` (already known to be a dict): each
required key must map to a list of valid items. -/
def validate_sections (isOld : String → Bool) (sections : Json) :
    List String → V (List String)
  | [] => .ok []
  | k :: rest =>
    match jget sections k with
    | some (.arr l) =>
      vseq (validate_items isOld ("daily.sections." ++ k) l) fun w =>
      vseq (validate_sections isOld sections rest) fun ws => .ok (w ++ ws)
    | _ => .error (.die ("daily.sections." ++ k ++ " must be list"))

/-- Presence of an optional engagement key with an `int` value check. -/
def checkIntKey (kvs : List (String × Json)) (k ctx : String) : V Unit :=
  match jlookup kvs k with
  | some v =>
    if isPyInt v then .ok ()
    else .error (.die (ctx ++ "." ++ k ++ " must be int"))
  | none => .ok ()

/-- Validation of one `x_highlights` entry. -/
def validate_x_entry (x : Json) (ctx : String) : V Unit :=
  match x with
  | .obj kvs =>
    vseq (must_str x "author" ctx) fun _ =>
    vseq (must_str x "handle" ctx) fun _ =>
    vseq (must_str x "text" ctx) fun _ =>
    vseq (must_str x "url" ctx) fun _ =>
    vseq (checkIntKey kvs "likes" ctx) fun _ =>
    vseq (checkIntKey kvs "reposts" ctx) fun _ =>
    checkIntKey kvs "replies" ctx
  | _ => .error (.die (ctx ++ " must be object"))

/-- Validation of the entries of `x_highlights`. -/
def validate_x_entries : List Json → V Unit
  | [] => .ok ()
  | x :: rest =>
    vseq (validate_x_entry x "daily.x_highlights") fun _ =>
    validate_x_entries rest

/-- Validation of the optional `x_highlights` field (`none` = key absent or
`null`; Python's `xh is not None` treats an absent key and an explicit
`null` alike because `dict.get` returns `None` for both). -/
def validate_x_highlights : Option Json → V Unit
  | none => .ok ()
  | some .null => .ok ()
  | some (.arr l) =>
    if l.length ≤ 20 then validate_x_entries l
    else .error (.die "daily.x_highlights size out of range")
  | some _ => .error (.die "daily.x_highlights must be a list when present")

/-- Does the URL string contain an X/Twitter link? -/
def urlHasX (url : String) : Bool :=
  containsSub url.data "x.com/".data || containsSub url.data "twitter.com/".data

/-- `x or []` followed by list iteration.  At the call sites inside
`has_any_x_link` the truthy values have already been validated to be
lists, so other truthy shapes (which would raise in Python) are
unreachable and return `[]` here. -/
def orList : Json → List Json
  | .arr l => l
  | _ => []

/-- `(daily.get("sections") or {}).values()`; at the call site `sections`
has been validated to be a dict. -/
def orObjVals : Json → List Json
  | .obj kvs => kvs.map (·.2)
  | _ => []

/-- Does one item's `sources` list contain an X/Twitter URL
(`str((s or {}).get("url", ""))` applied to each source)? -/
def itemHasXSource (it : Json) : Bool :=
  (orList (jgetD it "sources" .null)).any fun s =>
    urlHasX (pyStr (jgetD s "url" (.str "")))

/-- `has_any_x_link` from the validator. -/
def has_any_x_link (daily : Json) : Bool :=
  (orList (jgetD daily "headlines" .null)).any itemHasXSource ||
  (orObjVals (jgetD daily "sections" .null)).any fun sec =>
    (orList sec).any itemHasXSource

/-- A `summary.bullets` entry that fails the check
`not isinstance(b, str) or not b.strip()`. -/
def badBullet : Json → Bool
  | .str b => pyStrip b = ""
  | _ => true

/-- Validation of `daily.summary`. -/
def validate_summary (daily : Json) : V Unit :=
  match jget daily "summary" with
  | some (.obj skvs) =>
    match jlookup skvs "bullets" with
    | some (.arr bullets) =>
      if bullets.length < 3 || 5 < bullets.length || bullets.any badBullet then
        .error (.die "daily.summary.bullets must be 3-5 non-empty strings")
      else
        vseq (must_str (.obj skvs) "url" "daily.summary") fun _ =>
        vseq (must_str (.obj skvs) "archiveUrl" "daily.summary") fun _ => .ok ()
    | _ => .error (.die "daily.summary.bullets must be 3-5 non-empty strings")
  | _ => .error (.die "daily.summary must be object")

/-- The non-blocking `self_check` warnings printed after the `ok` line. -/
def self_check_warnings (daily : Json) : List String :=
  match jget daily "self_check" with
  | some (.obj kvs) =>
    if kvs.isEmpty then ["WARNING: self_check is missing or empty"]
    else
      (["coverage_analysis", "freshness_check", "bird_status", "dedupe_keys"]).foldr
        (fun k acc =>
          (match jlookup kvs k with
           | none => ["WARNING: self_check." ++ k ++ " is missing"]
           | some v =>
             if pyTruthy v then []
             else ["WARNING: self_check." ++ k ++ " is empty"]) ++ acc) []
  | _ => ["WARNING: self_check is missing or empty"]

/-- `main()` of `scripts/validate_json.py`, starting from the parsed JSON
value of `data/daily.json` (the claims assume the file exists and parses).
Returns the warning lines printed by a successful run; a failing run
surfaces as `.error`.  The 48-hour freshness test is abstracted by the
clock oracle `isOld`. -/
def validate_main (isOld : String → Bool) (daily : Json) : V (List String) :=
  vseq (must_str daily "date" "daily") fun _ =>
  vseq (must_list daily "headlines" "daily") fun headlines =>
  if headlines.length < 3 || 5 < headlines.length then
    .error (.die "daily.headlines must be 3-5 items")
  else
    vseq (validate_items isOld "daily.headlines" headlines) fun w1 =>
    match jget daily "sections" with
    | some (.obj skvs) =>
      vseq (validate_sections isOld (.obj skvs) REQUIRED_SECTIONS) fun w2 =>
      let xh := jget daily "x_highlights"
      vseq (validate_x_highlights xh) fun _ =>
      let xEmpty : Bool :=
        match xh with
        | none => true
        | some .null => true
        | some (.arr l) => l.isEmpty
        | some _ => false
      let xwarn :=
        if xEmpty && !has_any_x_link daily then
          ["WARNING: no X/Twitter source found"]
        else []
      vseq (validate_summary daily) fun _ =>
      .ok (w1 ++ w2 ++ xwarn ++ self_check_warnings daily)
    | _ => .error (.die "daily.sections must be object")

/-! ### Claim-side digest predicates

`claimDigestOk` transcribes claim C1 exactly as written ("non-empty
string" read literally as a string different from `""`, "integer" read as
a JSON number).  `digestHardOk` is the amended wording: strings must be
non-blank (non-empty after stripping whitespace), the digest itself must
be a JSON object, headline items must also be valid items, and the
engagement counters must be Python `int`s (which includes booleans). -/

/-- Claim wording: "non-empty string". -/
def neStr : Json → Bool
  | .str s => s ≠ ""
  | _ => false

/-- Amended wording: a string that is non-blank after stripping. -/
def nbStr : Json → Bool
  | .str s => pyStrip s ≠ ""
  | _ => false

/-- Claim C1's "valid item" with literal non-empty strings. -/
def claimValidSource (s : Json) : Bool :=
  isObj s && neStr (jgetD s "name" .null) && neStr (jgetD s "url" .null)

/-- Claim C1's "valid item". -/
def claimValidItem (it : Json) : Bool :=
  match it with
  | .obj kvs =>
    !hasKey kvs "source" && !hasKey kvs "published" &&
    !hasKey kvs "summary" && !hasKey kvs "category" &&
    neStr (jgetD it "title" .null) && neStr (jgetD it "time" .null) &&
    neStr (jgetD it "what" .null) && neStr (jgetD it "why" .null) &&
    (match jlookup kvs "sources" with
     | some (.arr l) => !l.isEmpty && l.all claimValidSource
     | _ => false)
  | _ => false

/-- Claim C1's `x_highlights` entry: non-empty author/handle/text/url
strings and integer likes/reposts/replies when present. -/
def claimXEntry (x : Json) : Bool :=
  isObj x && neStr (jgetD x "author" .null) && neStr (jgetD x "handle" .null) &&
  neStr (jgetD x "text" .null) && neStr (jgetD x "url" .null) &&
  (["likes", "reposts", "replies"]).all fun k =>
    match jget x k with
    | some (.num _) => true
    | some _ => false
    | none => true

/-- Claim C1's `x_highlights` shape when present. -/
def claimXhOk : Option Json → Bool
  | none => true
  | some .null => true
  | some (.arr l) => l.length ≤ 20 && l.all claimXEntry
  | some _ => false

/-- Claim C1's `summary` shape. -/
def claimSummaryOk (d : Json) : Bool :=
  match jget d "summary" with
  | some (.obj skvs) =>
    (match jlookup skvs "bullets" with
     | some (.arr bl) =>
       3 ≤ bl.length && bl.length ≤ 5 &&
       bl.all fun b => match b with | .str s => s ≠ "" | _ => false
     | _ => false) &&
    neStr (jgetD (.obj skvs) "url" .null) &&
    neStr (jgetD (.obj skvs) "archiveUrl" .null)
  | _ => false

/-- Claim C1 exactly as written: the digest passes iff it has a non-empty
string `date`, a `headlines` list of 3 to 5 items, a `sections` object in
which each required key is a list of valid items, an optional
`x_highlights` list of at most 20 well-shaped objects, and a well-shaped
`summary`. -/
def claimDigestOk (d : Json) : Bool :=
  neStr (jgetD d "date" .null) &&
  (match jget d "headlines" with
   | some (.arr l) => 3 ≤ l.length && l.length ≤ 5
   | _ => false) &&
  (match jget d "sections" with
   | some (.obj _) =>
     REQUIRED_SECTIONS.all fun k =>
       match jget (jgetD d "sections" .null) k with
       | some (.arr l) => l.all claimValidItem
       | _ => false
   | _ => false) &&
  claimXhOk (jget d "x_highlights") &&
  claimSummaryOk d

/-- Amended "valid source": non-blank name and url. -/
def goodSource (s : Json) : Bool :=
  isObj s && nbStr (jgetD s "name" .null) && nbStr (jgetD s "url" .null)

/-- Amended "valid item": no legacy fields, non-blank title/time/what/why,
and at least one valid source. -/
def goodItem (it : Json) : Bool :=
  match it with
  | .obj kvs =>
    !hasKey kvs "source" && !hasKey kvs "published" &&
    !hasKey kvs "summary" && !hasKey kvs "category" &&
    nbStr (jgetD it "title" .null) && nbStr (jgetD it "time" .null) &&
    nbStr (jgetD it "what" .null) && nbStr (jgetD it "why" .null) &&
    (match jlookup kvs "sources" with
     | some (.arr l) => !l.isEmpty && l.all goodSource
     | _ => false)
  | _ => false

/-- An optional engagement counter is a Python int when present. -/
def intIfPresent (x : Json) (k : String) : Bool :=
  match jget x k with
  | some v => isPyInt v
  | none => true

/-- Amended `x_highlights` entry: non-blank strings, and the engagement
counters must be Python ints (booleans included) when present. -/
def goodXEntry (x : Json) : Bool :=
  isObj x && nbStr (jgetD x "author" .null) && nbStr (jgetD x "handle" .null) &&
  nbStr (jgetD x "text" .null) && nbStr (jgetD x "url" .null) &&
  (["likes", "reposts", "replies"]).all (intIfPresent x)

/-- Amended `x_highlights` shape. -/
def goodXh : Option Json → Bool
  | none => true
  | some .null => true
  | some (.arr l) => l.length ≤ 20 && l.all goodXEntry
  | some _ => false

/-- Amended `summary` shape: bullets are 3-5 non-blank strings, and `url`
and `archiveUrl` are non-blank strings. -/
def goodSummary (d : Json) : Bool :=
  match jget d "summary" with
  | some (.obj skvs) =>
    (match jlookup skvs "bullets" with
     | some (.arr bl) =>
       3 ≤ bl.length && bl.length ≤ 5 && bl.all (fun b => !badBullet b)
     | _ => false) &&
    nbStr (jgetD (.obj skvs) "url" .null) &&
    nbStr (jgetD (.obj skvs) "archiveUrl" .null)
  | _ => false

/-- One required section key maps to a list of valid items. -/
def sectionListOk (sections : Json) (k : String) : Bool :=
  match jget sections k with
  | some (.arr l) => l.all goodItem
  | _ => false

/-- The amended hard requirements: the digest is a JSON object with a
non-blank `date` string, 3-5 valid headline items, the six section lists
of valid items, an optional well-shaped `x_highlights`, and a well-shaped
`summary`. -/
def digestHardOk (d : Json) : Bool :=
  isObj d && nbStr (jgetD d "date" .null) &&
  (match jget d "headlines" with
   | some (.arr l) => 3 ≤ l.length && l.length ≤ 5 && l.all goodItem
   | _ => false) &&
  (match jget d "sections" with
   | some (.obj _) =>
     REQUIRED_SECTIONS.all (sectionListOk (jgetD d "sections" .null))
   | _ => false) &&
  goodXh (jget d "x_highlights") &&
  goodSummary d

/-- Did a validator fragment succeed? -/
def vOk {α : Type} : V α → Bool
  | .ok _ => true
  | .error _ => false

theorem vOk_vseq {α β : Type} (e : V α) (k : α → V β) (d : Bool)
    (hf : ∀ x, vOk (k x) = d) : vOk (vseq e k) = (vOk e && d) := by
  cases e with
  | error err => rfl
  | ok x => exact hf x

theorem must_str_ok (o : Json) (key ctx : String) :
    vOk (must_str o key ctx) = (isObj o && nbStr (jgetD o key .null)) := by
  cases o with
  | obj kvs =>
    simp only [must_str, isObj, jgetD, jget, Bool.true_and]
    cases h : jlookup kvs key with
    | none => simp [vOk, nbStr]
    | some v =>
      cases v with
      | str s =>
        simp only [nbStr]
        split <;> simp_all [vOk]
      | _ => simp [vOk, nbStr]
  | _ => rfl

theorem must_list_ok_inv (o : Json) (key ctx : String) (l : List Json)
    (h : must_list o key ctx = .ok l) : jget o key = some (.arr l) := by
  cases o with
  | obj kvs =>
    simp only [must_list] at h
    simp only [jget]
    cases hj : jlookup kvs key with
    | none => rw [hj] at h; exact absurd h (by simp)
    | some v =>
      rw [hj] at h
      cases v <;> simp_all
  | null => simp [must_list] at h
  | bool b => simp [must_list] at h
  | num n => simp [must_list] at h
  | str s => simp [must_list] at h
  | arr a => simp [must_list] at h

theorem validate_source_ok (s : Json) (ctx : String) :
    vOk (validate_source s ctx) = goodSource s := by
  cases s with
  | obj kvs =>
    unfold validate_source
    rw [vOk_vseq _ _ (nbStr (jgetD (.obj kvs) "url" .null))
      (fun x => by
        rw [vOk_vseq (must_str (.obj kvs) "url" ctx) (fun _ => Except.ok ())
          true (fun y => rfl), must_str_ok, Bool.and_true]
        simp [isObj])]
    rw [must_str_ok]
    simp [goodSource, isObj]
  | _ => rfl

theorem validate_sources_ok (ctx : String) (l : List Json) :
    vOk (validate_sources ctx l) = l.all goodSource := by
  induction l with
  | nil => rfl
  | cons s rest ih =>
    show vOk (vseq (validate_source s ctx) fun _ => validate_sources ctx rest) = _
    rw [vOk_vseq _ _ (rest.all goodSource) (fun x => ih), validate_source_ok,
      List.all_cons]

theorem validate_item_ok (isOld : String → Bool) (it : Json) (ctx : String) :
    vOk (validate_item isOld it ctx) = goodItem it := by
  cases it with
  | obj kvs =>
    simp only [validate_item, goodItem]
    cases h1 : hasKey kvs "source" with
    | true => rfl
    | false =>
    cases h2 : hasKey kvs "published" with
    | true => rfl
    | false =>
    cases h3 : hasKey kvs "summary" with
    | true => rfl
    | false =>
    cases h4 : hasKey kvs "category" with
    | true => rfl
    | false =>
    rw [if_neg (by decide), if_neg (by decide), if_neg (by decide),
      if_neg (by decide)]
    simp only [Bool.not_false, Bool.true_and]
    have t1 := must_str_ok (.obj kvs) "title" ctx
    have t2 := must_str_ok (.obj kvs) "time" ctx
    have t3 := must_str_ok (.obj kvs) "what" ctx
    have t4 := must_str_ok (.obj kvs) "why" ctx
    simp only [isObj, Bool.true_and] at t1 t2 t3 t4
    cases e1 : must_str (.obj kvs) "title" ctx with
    | error err => rw [e1] at t1; simp only [vOk] at t1; simp [vseq, vOk, ← t1]
    | ok v1 =>
    rw [e1] at t1; simp only [vOk] at t1
    cases e2 : must_str (.obj kvs) "time" ctx with
    | error err =>
      rw [e2] at t2; simp only [vOk] at t2; simp [vseq, vOk, ← t1, ← t2]
    | ok v2 =>
    rw [e2] at t2; simp only [vOk] at t2
    cases e3 : must_str (.obj kvs) "what" ctx with
    | error err =>
      rw [e3] at t3; simp only [vOk] at t3; simp [vseq, vOk, ← t1, ← t2, ← t3]
    | ok v3 =>
    rw [e3] at t3; simp only [vOk] at t3
    cases e4 : must_str (.obj kvs) "why" ctx with
    | error err =>
      rw [e4] at t4; simp only [vOk] at t4
      simp [vseq, vOk, ← t1, ← t2, ← t3, ← t4]
    | ok v4 =>
    rw [e4] at t4; simp only [vOk] at t4
    cases hj : jlookup kvs "sources" with
    | none => simp [vseq, must_list, hj, vOk, ← t1, ← t2, ← t3, ← t4]
    | some v =>
      cases v with
      | arr l =>
        cases l with
        | nil => simp [vseq, must_list, hj, vOk, ← t1, ← t2, ← t3, ← t4]
        | cons a as =>
          simp only [vseq, must_list, hj, ← t1, ← t2, ← t3, ← t4, Bool.true_and]
          rw [if_neg (by simp)]
          cases hv : validate_sources ctx (a :: as) with
          | error err =>
            have hs := validate_sources_ok ctx (a :: as)
            rw [hv] at hs
            simp only [vOk] at hs
            simp [vOk, ← hs]
          | ok u =>
            have hs := validate_sources_ok ctx (a :: as)
            rw [hv] at hs
            simp only [vOk] at hs
            simp [vOk, ← hs]
      | _ => simp [vseq, must_list, hj, vOk, ← t1, ← t2, ← t3, ← t4]
  | _ => rfl

theorem validate_items_ok (isOld : String → Bool) (ctx : String) (l : List Json) :
    vOk (validate_items isOld ctx l) = l.all goodItem := by
  induction l with
  | nil => rfl
  | cons it rest ih =>
    show vOk (vseq (validate_item isOld it ctx) fun w =>
      vseq (validate_items isOld ctx rest) fun ws => .ok (w ++ ws)) = _
    rw [vOk_vseq _ _ (rest.all goodItem) (fun w => by
      rw [vOk_vseq (validate_items isOld ctx rest)
        (fun ws => Except.ok (w ++ ws)) true (fun y => rfl), Bool.and_true, ih])]
    rw [validate_item_ok, List.all_cons]

theorem validate_sections_ok (isOld : String → Bool) (sections : Json)
    (ks : List String) :
    vOk (validate_sections isOld sections ks) =
      ks.all (sectionListOk sections) := by
  induction ks with
  | nil => rfl
  | cons k rest ih =>
    show vOk (match jget sections k with
      | some (.arr l) =>
        vseq (validate_items isOld ("daily.sections." ++ k) l) fun w =>
        vseq (validate_sections isOld sections rest) fun ws => .ok (w ++ ws)
      | _ => .error (.die ("daily.sections." ++ k ++ " must be list"))) = _
    rw [List.all_cons]
    cases hj : jget sections k with
    | none => simp [vOk, sectionListOk, hj, ← ih]
    | some v =>
      cases v with
      | arr l =>
        rw [vOk_vseq _ _ (rest.all _) (fun w => by
          rw [vOk_vseq (validate_sections isOld sections rest)
            (fun ws => Except.ok (w ++ ws)) true (fun y => rfl), Bool.and_true, ih])]
        rw [validate_items_ok]
        simp [sectionListOk, hj]
      | _ => simp [vOk, sectionListOk, hj, ← ih]

theorem checkIntKey_ok (kvs : List (String × Json)) (k ctx : String) :
    vOk (checkIntKey kvs k ctx) = intIfPresent (.obj kvs) k := by
  unfold checkIntKey intIfPresent
  simp only [jget]
  cases hj : jlookup kvs k with
  | none => rfl
  | some v => cases hv : isPyInt v <;> simp [hv, vOk]

theorem validate_x_entry_ok (x : Json) (ctx : String) :
    vOk (validate_x_entry x ctx) = goodXEntry x := by
  cases x with
  | obj kvs =>
    unfold validate_x_entry goodXEntry
    have t1 := must_str_ok (.obj kvs) "author" ctx
    have t2 := must_str_ok (.obj kvs) "handle" ctx
    have t3 := must_str_ok (.obj kvs) "text" ctx
    have t4 := must_str_ok (.obj kvs) "url" ctx
    simp only [isObj, Bool.true_and] at t1 t2 t3 t4
    cases e1 : must_str (.obj kvs) "author" ctx with
    | error err => rw [e1] at t1; simp only [vOk] at t1; simp [vseq, vOk, ← t1]
    | ok v1 =>
    rw [e1] at t1; simp only [vOk] at t1
    cases e2 : must_str (.obj kvs) "handle" ctx with
    | error err =>
      rw [e2] at t2; simp only [vOk] at t2; simp [vseq, vOk, ← t1, ← t2]
    | ok v2 =>
    rw [e2] at t2; simp only [vOk] at t2
    cases e3 : must_str (.obj kvs) "text" ctx with
    | error err =>
      rw [e3] at t3; simp only [vOk] at t3; simp [vseq, vOk, ← t1, ← t2, ← t3]
    | ok v3 =>
    rw [e3] at t3; simp only [vOk] at t3
    cases e4 : must_str (.obj kvs) "url" ctx with
    | error err =>
      rw [e4] at t4; simp only [vOk] at t4
      simp [vseq, vOk, ← t1, ← t2, ← t3, ← t4]
    | ok v4 =>
    rw [e4] at t4; simp only [vOk] at t4
    simp only [vseq, ← t1, ← t2, ← t3, ← t4, Bool.true_and]
    have hc1 := checkIntKey_ok kvs "likes" ctx
    have hc2 := checkIntKey_ok kvs "reposts" ctx
    have hc3 := checkIntKey_ok kvs "replies" ctx
    cases c1 : checkIntKey kvs "likes" ctx with
    | error err =>
      rw [c1] at hc1; simp only [vOk] at hc1
      simp [vOk, ← hc1]
    | ok u1 =>
    rw [c1] at hc1; simp only [vOk] at hc1
    cases c2 : checkIntKey kvs "reposts" ctx with
    | error err =>
      rw [c2] at hc2; simp only [vOk] at hc2
      simp [vOk, ← hc1, ← hc2]
    | ok u2 =>
    rw [c2] at hc2; simp only [vOk] at hc2
    cases c3 : checkIntKey kvs "replies" ctx with
    | error err =>
      rw [c3] at hc3; simp only [vOk] at hc3
      simp [vOk, ← hc1, ← hc2, ← hc3]
    | ok u3 =>
      rw [c3] at hc3; simp only [vOk] at hc3
      simp [vOk, isObj, ← hc1, ← hc2, ← hc3]
  | _ => rfl

theorem validate_x_entries_ok (l : List Json) :
    vOk (validate_x_entries l) = l.all goodXEntry := by
  induction l with
  | nil => rfl
  | cons x rest ih =>
    show vOk (vseq (validate_x_entry x "daily.x_highlights") fun _ =>
      validate_x_entries rest) = _
    rw [vOk_vseq _ _ (rest.all goodXEntry) (fun y => ih), validate_x_entry_ok,
      List.all_cons]

theorem validate_x_highlights_ok (xh : Option Json) :
    vOk (validate_x_highlights xh) = goodXh xh := by
  cases xh with
  | none => rfl
  | some v =>
    cases v with
    | arr l =>
      show vOk (if l.length ≤ 20 then validate_x_entries l
        else .error (.die "daily.x_highlights size out of range")) = _
      by_cases hl : l.length ≤ 20
      · rw [if_pos hl, validate_x_entries_ok]
        simp [goodXh, hl]
      · rw [if_neg hl]
        simp [goodXh, hl, vOk]
    | _ => rfl

theorem validate_summary_ok (daily : Json) :
    vOk (validate_summary daily) = goodSummary daily := by
  cases hs : jget daily "summary" with
  | none => simp [validate_summary, goodSummary, hs, vOk]
  | some v =>
    cases v with
    | obj skvs =>
      cases hb : jlookup skvs "bullets" with
      | none => simp [validate_summary, goodSummary, hs, hb, vOk]
      | some bv =>
        cases bv with
        | arr bl =>
          have u1 := must_str_ok (.obj skvs) "url" "daily.summary"
          have u2 := must_str_ok (.obj skvs) "archiveUrl" "daily.summary"
          simp only [isObj, Bool.true_and] at u1 u2
          rcases Bool.dichotomy (decide (bl.length < 3) ||
              decide (5 < bl.length) || bl.any badBullet) with hcond | hcond
          · simp only [validate_summary, goodSummary, hs, hb]
            rw [if_neg (by simp [hcond])]
            have hcomp := hcond
            simp only [Bool.or_eq_false_iff, decide_eq_false_iff_not,
              Nat.not_lt] at hcomp
            obtain ⟨⟨hc1, hc2⟩, hc3⟩ := hcomp
            have hall : bl.all (fun b => !badBullet b) = true := by
              rw [List.all_eq_true]
              intro b hbm
              rw [List.any_eq_false] at hc3
              simp [hc3 b hbm]
            cases e1 : must_str (.obj skvs) "url" "daily.summary" with
            | error err =>
              rw [e1] at u1; simp only [vOk] at u1
              simp [vOk, vseq, ← u1]
            | ok v1 =>
              rw [e1] at u1; simp only [vOk] at u1
              cases e2 : must_str (.obj skvs) "archiveUrl" "daily.summary" with
              | error err =>
                rw [e2] at u2; simp only [vOk] at u2
                simp [vOk, vseq, ← u1, ← u2]
              | ok v2 =>
                rw [e2] at u2; simp only [vOk] at u2
                simp [vOk, vseq, ← u1, ← u2, hall, hc1, hc2]
          · have hrhs : (decide (3 ≤ bl.length) && decide (bl.length ≤ 5) &&
                bl.all (fun b => !badBullet b)) = false := by
              simp only [Bool.or_eq_true, decide_eq_true_eq] at hcond
              rcases hcond with (h | h) | h
              · simp [decide_eq_false (Nat.not_le.mpr h)]
              · simp [decide_eq_false (Nat.not_le.mpr h)]
              · rw [List.any_eq_true] at h
                obtain ⟨b, hbm, hbad⟩ := h
                have hf : bl.all (fun b => !badBullet b) = false := by
                  rw [List.all_eq_false]
                  exact ⟨b, hbm, by simp [hbad]⟩
                simp [hf]
            simp only [validate_summary, goodSummary, hs, hb]
            rw [if_pos hcond]
            simp [vOk, hrhs]
        | _ => simp [validate_summary, goodSummary, hs, hb, vOk]
    | _ => simp [validate_summary, goodSummary, hs, vOk]

theorem validate_main_ok (isOld : String → Bool) (daily : Json) :
    vOk (validate_main isOld daily) = digestHardOk daily := by
  cases daily with
  | obj kvs =>
    simp only [validate_main, digestHardOk, isObj, Bool.true_and]
    have t1 := must_str_ok (.obj kvs) "date" "daily"
    simp only [isObj, Bool.true_and] at t1
    cases e1 : must_str (.obj kvs) "date" "daily" with
    | error err =>
      rw [e1] at t1; simp only [vOk] at t1
      simp [vseq, vOk, ← t1]
    | ok v1 =>
    rw [e1] at t1; simp only [vOk] at t1
    cases hh : jlookup kvs "headlines" with
    | none => simp [vseq, must_list, jget, hh, vOk, ← t1]
    | some hv =>
    cases hv with
    | arr hl =>
      simp only [vseq, must_list, jget, hh, ← t1, Bool.true_and]
      rcases Bool.dichotomy (decide (hl.length < 3) ||
          decide (5 < hl.length)) with hlen | hlen
      · rw [if_neg (by simp [hlen])]
        have hlen2 := hlen
        simp only [Bool.or_eq_false_iff, decide_eq_false_iff_not,
          Nat.not_lt] at hlen2
        obtain ⟨hl3, hl5⟩ := hlen2
        have hi := validate_items_ok isOld "daily.headlines" hl
        cases ei : validate_items isOld "daily.headlines" hl with
        | error err =>
          rw [ei] at hi; simp only [vOk] at hi
          simp [vseq, vOk, ei, ← hi]
        | ok w1 =>
        rw [ei] at hi; simp only [vOk] at hi
        simp only [vseq, jget]
        cases hsec : jlookup kvs "sections" with
        | none => simp [vOk, ← hi, hl3, hl5]
        | some sv =>
        cases sv with
        | obj skvs =>
          have hgd : jgetD (Json.obj kvs) "sections" Json.null = Json.obj skvs := by
            simp [jgetD, jget, hsec]
          have hs := validate_sections_ok isOld (.obj skvs) REQUIRED_SECTIONS
          cases es : validate_sections isOld (.obj skvs) REQUIRED_SECTIONS with
          | error err =>
            rw [es] at hs; simp only [vOk] at hs
            simp [vseq, vOk, es, ← hi, ← hs, hgd, hl3, hl5]
          | ok w2 =>
          rw [es] at hs; simp only [vOk] at hs
          have hx := validate_x_highlights_ok (jlookup kvs "x_highlights")
          cases ex : validate_x_highlights (jlookup kvs "x_highlights") with
          | error err =>
            rw [ex] at hx; simp only [vOk] at hx
            simp [vseq, vOk, es, ex, ← hi, ← hs, ← hx, hgd, hl3, hl5]
          | ok u =>
          rw [ex] at hx; simp only [vOk] at hx
          have hsum := validate_summary_ok (.obj kvs)
          cases esum : validate_summary (.obj kvs) with
          | error err =>
            rw [esum] at hsum; simp only [vOk] at hsum
            simp [vseq, vOk, es, ex, esum, ← hi, ← hs, ← hx, ← hsum, hgd,
              hl3, hl5]
          | ok u2 =>
            rw [esum] at hsum; simp only [vOk] at hsum
            simp [vseq, vOk, es, ex, esum, ← hi, ← hs, ← hx, ← hsum, hgd,
              hl3, hl5]
        | _ => simp [vOk, ← hi, hl3, hl5]
      · rw [if_pos hlen]
        have : (decide (3 ≤ hl.length) && decide (hl.length ≤ 5)) = false := by
          simp only [Bool.or_eq_true, decide_eq_true_eq] at hlen
          rcases hlen with h | h
          · simp [decide_eq_false (Nat.not_le.mpr h)]
          · simp [decide_eq_false (Nat.not_le.mpr h)]
        simp only [vOk]
        rcases Bool.and_eq_false_iff.mp this with h | h <;> simp [h]
    | _ => simp [vseq, must_list, jget, hh, vOk, ← t1]
  | null => rfl
  | bool b => rfl
  | num n => rfl
  | str s => rfl
  | arr a => rfl

theorem vOk_iff {α : Type} (e : V α) : vOk e = true ↔ ∃ x, e = .ok x := by
  cases e <;> simp [vOk]

/-- A fully valid item used by the concrete digests below. -/
def okItem : Json := .obj [
  ("title", .str "t"), ("time", .str "2026-02-14"),
  ("what", .str "w"), ("why", .str "y"),
  ("sources", .arr [.obj [("name", .str "n"),
    ("url", .str "https://x.com/post")]])]

/-- The counterexample digest for C1: its `date` is the non-empty string
`" "`, which the claim accepts but `must_str` rejects after `strip()`.
Everything else satisfies both readings. -/
def cxDigest : Json := .obj [
  ("date", .str " "),
  ("headlines", .arr [okItem, okItem, okItem]),
  ("sections", .obj [("releases", .arr []), ("updates", .arr []),
    ("opensource", .arr []), ("benchmarks", .arr []),
    ("business", .arr []), ("risks", .arr [])]),
  ("summary", .obj [("bullets", .arr [.str "a", .str "b", .str "c"]),
    ("url", .str "https://example.com/"),
    ("archiveUrl", .str "https://example.com/archive/")])]

/-- C1 counterexample: the claim as written holds of `cxDigest` (its `date`
is a non-empty string and every other requirement is met), yet the
validator run fails (exit code 2), because `must_str` additionally
requires strings to be non-blank after `strip()`. -/
theorem C1_counterexample :
    claimDigestOk cxDigest = true ∧
    vOk (validate_main (fun _ => false) cxDigest) = false := by
  constructor <;> decide

/-- C1 (amended): assuming `data/daily.json` exists and parses as JSON, a
validator run succeeds (prints ok, exit 0) iff the digest is a JSON object
satisfying the hard requirements with all the required strings non-blank
(non-empty after stripping whitespace), headline items also being valid
items, and the engagement counters being Python ints (booleans included);
otherwise it fails, and this holds for every state of the 48-hour clock
oracle. -/
theorem C1_validator_spec (isOld : String → Bool) (daily : Json) :
    (∃ w, validate_main isOld daily = Except.ok w) ↔
      digestHardOk daily = true := by
  rw [← vOk_iff, validate_main_ok]

/-- A hard-requirements-satisfying digest that triggers all three warning
families: stale `time` values (via the clock oracle), no X/Twitter source
anywhere, and a missing `self_check`. -/
def warnDigest : Json := .obj [
  ("date", .str "2020-01-01"),
  ("headlines", .arr [
    .obj [("title", .str "t"), ("time", .str "2020-01-01"),
      ("what", .str "w"), ("why", .str "y"),
      ("sources", .arr [.obj [("name", .str "n"),
        ("url", .str "https://example.com/a")]])],
    .obj [("title", .str "t"), ("time", .str "2020-01-01"),
      ("what", .str "w"), ("why", .str "y"),
      ("sources", .arr [.obj [("name", .str "n"),
        ("url", .str "https://example.com/b")]])],
    .obj [("title", .str "t"), ("time", .str "2020-01-01"),
      ("what", .str "w"), ("why", .str "y"),
      ("sources", .arr [.obj [("name", .str "n"),
        ("url", .str "https://example.com/c")]])]]),
  ("sections", .obj [("releases", .arr []), ("updates", .arr []),
    ("opensource", .arr []), ("benchmarks", .arr []),
    ("business", .arr []), ("risks", .arr [])]),
  ("summary", .obj [("bullets", .arr [.str "a", .str "b", .str "c"]),
    ("url", .str "https://example.com/"),
    ("archiveUrl", .str "https://example.com/archive/")])]

/-- C4: validator warnings never change the pass/fail outcome.  A digest
satisfying the hard requirements exits with code 0 for every state of the
48-hour clock oracle (so also when every item time is older than 48h),
regardless of whether any X/Twitter source appears and regardless of
`self_check` (none of which `digestHardOk` constrains) — those conditions
only contribute WARNING lines to the returned output. -/
theorem C4_warnings_never_block (isOld : String → Bool) (daily : Json)
    (h : digestHardOk daily = true) :
    ∃ w, validate_main isOld daily = Except.ok w := by
  rw [← vOk_iff, validate_main_ok]
  exact h

/-- C4 witness: `warnDigest` satisfies the hard requirements, passes even
with the clock oracle declaring every time stale, and the passing run does
print warning lines. -/
theorem C4_witness :
    digestHardOk warnDigest = true ∧
    (∃ w, validate_main (fun _ => true) warnDigest = Except.ok w) ∧
    (match validate_main (fun _ => true) warnDigest with
     | Except.ok w => !w.isEmpty
     | Except.error _ => false) = true :=
  ⟨by decide, C4_warnings_never_block (fun _ => true) warnDigest (by decide),
    by decide⟩

/-! ## Python string replacement

`replL p v s` is Python's `s.replace(p, v)` on character lists: a
left-to-right scan replacing non-overlapping occurrences of `p` by `v`.
`splitL p s` is Python's `s.split(p)`.  (The scripts only ever call
`replace`/`split` with a non-empty separator; for `p = []` these
definitions scan without progress on the separator and leave `s`
unchanged, which callers never rely on.) -/

def replGo (p v : List Char) : Nat → List Char → List Char
  | _, [] => []
  | 0, s => s
  | fuel+1, c :: cs =>
    if p ≠ [] ∧ p.isPrefixOf (c :: cs) then
      v ++ replGo p v fuel (List.drop p.length (c :: cs))
    else
      c :: replGo p v fuel cs

/-- Python `s.replace(p, v)` on character lists (fuel-driven scan; the
fuel `s.length` always suffices because each step consumes at least one
character). -/
def replL (p v s : List Char) : List Char := replGo p v s.length s

def splitGo (p : List Char) : Nat → List Char → List (List Char)
  | _, [] => [[]]
  | 0, s => [s]
  | fuel+1, c :: cs =>
    if p ≠ [] ∧ p.isPrefixOf (c :: cs) then
      [] :: splitGo p fuel (List.drop p.length (c :: cs))
    else
      match splitGo p fuel cs with
      | [] => [[c]]
      | s :: ss => (c :: s) :: ss

/-- Python `s.split(p)` on character lists. -/
def splitL (p s : List Char) : List (List Char) := splitGo p s.length s

theorem replGo_nil (p v : List Char) (f : Nat) : replGo p v f [] = [] := by
  cases f <;> rfl

theorem splitGo_nil (p : List Char) (f : Nat) : splitGo p f [] = [[]] := by
  cases f <;> rfl

theorem replGo_congr (p v : List Char) :
    ∀ (f1 : Nat) (s : List Char), s.length ≤ f1 →
      ∀ (f2 : Nat), s.length ≤ f2 → replGo p v f1 s = replGo p v f2 s := by
  intro f1
  induction f1 with
  | zero =>
    intro s hs f2 _
    have : s = [] := List.eq_nil_of_length_eq_zero (Nat.le_zero.mp hs)
    subst this
    rw [replGo_nil, replGo_nil]
  | succ f ih =>
    intro s hs f2 h2
    cases s with
    | nil => rw [replGo_nil, replGo_nil]
    | cons c cs =>
      cases f2 with
      | zero => simp at h2
      | succ f2 =>
        show (if p ≠ [] ∧ p.isPrefixOf (c :: cs) then
            v ++ replGo p v f (List.drop p.length (c :: cs))
          else c :: replGo p v f cs) = (if p ≠ [] ∧ p.isPrefixOf (c :: cs) then
            v ++ replGo p v f2 (List.drop p.length (c :: cs))
          else c :: replGo p v f2 cs)
        simp only [List.length_cons] at hs h2
        by_cases h : p ≠ [] ∧ p.isPrefixOf (c :: cs)
        · rw [if_pos h, if_pos h]
          have hp : 0 < p.length := List.length_pos.mpr h.1
          have hd : (List.drop p.length (c :: cs)).length ≤ f := by
            simp only [List.length_drop, List.length_cons]
            omega
          have hd2 : (List.drop p.length (c :: cs)).length ≤ f2 := by
            simp only [List.length_drop, List.length_cons]
            omega
          rw [ih _ hd _ hd2]
        · rw [if_neg h, if_neg h]
          rw [ih cs (by omega) f2 (by omega)]

theorem splitGo_congr (p : List Char) :
    ∀ (f1 : Nat) (s : List Char), s.length ≤ f1 →
      ∀ (f2 : Nat), s.length ≤ f2 → splitGo p f1 s = splitGo p f2 s := by
  intro f1
  induction f1 with
  | zero =>
    intro s hs f2 _
    have : s = [] := List.eq_nil_of_length_eq_zero (Nat.le_zero.mp hs)
    subst this
    rw [splitGo_nil, splitGo_nil]
  | succ f ih =>
    intro s hs f2 h2
    cases s with
    | nil => rw [splitGo_nil, splitGo_nil]
    | cons c cs =>
      cases f2 with
      | zero => simp at h2
      | succ f2 =>
        show (if p ≠ [] ∧ p.isPrefixOf (c :: cs) then
            [] :: splitGo p f (List.drop p.length (c :: cs))
          else match splitGo p f cs with
            | [] => [[c]]
            | s :: ss => (c :: s) :: ss) =
          (if p ≠ [] ∧ p.isPrefixOf (c :: cs) then
            [] :: splitGo p f2 (List.drop p.length (c :: cs))
          else match splitGo p f2 cs with
            | [] => [[c]]
            | s :: ss => (c :: s) :: ss)
        simp only [List.length_cons] at hs h2
        by_cases h : p ≠ [] ∧ p.isPrefixOf (c :: cs)
        · rw [if_pos h, if_pos h]
          have hp : 0 < p.length := List.length_pos.mpr h.1
          have hd : (List.drop p.length (c :: cs)).length ≤ f := by
            simp only [List.length_drop, List.length_cons]
            omega
          have hd2 : (List.drop p.length (c :: cs)).length ≤ f2 := by
            simp only [List.length_drop, List.length_cons]
            omega
          rw [ih _ hd _ hd2]
        · rw [if_neg h, if_neg h]
          rw [ih cs (by omega) f2 (by omega)]

theorem replL_cons (p v : List Char) (c : Char) (cs : List Char) :
    replL p v (c :: cs) =
      if p ≠ [] ∧ p.isPrefixOf (c :: cs) then
        v ++ replL p v (List.drop p.length (c :: cs))
      else c :: replL p v cs := by
  show (if p ≠ [] ∧ p.isPrefixOf (c :: cs) then
      v ++ replGo p v cs.length (List.drop p.length (c :: cs))
    else c :: replGo p v cs.length cs) = _
  by_cases h : p ≠ [] ∧ p.isPrefixOf (c :: cs)
  · rw [if_pos h, if_pos h]
    have hp : 0 < p.length := List.length_pos.mpr h.1
    have hd : (List.drop p.length (c :: cs)).length ≤ cs.length := by
      simp only [List.length_drop, List.length_cons]
      omega
    rw [replGo_congr p v cs.length _ hd _ (Nat.le_refl _)]
    rfl
  · rw [if_neg h, if_neg h]
    rfl

theorem splitL_cons (p : List Char) (c : Char) (cs : List Char) :
    splitL p (c :: cs) =
      if p ≠ [] ∧ p.isPrefixOf (c :: cs) then
        [] :: splitL p (List.drop p.length (c :: cs))
      else match splitL p cs with
        | [] => [[c]]
        | s :: ss => (c :: s) :: ss := by
  show (if p ≠ [] ∧ p.isPrefixOf (c :: cs) then
      [] :: splitGo p cs.length (List.drop p.length (c :: cs))
    else match splitGo p cs.length cs with
      | [] => [[c]]
      | s :: ss => (c :: s) :: ss) = _
  by_cases h : p ≠ [] ∧ p.isPrefixOf (c :: cs)
  · rw [if_pos h, if_pos h]
    have hp : 0 < p.length := List.length_pos.mpr h.1
    have hd : (List.drop p.length (c :: cs)).length ≤ cs.length := by
      simp only [List.length_drop, List.length_cons]
      omega
    rw [splitGo_congr p cs.length _ hd _ (Nat.le_refl _)]
    rfl
  · rw [if_neg h, if_neg h]
    rfl

/-- Python `str.replace` on strings. -/
def pyReplace (s pat rep : String) : String :=
  ⟨replL pat.data rep.data s.data⟩

/-- Python `str.split(sep)` on strings. -/
def pySplit (s sep : String) : List String :=
  (splitL sep.data s.data).map fun cs => ⟨cs⟩

/-- Joining with a fixed separator (the shape `replace` produces). -/
def joinWith (v : List Char) : List (List Char) → List Char
  | [] => []
  | [x] => x
  | x :: rest => x ++ v ++ joinWith v rest

theorem splitL_ne_nil (p : List Char) (s : List Char) : splitL p s ≠ [] := by
  cases s with
  | nil => simp [splitL, splitGo_nil]
  | cons c cs =>
    rw [splitL_cons]
    split
    · simp
    · split <;> simp

theorem replL_eq_joinWith (p v : List Char) :
    ∀ (n : Nat) (s : List Char), s.length ≤ n →
      replL p v s = joinWith v (splitL p s) := by
  intro n
  induction n with
  | zero =>
    intro s hs
    have : s = [] := List.eq_nil_of_length_eq_zero (Nat.le_zero.mp hs)
    subst this
    simp [replL, splitL, replGo_nil, splitGo_nil, joinWith]
  | succ n ih =>
    intro s hs
    cases s with
    | nil => simp [replL, splitL, replGo_nil, splitGo_nil, joinWith]
    | cons c cs =>
      rw [replL_cons, splitL_cons]
      by_cases h : p ≠ [] ∧ p.isPrefixOf (c :: cs)
      · rw [if_pos h, if_pos h]
        have hp : 0 < p.length := List.length_pos.mpr h.1
        have hlen : (List.drop p.length (c :: cs)).length ≤ n := by
          simp only [List.length_drop, List.length_cons]
          simp only [List.length_cons] at hs
          omega
        rw [ih _ hlen]
        have hne := splitL_ne_nil p (List.drop p.length (c :: cs))
        cases hsp : splitL p (List.drop p.length (c :: cs)) with
        | nil => exact absurd hsp hne
        | cons a as => simp [joinWith]
      · rw [if_neg h, if_neg h]
        have hlen : cs.length ≤ n := by
          simp only [List.length_cons] at hs
          omega
        rw [ih _ hlen]
        have hne := splitL_ne_nil p cs
        cases hsp : splitL p cs with
        | nil => exact absurd hsp hne
        | cons a as =>
          cases as with
          | nil => simp [joinWith]
          | cons b bs => simp [joinWith]

theorem prefix_head {p : List Char} {c : Char} {z : List Char}
    (h : p.isPrefixOf (c :: z) = true) (hne : p ≠ []) : p.head? = some c := by
  rw [List.isPrefixOf_iff_prefix] at h
  cases p with
  | nil => exact absurd rfl hne
  | cons a p2 =>
    have := (List.cons_prefix_cons.mp h).1
    simp [this]

theorem replL_notstart (p v : List Char) (hne : p ≠ [])
    (w y : List Char) (hw : ∀ c ∈ w, p.head? ≠ some c) :
    replL p v (w ++ y) = w ++ replL p v y := by
  induction w with
  | nil => simp
  | cons c w2 ih =>
    rw [List.cons_append, replL_cons]
    have hg : ¬ (p ≠ [] ∧ p.isPrefixOf (c :: (w2 ++ y)) = true) := by
      rintro ⟨h1, h2⟩
      exact hw c (List.mem_cons_self c w2) (prefix_head h2 h1)
    rw [if_neg hg, ih (fun d hd => hw d (List.mem_cons_of_mem _ hd))]
    simp

/-- If the inserted chunk `w` cannot overlap an occurrence of the pattern
`p` (it contains neither the first nor the last character of `p` and is
not an infix of `p`), then replacement passes over `w` untouched and
treats the two sides independently. -/
theorem replL_skip (p v w : List Char) (hne : p ≠ [])
    (hhw : ∀ c ∈ w, p.head? ≠ some c)
    (hlw : ∀ c ∈ w, p.getLast? ≠ some c)
    (hinf : ¬ w <:+: p) :
    ∀ (n : Nat) (x y : List Char), x.length ≤ n →
      replL p v (x ++ w ++ y) = replL p v x ++ w ++ replL p v y := by
  intro n
  induction n with
  | zero =>
    intro x y hx
    have : x = [] := List.eq_nil_of_length_eq_zero (Nat.le_zero.mp hx)
    subst this
    simp only [List.nil_append]
    rw [replL_notstart p v hne w y hhw]
    simp [replL, replGo_nil]
  | succ n ih =>
    intro x y hx
    cases x with
    | nil =>
      simp only [List.nil_append]
      rw [replL_notstart p v hne w y hhw]
      simp [replL, replGo_nil]
    | cons a x2 =>
      have hassoc : (a :: x2) ++ w ++ y = a :: (x2 ++ (w ++ y)) := by simp
      by_cases g : p.isPrefixOf (a :: (x2 ++ (w ++ y))) = true
      · -- the pattern matches here: it must lie entirely within `a :: x2`
        have gpre : p <+: (a :: x2) ++ (w ++ y) := by
          have := List.isPrefixOf_iff_prefix.mp g
          simpa using this
        have hwne : w ≠ [] := by
          intro hw0
          exact hinf (hw0 ▸ List.nil_infix)
        have hpx : p <+: a :: x2 := by
          by_contra hnpx
          have hgt : (a :: x2).length < p.length := by
            by_contra hle
            exact hnpx (List.prefix_of_prefix_length_le gpre
              (List.prefix_append _ _) (Nat.le_of_not_lt hle))
          have hxp : (a :: x2) <+: p :=
            List.prefix_of_prefix_length_le (List.prefix_append _ _) gpre
              (Nat.le_of_lt hgt)
          obtain ⟨t, ht⟩ := hxp
          have htne : t ≠ [] := by
            intro ht0
            rw [ht0, List.append_nil] at ht
            rw [← ht] at hgt
            exact Nat.lt_irrefl _ hgt
          have htpre : t <+: w ++ y := by
            have hh : (a :: x2) ++ t <+: (a :: x2) ++ (w ++ y) := by
              rw [ht]; exact gpre
            exact (List.prefix_append_right_inj _).mp hh
          by_cases hlen : t.length ≤ w.length
          · have htw : t <+: w :=
              List.prefix_of_prefix_length_le htpre (List.prefix_append _ _) hlen
            have hlast : p.getLast? = t.getLast? := by
              rw [← ht]
              exact List.getLast?_append_of_ne_nil _ htne
            have hmem : t.getLast htne ∈ w := htw.subset (List.getLast_mem htne)
            exact hlw _ hmem
              (by rw [hlast]; exact List.getLast?_eq_getLast_of_ne_nil htne)
          · have hwt : w <+: t :=
              List.prefix_of_prefix_length_le (List.prefix_append _ _) htpre
                (Nat.le_of_not_le hlen)
            have hts : t <:+ p := ⟨a :: x2, ht⟩
            exact hinf (hwt.isInfix.trans hts.isInfix)
        -- now both sides take the replacement branch and drop inside x
        have hplen : p.length ≤ (a :: x2).length := hpx.length_le
        have gx : p.isPrefixOf (a :: x2) = true :=
          List.isPrefixOf_iff_prefix.mpr hpx
        rw [hassoc, replL_cons, if_pos ⟨hne, by simpa using g⟩]
        rw [replL_cons, if_pos ⟨hne, gx⟩]
        have hdrop : List.drop p.length (a :: (x2 ++ (w ++ y))) =
            List.drop p.length (a :: x2) ++ w ++ y := by
          have : a :: (x2 ++ (w ++ y)) = (a :: x2) ++ (w ++ y) := by simp
          rw [this, List.drop_append_of_le_length hplen]
          simp [List.append_assoc]
        rw [hdrop]
        have hlen2 : (List.drop p.length (a :: x2)).length ≤ n := by
          have hp : 0 < p.length := List.length_pos.mpr hne
          simp only [List.length_drop, List.length_cons]
          simp only [List.length_cons] at hx
          omega
        rw [ih _ y hlen2]
        simp
      · have gx : ¬ p.isPrefixOf (a :: x2) = true := by
          intro hcon
          have h1 : p <+: a :: x2 := List.isPrefixOf_iff_prefix.mp hcon
          have h2 : p <+: (a :: x2) ++ (w ++ y) :=
            h1.trans (List.prefix_append _ _)
          exact g (by
            rw [List.isPrefixOf_iff_prefix]
            simpa using h2)
        rw [hassoc, replL_cons, if_neg (by
          rintro ⟨h1, h2⟩
          exact g h2)]
        rw [replL_cons, if_neg (by
          rintro ⟨h1, h2⟩
          exact gx h2)]
        have hlen2 : x2.length ≤ n := by
          simp only [List.length_cons] at hx
          omega
        rw [← List.append_assoc, ih x2 y hlen2]
        simp

/-! ### Placeholder decomposition

A partially substituted template is represented as a list of
(literal, hole-index) pairs followed by a trailing literal: the literals
are verbatim pieces of the original template and each hole records which
placeholder's value sits between them. -/

/-- Concatenation of the (literal, hole) pairs with hole values filled in. -/
def pairsOut (vals : Nat → List Char) : List (List Char × Nat) → List Char
  | [] => []
  | (s, j) :: rest => s ++ vals j ++ pairsOut vals rest

/-- The full text represented by a piece decomposition. -/
def assemblePP (vals : Nat → List Char)
    (pr : List (List Char × Nat) × List Char) : List Char :=
  pairsOut vals pr.1 ++ pr.2

/-- Turn the segments produced by one `split` into pieces, with hole `i`
between consecutive segments. -/
def segsToPieces (i : Nat) : List (List Char) →
    List (List Char × Nat) × List Char
  | [] => ([], [])
  | [s] => ([], s)
  | s :: rest =>
    let pr := segsToPieces i rest
    ((s, i) :: pr.1, pr.2)

/-- Refine a piece decomposition by splitting every literal on pattern `p`,
recording the replacement value as hole `i`. -/
def splitPP (p : List Char) (i : Nat) :
    List (List Char × Nat) × List Char → List (List Char × Nat) × List Char
  | ([], last) => segsToPieces i (splitL p last)
  | ((s, j) :: rest, last) =>
    let pr1 := segsToPieces i (splitL p s)
    let pr2 := splitPP p i (rest, last)
    (pr1.1 ++ (pr1.2, j) :: pr2.1, pr2.2)

/-- Pointwise update of the value assignment. -/
def updVals (vals : Nat → List Char) (i : Nat) (v : List Char) :
    Nat → List Char :=
  fun j => if j = i then v else vals j

theorem pairsOut_append (vals : Nat → List Char)
    (a b : List (List Char × Nat)) :
    pairsOut vals (a ++ b) = pairsOut vals a ++ pairsOut vals b := by
  induction a with
  | nil => simp [pairsOut]
  | cons sj rest ih =>
    obtain ⟨s, j⟩ := sj
    simp [pairsOut, ih]

theorem segsToPieces_assemble (i : Nat) (v : List Char)
    (vals : Nat → List Char) (hvi : vals i = v) :
    ∀ segs : List (List Char),
      assemblePP vals (segsToPieces i segs) = joinWith v segs := by
  intro segs
  induction segs with
  | nil => simp [segsToPieces, assemblePP, pairsOut, joinWith]
  | cons s rest ih =>
    cases rest with
    | nil => simp [segsToPieces, assemblePP, pairsOut, joinWith]
    | cons s2 rest2 =>
      simp only [segsToPieces, assemblePP, pairsOut, joinWith, hvi] at ih ⊢
      rw [← ih]
      simp [List.append_assoc]

theorem segsToPieces_holes (i : Nat) :
    ∀ (segs : List (List Char)) (sj : List Char × Nat),
      sj ∈ (segsToPieces i segs).1 → sj.2 = i := by
  intro segs
  induction segs with
  | nil => intro sj h; simp [segsToPieces] at h
  | cons s rest ih =>
    intro sj h
    cases rest with
    | nil => simp [segsToPieces] at h
    | cons s2 rest2 =>
      simp only [segsToPieces, List.mem_cons] at h
      rcases h with h | h
      · rw [h]
      · exact ih sj h

theorem splitPP_holes (p : List Char) (i : Nat) :
    ∀ (prs : List (List Char × Nat)) (last : List Char)
      (sj : List Char × Nat), sj ∈ (splitPP p i (prs, last)).1 →
      sj.2 = i ∨ sj.2 ∈ prs.map (·.2) := by
  intro prs
  induction prs with
  | nil =>
    intro last sj h
    simp only [splitPP] at h
    exact Or.inl (segsToPieces_holes i _ sj h)
  | cons hd rest ih =>
    obtain ⟨s, j⟩ := hd
    intro last sj h
    simp only [splitPP, List.mem_append, List.mem_cons] at h
    rcases h with h | h | h
    · exact Or.inl (segsToPieces_holes i _ sj h)
    · rw [h]; simp
    · rcases ih last sj h with h2 | h2
      · exact Or.inl h2
      · right; simp [h2]

/-- One replacement step refines the piece decomposition: provided none of
the already inserted values can overlap an occurrence of `p`, replacing
`p` by `v` in the assembled text is the same as splitting every literal
piece on `p` and assigning `v` to the fresh hole `i`. -/
theorem replL_assemblePP (p v : List Char) (i : Nat) (hne : p ≠ []) :
    ∀ (prs : List (List Char × Nat)) (last : List Char)
      (vals : Nat → List Char),
      (∀ sj ∈ prs, (∀ c ∈ vals sj.2, p.head? ≠ some c) ∧
        (∀ c ∈ vals sj.2, p.getLast? ≠ some c) ∧
        ¬ (vals sj.2) <:+: p ∧ sj.2 ≠ i) →
      replL p v (assemblePP vals (prs, last)) =
        assemblePP (updVals vals i v) (splitPP p i (prs, last)) := by
  intro prs
  induction prs with
  | nil =>
    intro last vals _
    simp only [assemblePP, pairsOut, List.nil_append, splitPP]
    rw [replL_eq_joinWith p v last.length last (Nat.le_refl _)]
    have hseg := segsToPieces_assemble i v (updVals vals i v)
      (by simp [updVals]) (splitL p last)
    simp only [assemblePP] at hseg
    exact hseg.symm
  | cons hd rest ih =>
    obtain ⟨s, j⟩ := hd
    intro last vals hcond
    have hj := hcond (s, j) (List.mem_cons_self _ _)
    have hskip := replL_skip p v (vals j) hne hj.1 hj.2.1 hj.2.2.1
      s.length s (pairsOut vals rest ++ last) (Nat.le_refl _)
    have hassem : assemblePP vals ((s, j) :: rest, last) =
        s ++ vals j ++ (pairsOut vals rest ++ last) := by
      simp [assemblePP, pairsOut, List.append_assoc]
    rw [hassem, hskip]
    have hrest := ih last vals
      (fun sj hsj => hcond sj (List.mem_cons_of_mem _ hsj))
    have hrest2 : replL p v (pairsOut vals rest ++ last) =
        assemblePP (updVals vals i v) (splitPP p i (rest, last)) := by
      rw [← hrest]
      simp [assemblePP]
    rw [hrest2]
    have hs : replL p v s =
        assemblePP (updVals vals i v) (segsToPieces i (splitL p s)) := by
      rw [replL_eq_joinWith p v s.length s (Nat.le_refl _)]
      rw [segsToPieces_assemble i v (updVals vals i v) (by simp [updVals])]
    rw [hs]
    have hjne : updVals vals i v j = vals j := by
      simp [updVals, hj.2.2.2]
    simp only [splitPP, assemblePP, pairsOut_append, pairsOut, hjne]
    simp [List.append_assoc]

theorem assemblePP_congr (vals vals2 : Nat → List Char)
    (prs : List (List Char × Nat)) (last : List Char)
    (h : ∀ sj ∈ prs, vals sj.2 = vals2 sj.2) :
    assemblePP vals (prs, last) = assemblePP vals2 (prs, last) := by
  induction prs with
  | nil => rfl
  | cons hd rest ih =>
    obtain ⟨s, j⟩ := hd
    simp only [assemblePP, pairsOut]
    rw [h (s, j) (List.mem_cons_self _ _)]
    have := ih (fun sj hsj => h sj (List.mem_cons_of_mem _ hsj))
    simp only [assemblePP] at this
    simp [List.append_assoc] at this ⊢
    exact this

theorem lit_infix_pairsOut (vals : Nat → List Char) :
    ∀ (prs : List (List Char × Nat)) (last s : List Char) (j : Nat),
      (s, j) ∈ prs → s <:+: (pairsOut vals prs ++ last) := by
  intro prs
  induction prs with
  | nil => intro last s j h; simp at h
  | cons hd rest ih =>
    obtain ⟨s0, j0⟩ := hd
    intro last s j h
    rcases List.mem_cons.mp h with h | h
    · injection h with h1 h2
      subst h1
      exact ⟨[], vals j0 ++ (pairsOut vals rest ++ last), by
        simp [pairsOut, List.append_assoc]⟩
    · have hsuf : (pairsOut vals rest ++ last) <:+
          (pairsOut vals ((s0, j0) :: rest) ++ last) :=
        ⟨s0 ++ vals j0, by simp [pairsOut, List.append_assoc]⟩
      exact (ih last s j h).trans hsuf.isInfix

theorem last_infix_assemblePP (vals : Nat → List Char)
    (prs : List (List Char × Nat)) (last : List Char) :
    last <:+: assemblePP vals (prs, last) :=
  (List.suffix_append (pairsOut vals prs) last).isInfix

/-! ### The six placeholders of `template.html` and the renderer's
substitution chain (render.py lines 396-401, 409, 413). -/

def tokDATE_HUMAN : List Char := "\x7b\x7bDATE_HUMAN\x7d\x7d".data

def tokDATE_DAY : List Char := "\x7b\x7bDATE_DAY\x7d\x7d".data

def tokDATE_MONTH : List Char := "\x7b\x7bDATE_MONTH\x7d\x7d".data

def tokCONTENT : List Char := "\x7b\x7bCONTENT\x7d\x7d".data

def tokGENERATED : List Char := "\x7b\x7bGENERATED_AT_UTC\x7d\x7d".data

def tokARCHIVE_NAV : List Char := "\x7b\x7bARCHIVE_NAV\x7d\x7d".data

def phTokens : List (List Char) :=
  [tokDATE_HUMAN, tokDATE_DAY, tokDATE_MONTH, tokCONTENT, tokGENERATED,
    tokARCHIVE_NAV]

/-- The first five `out.replace(...)` calls of `render.py` `main`. -/
def substituteAll (tpl dh dd dm ct ga : String) : String :=
  pyReplace (pyReplace (pyReplace (pyReplace (pyReplace tpl
    "\x7b\x7bDATE_HUMAN\x7d\x7d" dh)
    "\x7b\x7bDATE_DAY\x7d\x7d" dd)
    "\x7b\x7bDATE_MONTH\x7d\x7d" dm)
    "\x7b\x7bCONTENT\x7d\x7d" ct)
    "\x7b\x7bGENERATED_AT_UTC\x7d\x7d" ga

/-- The final `replace("{{ARCHIVE_NAV}}", archive_nav)` applied to both
written pages. -/
def substituteNav (out nav : String) : String :=
  pyReplace out "\x7b\x7bARCHIVE_NAV\x7d\x7d" nav

/-- The decomposition of a template into literal pieces and the six
placeholder holes, following the order of the replacement chain. -/
def templatePieces (tpl : List Char) :
    List (List Char × Nat) × List Char :=
  splitPP tokARCHIVE_NAV 5 (splitPP tokGENERATED 4 (splitPP tokCONTENT 3
    (splitPP tokDATE_MONTH 2 (splitPP tokDATE_DAY 1
      (splitPP tokDATE_HUMAN 0 ([], tpl))))))

/-- A substitution value that cannot interfere with any later placeholder
replacement: it contains no brace characters and is not a fragment of any
placeholder token. -/
def safeVal (w : List Char) : Prop :=
  obr ∉ w ∧ cbr ∉ w ∧ ∀ t ∈ phTokens, ¬ w <:+: t

instance (w : List Char) : Decidable (safeVal w) := by
  unfold safeVal
  infer_instance

theorem step_ok (tok : List Char) (k : Nat) (v : List Char)
    (vals : Nat → List Char) (pr : List (List Char × Nat) × List Char)
    (hhead : tok.head? = some obr) (hlast : tok.getLast? = some cbr)
    (hne : tok ≠ [])
    (hholes : ∀ sj ∈ pr.1, sj.2 < k)
    (hv : ∀ m, m < k → obr ∉ vals m ∧ cbr ∉ vals m ∧ ¬ vals m <:+: tok) :
    replL tok v (assemblePP vals pr) =
      assemblePP (updVals vals k v) (splitPP tok k pr) := by
  obtain ⟨prs, last⟩ := pr
  apply replL_assemblePP tok v k hne prs last vals
  intro sj hsj
  have hm := hholes sj hsj
  obtain ⟨h1, h2, h3⟩ := hv sj.2 hm
  refine ⟨fun c hc heq => ?_, fun c hc heq => ?_, h3, Nat.ne_of_lt hm⟩
  · rw [hhead] at heq
    injection heq with he
    exact h1 (by rw [he]; exact hc)
  · rw [hlast] at heq
    injection heq with he
    exact h2 (by rw [he]; exact hc)

theorem splitPP_holes_bound (p : List Char) (i : Nat)
    (pr : List (List Char × Nat) × List Char)
    (hh : ∀ sj ∈ pr.1, sj.2 < i) :
    ∀ sj ∈ (splitPP p i pr).1, sj.2 < i + 1 := by
  obtain ⟨prs, last⟩ := pr
  intro sj hsj
  rcases splitPP_holes p i prs last sj hsj with h | h
  · omega
  · rw [List.mem_map] at h
    obtain ⟨x, hx, hx2⟩ := h
    have := hh x hx
    omega

/-- C5: the renderer's pages are produced purely by string substitution of
the six placeholders in the template: the written HTML equals the
template's literal pieces interleaved with the six substituted values, so
every part of the template text outside the placeholder occurrences
appears unchanged (as a contiguous fragment, in order) in the written
page.  The hypotheses ask that the first five substituted values contain
no brace character and are not fragments of a placeholder token, which
excludes values that could splice with surrounding template text into a
new placeholder occurrence. -/
theorem C5_pure_substitution (tpl dh dd dm ct ga nav : String)
    (hdh : safeVal dh.data) (hdd : safeVal dd.data)
    (hdm : safeVal dm.data) (hct : safeVal ct.data)
    (hga : safeVal ga.data) :
    (substituteNav (substituteAll tpl dh dd dm ct ga) nav).data =
      assemblePP (fun j => [dh.data, dd.data, dm.data, ct.data, ga.data,
        nav.data].getD j []) (templatePieces tpl.data) ∧
    (∀ s j, (s, j) ∈ (templatePieces tpl.data).1 →
      s <:+: (substituteNav (substituteAll tpl dh dd dm ct ga) nav).data) ∧
    (templatePieces tpl.data).2 <:+:
      (substituteNav (substituteAll tpl dh dd dm ct ga) nav).data := by
  have hb1 := splitPP_holes_bound tokDATE_HUMAN 0 (([] : List (List Char × Nat)), tpl.data) (by simp)
  have hb2 := splitPP_holes_bound tokDATE_DAY 1 (splitPP tokDATE_HUMAN 0 (([] : List (List Char × Nat)), tpl.data)) hb1
  have hb3 := splitPP_holes_bound tokDATE_MONTH 2 (splitPP tokDATE_DAY 1 (splitPP tokDATE_HUMAN 0 (([] : List (List Char × Nat)), tpl.data))) hb2
  have hb4 := splitPP_holes_bound tokCONTENT 3 (splitPP tokDATE_MONTH 2 (splitPP tokDATE_DAY 1 (splitPP tokDATE_HUMAN 0 (([] : List (List Char × Nat)), tpl.data)))) hb3
  have hb5 := splitPP_holes_bound tokGENERATED 4 (splitPP tokCONTENT 3 (splitPP tokDATE_MONTH 2 (splitPP tokDATE_DAY 1 (splitPP tokDATE_HUMAN 0 (([] : List (List Char × Nat)), tpl.data))))) hb4
  have hb6 := splitPP_holes_bound tokARCHIVE_NAV 5 (splitPP tokGENERATED 4 (splitPP tokCONTENT 3 (splitPP tokDATE_MONTH 2 (splitPP tokDATE_DAY 1 (splitPP tokDATE_HUMAN 0 (([] : List (List Char × Nat)), tpl.data)))))) hb5
  have e1 := step_ok tokDATE_HUMAN 0 dh.data (fun _ => ([] : List Char))
    (([] : List (List Char × Nat)), tpl.data) rfl (by decide) (by decide)
    (by simp)
    (fun m hm => absurd hm (Nat.not_lt_zero m))
  have e2 := step_ok tokDATE_DAY 1 dd.data (updVals (fun _ => ([] : List Char)) 0 dh.data)
    (splitPP tokDATE_HUMAN 0 (([] : List (List Char × Nat)), tpl.data)) rfl (by decide) (by decide)
    hb1
    (by
    intro m hm
    interval_cases m
    · exact ⟨hdh.1, hdh.2.1, hdh.2.2 tokDATE_DAY (by simp [phTokens])⟩)
  have e3 := step_ok tokDATE_MONTH 2 dm.data (updVals (updVals (fun _ => ([] : List Char)) 0 dh.data) 1 dd.data)
    (splitPP tokDATE_DAY 1 (splitPP tokDATE_HUMAN 0 (([] : List (List Char × Nat)), tpl.data))) rfl (by decide) (by decide)
    hb2
    (by
    intro m hm
    interval_cases m
    · exact ⟨hdh.1, hdh.2.1, hdh.2.2 tokDATE_MONTH (by simp [phTokens])⟩
    · exact ⟨hdd.1, hdd.2.1, hdd.2.2 tokDATE_MONTH (by simp [phTokens])⟩)
  have e4 := step_ok tokCONTENT 3 ct.data (updVals (updVals (updVals (fun _ => ([] : List Char)) 0 dh.data) 1 dd.data) 2 dm.data)
    (splitPP tokDATE_MONTH 2 (splitPP tokDATE_DAY 1 (splitPP tokDATE_HUMAN 0 (([] : List (List Char × Nat)), tpl.data)))) rfl (by decide) (by decide)
    hb3
    (by
    intro m hm
    interval_cases m
    · exact ⟨hdh.1, hdh.2.1, hdh.2.2 tokCONTENT (by simp [phTokens])⟩
    · exact ⟨hdd.1, hdd.2.1, hdd.2.2 tokCONTENT (by simp [phTokens])⟩
    · exact ⟨hdm.1, hdm.2.1, hdm.2.2 tokCONTENT (by simp [phTokens])⟩)
  have e5 := step_ok tokGENERATED 4 ga.data (updVals (updVals (updVals (updVals (fun _ => ([] : List Char)) 0 dh.data) 1 dd.data) 2 dm.data) 3 ct.data)
    (splitPP tokCONTENT 3 (splitPP tokDATE_MONTH 2 (splitPP tokDATE_DAY 1 (splitPP tokDATE_HUMAN 0 (([] : List (List Char × Nat)), tpl.data))))) rfl (by decide) (by decide)
    hb4
    (by
    intro m hm
    interval_cases m
    · exact ⟨hdh.1, hdh.2.1, hdh.2.2 tokGENERATED (by simp [phTokens])⟩
    · exact ⟨hdd.1, hdd.2.1, hdd.2.2 tokGENERATED (by simp [phTokens])⟩
    · exact ⟨hdm.1, hdm.2.1, hdm.2.2 tokGENERATED (by simp [phTokens])⟩
    · exact ⟨hct.1, hct.2.1, hct.2.2 tokGENERATED (by simp [phTokens])⟩)
  have e6 := step_ok tokARCHIVE_NAV 5 nav.data (updVals (updVals (updVals (updVals (updVals (fun _ => ([] : List Char)) 0 dh.data) 1 dd.data) 2 dm.data) 3 ct.data) 4 ga.data)
    (splitPP tokGENERATED 4 (splitPP tokCONTENT 3 (splitPP tokDATE_MONTH 2 (splitPP tokDATE_DAY 1 (splitPP tokDATE_HUMAN 0 (([] : List (List Char × Nat)), tpl.data)))))) rfl (by decide) (by decide)
    hb5
    (by
    intro m hm
    interval_cases m
    · exact ⟨hdh.1, hdh.2.1, hdh.2.2 tokARCHIVE_NAV (by simp [phTokens])⟩
    · exact ⟨hdd.1, hdd.2.1, hdd.2.2 tokARCHIVE_NAV (by simp [phTokens])⟩
    · exact ⟨hdm.1, hdm.2.1, hdm.2.2 tokARCHIVE_NAV (by simp [phTokens])⟩
    · exact ⟨hct.1, hct.2.1, hct.2.2 tokARCHIVE_NAV (by simp [phTokens])⟩
    · exact ⟨hga.1, hga.2.1, hga.2.2 tokARCHIVE_NAV (by simp [phTokens])⟩)
  have hkey : (substituteNav (substituteAll tpl dh dd dm ct ga) nav).data =
      assemblePP (updVals (updVals (updVals (updVals (updVals (updVals (fun _ => ([] : List Char)) 0 dh.data) 1 dd.data) 2 dm.data) 3 ct.data) 4 ga.data) 5 nav.data) (templatePieces tpl.data) := by
    show replL tokARCHIVE_NAV nav.data (replL tokGENERATED ga.data
      (replL tokCONTENT ct.data (replL tokDATE_MONTH dm.data
        (replL tokDATE_DAY dd.data
          (replL tokDATE_HUMAN dh.data tpl.data))))) = _
    have h0 : tpl.data = assemblePP (fun _ => ([] : List Char))
        (([] : List (List Char × Nat)), tpl.data) := by
      simp [assemblePP, pairsOut]
    rw [h0, e1, e2, e3, e4, e5, e6]
    rfl
  rcases htp : templatePieces tpl.data with ⟨prs, last⟩
  have hb6p : ∀ sj ∈ prs, sj.2 < 6 := by
    intro sj hsj
    apply hb6 sj
    show sj ∈ ((splitPP tokARCHIVE_NAV 5 (splitPP tokGENERATED 4 (splitPP tokCONTENT 3 (splitPP tokDATE_MONTH 2 (splitPP tokDATE_DAY 1 (splitPP tokDATE_HUMAN 0 (([] : List (List Char × Nat)), tpl.data)))))))).1
    rw [show ((splitPP tokARCHIVE_NAV 5 (splitPP tokGENERATED 4 (splitPP tokCONTENT 3 (splitPP tokDATE_MONTH 2 (splitPP tokDATE_DAY 1 (splitPP tokDATE_HUMAN 0 (([] : List (List Char × Nat)), tpl.data)))))))) = templatePieces tpl.data from rfl, htp]
    exact hsj
  have hcongr : assemblePP (updVals (updVals (updVals (updVals (updVals (updVals (fun _ => ([] : List Char)) 0 dh.data) 1 dd.data) 2 dm.data) 3 ct.data) 4 ga.data) 5 nav.data) (prs, last) =
      assemblePP (fun j => [dh.data, dd.data, dm.data, ct.data, ga.data,
        nav.data].getD j []) (prs, last) := by
    apply assemblePP_congr
    intro sj hsj
    obtain ⟨s, j⟩ := sj
    have h6 := hb6p (s, j) hsj
    simp only at h6
    interval_cases j <;> rfl
  refine ⟨?_, ?_, ?_⟩
  · rw [hkey, htp]
    exact hcongr
  · intro s j hmem
    rw [hkey, htp]
    exact lit_infix_pairsOut _ prs last s j hmem
  · rw [hkey, htp]
    exact last_infix_assemblePP _ prs last

/-- C5 witness: a concrete template and concrete substitution values
satisfying the safety hypotheses, with the substitution chain evaluating
to the assembled piece decomposition. -/
theorem C5_witness :
    safeVal ("1" : String).data ∧ safeVal ("2" : String).data ∧
    safeVal ("3" : String).data ∧ safeVal ("4" : String).data ∧
    safeVal ("5" : String).data ∧
    (substituteNav (substituteAll "a\x7b\x7bCONTENT\x7d\x7db"
        "1" "2" "3" "4" "5") "6").data =
      assemblePP (fun j => [("1" : String).data, ("2" : String).data,
        ("3" : String).data, ("4" : String).data, ("5" : String).data,
        ("6" : String).data].getD j [])
        (templatePieces ("a\x7b\x7bCONTENT\x7d\x7db" : String).data) :=
  ⟨by decide, by decide, by decide, by decide, by decide,
    (C5_pure_substitution "a\x7b\x7bCONTENT\x7d\x7db" "1" "2" "3" "4" "5" "6"
      (by decide) (by decide) (by decide) (by decide) (by decide)).1⟩

/-! ## `scripts/render.py` -/

/-- Python `x or y` on parsed-JSON values. -/
def pyOrJ (a b : Json) : Json := if pyTruthy a then a else b

/-- `dict.get` on a value that must be a dict (`AttributeError` otherwise). -/
def jgetE (j : Json) (key : String) : Except String (Option Json) :=
  match j with
  | .obj kvs => .ok (jlookup kvs key)
  | _ => .error "AttributeError"

/-- Turn `dict.get`'s result into the Python value (`None` when absent). -/
def optJ : Option Json → Json
  | some v => v
  | none => .null

/-- Python `len` on a parsed-JSON value. -/
def pyLen : Json → Except String Nat
  | .arr l => .ok l.length
  | .str s => .ok s.data.length
  | .obj kvs => .ok kvs.length
  | _ => .error "TypeError: object has no len"

/-- Python iteration over a parsed-JSON value: lists yield their elements,
strings their characters (as one-character strings) and dicts their keys;
everything else raises `TypeError`. -/
def pyIter : Json → Except String (List Json)
  | .arr l => .ok l
  | .str s => .ok (s.data.map fun c => .str ⟨[c]⟩)
  | .obj kvs => .ok (kvs.map fun kv => .str kv.1)
  | _ => .error "TypeError: not iterable"

/-- Python slicing `x[:n]` (lists and strings only). -/
def pySliceJ (j : Json) (n : Nat) : Except String Json :=
  match j with
  | .arr l => .ok (.arr (l.take n))
  | .str s => .ok (.str ⟨s.data.take n⟩)
  | _ => .error "TypeError: unsliceable"

/-- Python `sep.join(parts)`. -/
def joinSep (sep : String) : List String → String
  | [] => ""
  | [x] => x
  | x :: rest => x ++ sep ++ joinSep sep rest

/-- Zero-padded decimal rendering. -/
def padNat (width n : Nat) : String :=
  let s := toString n
  if s.data.length < width then
    ⟨List.replicate (width - s.data.length) (Char.ofNat 48) ++ s.data⟩
  else s

/-- `datetime.strftime("%Y-%m-%d")` of a date. -/
def fmtDate (y m d : Nat) : String :=
  padNat 4 y ++ "-" ++ padNat 2 m ++ "-" ++ padNat 2 d

/-- Decimal digits to a number, `none` if empty or non-digit. -/
def parseDigits (cs : List Char) : Option Nat :=
  if cs.isEmpty ∨ cs.any (fun c => !c.isDigit) then none
  else some (cs.foldl (fun acc c => acc * 10 + (c.toNat - 48)) 0)

/-- Gregorian leap year (as `calendar.isleap`). -/
def isLeap (y : Nat) : Bool :=
  y % 4 = 0 && (y % 100 ≠ 0 || y % 400 = 0)

/-- Days in month, for `datetime`'s day-of-month validation. -/
def daysInMonth (y m : Nat) : Nat :=
  if m = 2 then (if isLeap y then 29 else 28)
  else if m = 4 ∨ m = 6 ∨ m = 9 ∨ m = 11 then 30
  else 31

/-- `datetime.strptime(s, "%Y-%m-%d")`: exactly four year digits, one or
two month/day digits, in-range month and day-of-month, year at least 1
(`datetime.MINYEAR`); `none` models the `ValueError`. -/
def strptimeYMD (s : String) : Option (Nat × Nat × Nat) :=
  match pySplit s "-" with
  | [ys, ms, ds] =>
    if ys.data.length ≠ 4 then none
    else
      match parseDigits ys.data, parseDigits ms.data, parseDigits ds.data with
      | some y, some m, some d =>
        if ms.data.length ≤ 2 ∧ ds.data.length ≤ 2 ∧ 1 ≤ y ∧
            1 ≤ m ∧ m ≤ 12 ∧ 1 ≤ d ∧ d ≤ daysInMonth y m then
          some (y, m, d)
        else none
      | _, _, _ => none
  | _ => none

/-- `strftime("%B")` month names. -/
def monthName : Nat → String
  | 1 => "January" | 2 => "February" | 3 => "March" | 4 => "April"
  | 5 => "May" | 6 => "June" | 7 => "July" | 8 => "August"
  | 9 => "September" | 10 => "October" | 11 => "November" | 12 => "December"
  | _ => ""

/-- `html_escape` from `render.py`: the five sequential `str.replace`
calls. -/
def html_escape (s : String) : String :=
  pyReplace (pyReplace (pyReplace (pyReplace (pyReplace s
    "&" "&amp;") "<" "&lt;") ">" "&gt;") "\"" "&quot;") ⟨[sq]⟩ "&#39;"

/-- The link markup built for one source entry. -/
def sourceLink (src : Json) : Except String String :=
  match src with
  | .obj _ =>
    let name := html_escape (pyStr (jgetD src "name" (.str "source")))
    let url := html_escape (pyStr (jgetD src "url" (.str "")))
    .ok (if url ≠ "" then
      "<a href=\"" ++ url ++ "\" target=\"_blank\">" ++ name ++ "</a>"
    else name)
  | _ => .error "AttributeError"

/-- The per-source loop of `render_sources`. -/
def renderSourceList : List Json → Except String (List String)
  | [] => .ok []
  | s :: rest =>
    match sourceLink s with
    | .error e => .error e
    | .ok link =>
      match renderSourceList rest with
      | .error e => .error e
      | .ok links => .ok (link :: links)

/-- `render_sources` from `render.py`.  A falsy argument returns `""`;
iterating a truthy string or dict yields strings, whose `.get` raises
`AttributeError`; other truthy non-lists are not iterable. -/
def render_sources (sources : Json) : Except String String :=
  if !pyTruthy sources then .ok ""
  else
    match sources with
    | .arr l =>
      match renderSourceList l with
      | .error e => .error e
      | .ok links => .ok (joinSep "、" links)
    | .str _ => .error "AttributeError"
    | .obj _ => .error "AttributeError"
    | _ => .error "TypeError: not iterable"

/-- The parts emitted for one card by `render_cards`. -/
def renderCardParts (it : Json) (badge_color tag : Option String) :
    Except String (List String) :=
  match it with
  | .obj _ =>
    let title := html_escape (pyStr (jgetD it "title" (.str "")))
    let when := html_escape (pyStr (jgetD it "time" (.str "")))
    let what := html_escape (pyStr (jgetD it "what" (.str "")))
    let why := html_escape (pyStr (jgetD it "why" (.str "")))
    match render_sources (pyOrJ (jgetD it "sources" (.arr [])) (.arr [])) with
    | .error e => .error e
    | .ok sources_html =>
      let color_style :=
        match badge_color with
        | some bc => if bc ≠ "" then " style=\"background: " ++ bc ++ ";\"" else ""
        | none => ""
      let meta :=
        (match tag with
         | some t => if t ≠ "" then ["<span class=\"tag\">" ++ html_escape t ++ "</span>"] else []
         | none => []) ++
        (if when ≠ "" then ["<span>📅 " ++ when ++ "</span>"] else [])
      .ok (["<div class=\"card\">",
        "<div class=\"card-headline\">",
        "<div class=\"card-badge\"" ++ color_style ++ "></div>",
        "<h3 class=\"card-title\">" ++ title ++ "</h3>",
        "</div>"] ++
        (if !meta.isEmpty then
          ["<div class=\"card-meta\">" ++ joinSep "\n" meta ++ "</div>"]
        else []) ++
        ["<div class=\"card-content\">"] ++
        (if why ≠ "" then ["<strong>为什么重要：</strong>" ++ why] else []) ++
        (if what ≠ "" then
          ["<div style=\"margin-top: 10px;\"><strong>事件：</strong>" ++ what ++ "</div>"]
        else []) ++
        ["</div>"] ++
        (if sources_html ≠ "" then
          ["<div class=\"card-sources\">", "来源：" ++ sources_html, "</div>"]
        else []) ++
        ["</div>"])
  | _ => .error "AttributeError"

/-- The per-item loop of `render_cards`. -/
def renderCardList (badge_color tag : Option String) :
    List Json → Except String (List String)
  | [] => .ok []
  | it :: rest =>
    match renderCardParts it badge_color tag with
    | .error e => .error e
    | .ok parts =>
      match renderCardList badge_color tag rest with
      | .error e => .error e
      | .ok more => .ok (parts ++ more)

/-- `render_cards` from `render.py`: iterates `items or []` and joins the
accumulated parts with newlines. -/
def render_cards (items : Json) (badge_color tag : Option String) :
    Except String String :=
  if !pyTruthy items then .ok ""
  else
    match items with
    | .arr l =>
      match renderCardList badge_color tag l with
      | .error e => .error e
      | .ok parts => .ok (joinSep "\n" parts)
    | .str _ => .error "AttributeError"
    | .obj _ => .error "AttributeError"
    | _ => .error "TypeError: not iterable"

/-! ### C6: factorization of `render_cards`/`render_sources` through
`html_escape`.

`*_plain` are the same renderers with the `html_escape` calls on
digest-drawn strings removed; the claim is that the real renderers equal
the plain ones applied to a digest whose drawn strings have been escaped
up front. -/

/-- Escaping transform for one `sources` entry value. -/
def escSrcVal (k : String) (v : Json) : Json :=
  if k = "name" ∨ k = "url" then .str (html_escape (pyStr v)) else v

/-- Escape `name` and `url` inside one source object. -/
def escSrc (s : Json) : Json :=
  match s with
  | .obj kvs => .obj (kvs.map fun kv => (kv.1, escSrcVal kv.1 kv.2))
  | v => v

/-- Escape every source of a `sources` value. -/
def escSourcesVal (v : Json) : Json :=
  match v with
  | .arr l => .arr (l.map escSrc)
  | x => x

/-- Escaping transform for one item field. -/
def escItemVal (k : String) (v : Json) : Json :=
  if k = "title" ∨ k = "time" ∨ k = "what" ∨ k = "why" then
    .str (html_escape (pyStr v))
  else if k = "sources" then escSourcesVal v
  else v

/-- Escape the drawn strings of one card item. -/
def escItem (it : Json) : Json :=
  match it with
  | .obj kvs => .obj (kvs.map fun kv => (kv.1, escItemVal kv.1 kv.2))
  | v => v

/-- Escape the drawn strings of a whole item list value. -/
def escCards (items : Json) : Json :=
  match items with
  | .arr l => .arr (l.map escItem)
  | v => v

def sourceLink_plain (src : Json) : Except String String :=
  match src with
  | .obj _ =>
    let name := pyStr (jgetD src "name" (.str "source"))
    let url := pyStr (jgetD src "url" (.str ""))
    .ok (if url ≠ "" then
      "<a href=\"" ++ url ++ "\" target=\"_blank\">" ++ name ++ "</a>"
    else name)
  | _ => .error "AttributeError"

def renderSourceList_plain : List Json → Except String (List String)
  | [] => .ok []
  | s :: rest =>
    match sourceLink_plain s with
    | .error e => .error e
    | .ok link =>
      match renderSourceList_plain rest with
      | .error e => .error e
      | .ok links => .ok (link :: links)

def render_sources_plain (sources : Json) : Except String String :=
  if !pyTruthy sources then .ok ""
  else
    match sources with
    | .arr l =>
      match renderSourceList_plain l with
      | .error e => .error e
      | .ok links => .ok (joinSep "、" links)
    | .str _ => .error "AttributeError"
    | .obj _ => .error "AttributeError"
    | _ => .error "TypeError: not iterable"

def renderCardParts_plain (it : Json) (badge_color tag : Option String) :
    Except String (List String) :=
  match it with
  | .obj _ =>
    let title := pyStr (jgetD it "title" (.str ""))
    let when := pyStr (jgetD it "time" (.str ""))
    let what := pyStr (jgetD it "what" (.str ""))
    let why := pyStr (jgetD it "why" (.str ""))
    match render_sources_plain (pyOrJ (jgetD it "sources" (.arr [])) (.arr [])) with
    | .error e => .error e
    | .ok sources_html =>
      let color_style :=
        match badge_color with
        | some bc => if bc ≠ "" then " style=\"background: " ++ bc ++ ";\"" else ""
        | none => ""
      let meta :=
        (match tag with
         | some t => if t ≠ "" then ["<span class=\"tag\">" ++ html_escape t ++ "</span>"] else []
         | none => []) ++
        (if when ≠ "" then ["<span>📅 " ++ when ++ "</span>"] else [])
      .ok (["<div class=\"card\">",
        "<div class=\"card-headline\">",
        "<div class=\"card-badge\"" ++ color_style ++ "></div>",
        "<h3 class=\"card-title\">" ++ title ++ "</h3>",
        "</div>"] ++
        (if !meta.isEmpty then
          ["<div class=\"card-meta\">" ++ joinSep "\n" meta ++ "</div>"]
        else []) ++
        ["<div class=\"card-content\">"] ++
        (if why ≠ "" then ["<strong>为什么重要：</strong>" ++ why] else []) ++
        (if what ≠ "" then
          ["<div style=\"margin-top: 10px;\"><strong>事件：</strong>" ++ what ++ "</div>"]
        else []) ++
        ["</div>"] ++
        (if sources_html ≠ "" then
          ["<div class=\"card-sources\">", "来源：" ++ sources_html, "</div>"]
        else []) ++
        ["</div>"])
  | _ => .error "AttributeError"

def renderCardList_plain (badge_color tag : Option String) :
    List Json → Except String (List String)
  | [] => .ok []
  | it :: rest =>
    match renderCardParts_plain it badge_color tag with
    | .error e => .error e
    | .ok parts =>
      match renderCardList_plain badge_color tag rest with
      | .error e => .error e
      | .ok more => .ok (parts ++ more)

def render_cards_plain (items : Json) (badge_color tag : Option String) :
    Except String String :=
  if !pyTruthy items then .ok ""
  else
    match items with
    | .arr l =>
      match renderCardList_plain badge_color tag l with
      | .error e => .error e
      | .ok parts => .ok (joinSep "\n" parts)
    | .str _ => .error "AttributeError"
    | .obj _ => .error "AttributeError"
    | _ => .error "TypeError: not iterable"

theorem jlookup_map (g : String → Json → Json) (kvs : List (String × Json))
    (k : String) :
    jlookup (kvs.map fun kv => (kv.1, g kv.1 kv.2)) k =
      (jlookup kvs k).map (g k) := by
  induction kvs with
  | nil => rfl
  | cons kv rest ih =>
    obtain ⟨k2, v⟩ := kv
    simp only [List.map_cons, jlookup]
    by_cases h : k2 = k
    · subst h
      simp
    · rw [if_neg h, if_neg h, ih]

theorem html_escape_empty : html_escape "" = "" := by decide

theorem html_escape_source : html_escape "source" = "source" := by decide

theorem escSrc_get_name (src : Json) (k : String)
    (hk : k = "name" ∨ k = "url") (d : String) (hd : html_escape d = d) :
    pyStr (jgetD (escSrc src) k (.str d)) =
      html_escape (pyStr (jgetD src k (.str d))) := by
  cases src with
  | obj kvs =>
    simp only [escSrc, jgetD, jget, jlookup_map]
    cases h : jlookup kvs k with
    | none => simp [pyStr, hd]
    | some v => simp [escSrcVal, hk, pyStr]
  | null => simp [escSrc, jgetD, jget, pyStr, hd]
  | bool b => simp [escSrc, jgetD, jget, pyStr, hd]
  | num n => simp [escSrc, jgetD, jget, pyStr, hd]
  | str s => simp [escSrc, jgetD, jget, pyStr, hd]
  | arr l => simp [escSrc, jgetD, jget, pyStr, hd]

theorem sourceLink_esc (src : Json) :
    sourceLink src = sourceLink_plain (escSrc src) := by
  cases src with
  | obj kvs =>
    simp only [sourceLink, sourceLink_plain, escSrc]
    rw [show (Json.obj (kvs.map fun kv => (kv.1, escSrcVal kv.1 kv.2))) =
      escSrc (.obj kvs) from rfl]
    rw [escSrc_get_name (.obj kvs) "name" (Or.inl rfl) "source" html_escape_source]
    rw [escSrc_get_name (.obj kvs) "url" (Or.inr rfl) "" html_escape_empty]
  | null => rfl
  | bool b => rfl
  | num n => rfl
  | str s => rfl
  | arr l => rfl

theorem renderSourceList_esc (l : List Json) :
    renderSourceList l = renderSourceList_plain (l.map escSrc) := by
  induction l with
  | nil => rfl
  | cons s rest ih =>
    simp only [renderSourceList, renderSourceList_plain, List.map_cons]
    rw [← sourceLink_esc, ← ih]

theorem isEmpty_map {α β : Type} (f : α → β) (l : List α) :
    (l.map f).isEmpty = l.isEmpty := by
  cases l <;> rfl

theorem pyTruthy_escSourcesVal (v : Json) :
    pyTruthy (escSourcesVal v) = pyTruthy v := by
  cases v <;> simp [escSourcesVal, pyTruthy, isEmpty_map]

theorem render_sources_esc (s : Json) :
    render_sources s = render_sources_plain (escSourcesVal s) := by
  cases s with
  | arr l =>
    simp only [render_sources, render_sources_plain, escSourcesVal,
      pyTruthy, isEmpty_map]
    rw [← renderSourceList_esc]
  | null => rfl
  | bool b => rfl
  | num n => rfl
  | str s => rfl
  | obj kvs => rfl

theorem escItem_field (kvs : List (String × Json)) (k : String)
    (hk : k = "title" ∨ k = "time" ∨ k = "what" ∨ k = "why")
    (d : String) (hd : html_escape d = d) :
    pyStr (jgetD (.obj (kvs.map fun kv => (kv.1, escItemVal kv.1 kv.2))) k
        (.str d)) =
      html_escape (pyStr (jgetD (.obj kvs) k (.str d))) := by
  simp only [jgetD, jget, jlookup_map]
  cases h : jlookup kvs k with
  | none => simp [pyStr, hd]
  | some v =>
    have : escItemVal k v = .str (html_escape (pyStr v)) := by
      rcases hk with h | h | h | h <;> simp [escItemVal, h]
    simp [this, pyStr]

theorem escItem_sources (kvs : List (String × Json)) :
    jgetD (.obj (kvs.map fun kv => (kv.1, escItemVal kv.1 kv.2))) "sources"
        (.arr []) =
      escSourcesVal (jgetD (.obj kvs) "sources" (.arr [])) := by
  simp only [jgetD, jget, jlookup_map]
  cases h : jlookup kvs "sources" with
  | none => simp [escSourcesVal]
  | some v =>
    have : escItemVal "sources" v = escSourcesVal v := by
      simp [escItemVal]
    simp [this]

theorem pyOrJ_escSources (v : Json) :
    escSourcesVal (pyOrJ v (.arr [])) =
      pyOrJ (escSourcesVal v) (.arr []) := by
  unfold pyOrJ
  rw [pyTruthy_escSourcesVal]
  by_cases h : pyTruthy v
  · simp [h]
  · simp [h, escSourcesVal]

theorem renderCardParts_esc (it : Json) (b t : Option String) :
    renderCardParts it b t = renderCardParts_plain (escItem it) b t := by
  cases it with
  | obj kvs =>
    simp only [renderCardParts, renderCardParts_plain, escItem]
    rw [escItem_field kvs "title" (Or.inl rfl) "" html_escape_empty]
    rw [escItem_field kvs "time" (Or.inr (Or.inl rfl)) "" html_escape_empty]
    rw [escItem_field kvs "what" (Or.inr (Or.inr (Or.inl rfl))) ""
      html_escape_empty]
    rw [escItem_field kvs "why" (Or.inr (Or.inr (Or.inr rfl))) ""
      html_escape_empty]
    rw [escItem_sources kvs]
    rw [render_sources_esc, pyOrJ_escSources]
  | null => rfl
  | bool b2 => rfl
  | num n => rfl
  | str s => rfl
  | arr l => rfl

theorem renderCardList_esc (b t : Option String) (l : List Json) :
    renderCardList b t l = renderCardList_plain b t (l.map escItem) := by
  induction l with
  | nil => rfl
  | cons it rest ih =>
    simp only [renderCardList, renderCardList_plain, List.map_cons]
    rw [← renderCardParts_esc, ← ih]

/-- C6: every string drawn from the digest by `render_cards` and
`render_sources` (each item's title, time, what and why, and each
source's name and url) is passed through `html_escape` before being
embedded: the renderers coincide with their escape-free counterparts
applied to a digest whose drawn strings are escaped up front, for every
item list and every source list. -/
theorem C6_escape_factorization :
    (∀ (items : Json) (b t : Option String),
      render_cards items b t = render_cards_plain (escCards items) b t) ∧
    (∀ sources : Json,
      render_sources sources = render_sources_plain (escSourcesVal sources)) := by
  constructor
  · intro items b t
    cases items with
    | arr l =>
      simp only [render_cards, render_cards_plain, escCards, pyTruthy,
        isEmpty_map]
      rw [← renderCardList_esc]
    | null => rfl
    | bool b2 => rfl
    | num n => rfl
    | str s => rfl
    | obj kvs => rfl
  · exact render_sources_esc

/-! ### The remaining renderer pieces and `main` of `render.py`. -/

/-- `dict.get(key, default)` with the `AttributeError` of `.get` on a
non-dict. -/
def jgetDE (j : Json) (key : String) (d : Json) : Except String Json :=
  match jgetE j key with
  | .error e => .error e
  | .ok (some v) => .ok v
  | .ok none => .ok d

/-- Parts for one entry of `render_x_highlights`. -/
def xItemParts (x : Json) : Except String (List String) :=
  match x with
  | .obj _ =>
    let author := html_escape (pyStr (jgetD x "author" (.str "")))
    let handle := html_escape (pyStr (jgetD x "handle" (.str "")))
    let text := html_escape (pyStr (jgetD x "text" (.str "")))
    let url := html_escape (pyStr (jgetD x "url" (.str "")))
    let likes := jgetD x "likes" .null
    let reposts := jgetD x "reposts" .null
    let replies := jgetD x "replies" .null
    let eng :=
      (if isPyInt likes then ["❤️ " ++ pyStr likes] else []) ++
      (if isPyInt reposts then ["🔄 " ++ pyStr reposts] else []) ++
      (if isPyInt replies then ["💬 " ++ pyStr replies] else [])
    let eng_html := joinSep " | " eng
    .ok (["<div class=\"x-item\">",
      "<div class=\"x-avatar\">🧵</div>",
      "<div class=\"x-content\">",
      "<div class=\"x-author\">" ++ author ++ " <span class=\"x-handle\">" ++
        handle ++ "</span></div>",
      "<div class=\"x-text\">" ++ text ++ "</div>"] ++
      (if eng_html ≠ "" then
        ["<div class=\"x-engagement\">" ++ eng_html ++ "</div>"] else []) ++
      (if url ≠ "" then
        ["<div style=\"margin-top:6px;\"><a href=\"" ++ url ++
          "\" target=\"_blank\" style=\"color: var(--accent); text-decoration:none; font-size:12px;\">查看原贴 →</a></div>"]
      else []) ++
      ["</div>", "</div>"])
  | _ => .error "AttributeError"

/-- The loop of `render_x_highlights` over `items[:12]`. -/
def xItemsList : List Json → Except String (List String)
  | [] => .ok []
  | x :: rest =>
    match xItemParts x with
    | .error e => .error e
    | .ok parts =>
      match xItemsList rest with
      | .error e => .error e
      | .ok more => .ok (parts ++ more)

/-- `render_x_highlights` from `render.py`. -/
def render_x_highlights (items0 : Json) : Except String String :=
  let items := pyOrJ items0 (.arr [])
  let head := ["<!-- X 高互动事件 -->", "<div class=\"x-highlight\">",
    "<h4>🔥 X 高互动事件（8-12条）</h4>"]
  if !pyTruthy items then
    .ok (joinSep "\n" (head ++
      ["<div class=\"x-item\"><div class=\"x-avatar\">?</div><div class=\"x-content\"><div class=\"x-text\">今日无（或 bird 未配置/抓取失败）。</div></div></div>",
        "</div>"]))
  else
    match items with
    | .arr l =>
      match xItemsList (l.take 12) with
      | .error e => .error e
      | .ok parts => .ok (joinSep "\n" (head ++ parts ++ ["</div>"]))
    | .str _ => .error "AttributeError"
    | _ => .error "TypeError: unsliceable"

/-- Tag list rendered for a vendors value (`" ".join` of per-vendor
spans). -/
def vendorSpans (mark : String) (vs : List Json) : String :=
  joinSep " " (vs.map fun v =>
    "<span class=\"tag\">" ++ mark ++ " " ++ html_escape (pyStr v) ++ "</span>")

/-- One dedupe entry of `render_self_check`. -/
def dedupeEntryParts (dk : Json) : List String :=
  match dk with
  | .obj _ =>
    let key := html_escape (pyStr (jgetD dk "key" (.str "")))
    let entity := html_escape (pyStr (jgetD dk "entity" (.str "")))
    let product := html_escape (pyStr (jgetD dk "product" (.str "")))
    let merged := jgetD dk "sources_merged" (.str "")
    ["<li><span>🔑</span><div><strong>" ++ key ++ "</strong> — " ++ entity ++
      "/" ++ product] ++
    (if pyTruthy merged then [" (" ++ pyStr merged ++ "源合并)"] else []) ++
    ["</div></li>"]
  | _ => ["<li><span>🔑</span><div>" ++ html_escape (pyStr dk) ++ "</div></li>"]

/-- One downgraded entry of `render_self_check`. -/
def downgradedEntryParts (de : Json) : List String :=
  match de with
  | .obj _ =>
    let title := html_escape (pyStr (jgetD de "title" (.str "")))
    let reason := html_escape (pyStr (jgetD de "reason" (.str "")))
    ["<li><span>👁️</span><div><strong>" ++ title ++ "</strong>：" ++ reason ++
      "</div></li>"]
  | _ => ["<li><span>👁️</span><div>" ++ html_escape (pyStr de) ++ "</div></li>"]

/-- `render_self_check` from `render.py`. -/
def render_self_check (daily : Json) : Except String String := do
  let sections := pyOrJ (optJ (← jgetE daily "sections")) (.obj [])
  let sc := pyOrJ (optJ (← jgetE daily "self_check")) (.obj [])
  let releases ← pyLen (pyOrJ (optJ (← jgetE sections "releases")) (.arr []))
  let updates ← pyLen (pyOrJ (optJ (← jgetE sections "updates")) (.arr []))
  let opensource ← pyLen (pyOrJ (optJ (← jgetE sections "opensource")) (.arr []))
  let benchmarks ← pyLen (pyOrJ (optJ (← jgetE sections "benchmarks")) (.arr []))
  let business ← pyLen (pyOrJ (optJ (← jgetE sections "business")) (.arr []))
  let risks ← pyLen (pyOrJ (optJ (← jgetE sections "risks")) (.arr []))
  let counts := ["<!-- 覆盖度自检 -->", "<section class=\"section\">",
    "<h2 class=\"section-title\"><span>📊</span> 覆盖度自检</h2>",
    "<div class=\"highlight-box\">",
    "<div class=\"highlight-title\">栏目统计</div>",
    "<ul class=\"highlight-list\">",
    "<li><span>🚀</span><div>Releases: " ++ toString releases ++ "条</div></li>",
    "<li><span>📈</span><div>Updates: " ++ toString updates ++ "条</div></li>",
    "<li><span>🔓</span><div>OpenSource: " ++ toString opensource ++ "条</div></li>",
    "<li><span>📊</span><div>Benchmarks: " ++ toString benchmarks ++ "条</div></li>",
    "<li><span>💼</span><div>Business: " ++ toString business ++ "条</div></li>",
    "<li><span>⚠️</span><div>Risks: " ++ toString risks ++ "条</div></li>",
    "</ul>", "</div>"]
  let ca := pyOrJ (optJ (← jgetE sc "coverage_analysis")) (.obj [])
  let hit_vendors := pyOrJ (optJ (← jgetE ca "hit_vendors"))
    (pyOrJ (optJ (← jgetE daily "vendorsHit")) (.arr []))
  let missed_vendors := pyOrJ (optJ (← jgetE ca "missed_vendors")) (.arr [])
  let missed_reason := pyOrJ (optJ (← jgetE ca "missed_reason")) (.str "")
  let vendorBlock ←
    if pyTruthy hit_vendors || pyTruthy missed_vendors then do
      let hitParts ←
        if pyTruthy hit_vendors then do
          let vs ← pyIter hit_vendors
          pure [vendorSpans "✅" vs]
        else pure []
      let missParts ←
        if pyTruthy missed_vendors then do
          let vs ← pyIter missed_vendors
          pure ["<br/>", vendorSpans "❌" vs]
        else pure []
      pure (["<div class=\"highlight-box\">",
        "<div class=\"highlight-title\">命中厂商清单</div>",
        "<p style=\"font-size: 13px; line-height: 1.8; margin-top: 8px;\">"] ++
        hitParts ++ missParts ++ ["</p>"] ++
        (if pyTruthy missed_reason then
          ["<p style=\"font-size: 12px; color: var(--muted-foreground); margin-top: 8px;\">" ++
            html_escape (pyStr missed_reason) ++ "</p>"]
        else []) ++ ["</div>"])
    else pure []
  let fc := pyOrJ (optJ (← jgetE sc "freshness_check")) (.obj [])
  let freshBlock ←
    if pyTruthy fc then do
      let target ← jgetDE fc "target_headlines" (.str "?")
      let actual ← jgetDE fc "actual_headlines" (.str "?")
      let supp ← jgetDE fc "supplement_searches_triggered" (.bool false)
      let supp_count ← jgetDE fc "supplement_searches_count" (.num 0)
      let reason ← jgetDE fc "reason" (.str "")
      pure (["<div class=\"highlight-box\">",
        "<div class=\"highlight-title\">时效检查</div>",
        "<ul class=\"highlight-list\">",
        "<li><span>📰</span><div>目标 " ++ pyStr target ++ " 条，实际 " ++
          pyStr actual ++ " 条</div></li>",
        "<li><span>🔍</span><div>补搜: " ++
          (if pyTruthy supp then "已触发" else "未触发") ++ "（" ++
          pyStr supp_count ++ " 次）</div></li>"] ++
        (if pyTruthy reason then
          ["<li><span>💡</span><div>" ++ html_escape (pyStr reason) ++
            "</div></li>"]
        else []) ++ ["</ul>", "</div>"])
    else pure []
  let bs := pyOrJ (optJ (← jgetE sc "bird_status")) (.obj [])
  let birdBlock ←
    if pyTruthy bs then do
      let available ← jgetDE bs "available" (.bool false)
      let cookies ← jgetDE bs "cookies_found" (.bool false)
      let fallback ← jgetDE bs "fallback" (.str "")
      let xsource ← jgetDE bs "x_highlights_source" (.str "")
      pure (["<div class=\"highlight-box\">",
        "<div class=\"highlight-title\">X (Bird) 状态</div>",
        "<ul class=\"highlight-list\">",
        "<li><span>🐦</span><div>可用: " ++
          (if pyTruthy available then "是" else "否") ++ " · Cookies: " ++
          (if pyTruthy cookies then "有" else "无") ++ "</div></li>"] ++
        (if pyTruthy fallback then
          ["<li><span>🔄</span><div>Fallback: " ++
            html_escape (pyStr fallback) ++ "</div></li>"]
        else []) ++
        (if pyTruthy xsource then
          ["<li><span>📝</span><div>" ++ html_escape (pyStr xsource) ++
            "</div></li>"]
        else []) ++ ["</ul>", "</div>"])
    else pure []
  let dedup_keys := pyOrJ (optJ (← jgetE sc "dedupe_keys")) (.arr [])
  let dedup_strs := pyOrJ (optJ (← jgetE daily "dedupKeys")) (.arr [])
  let dedupeBlock ←
    if pyTruthy dedup_keys then do
      let dks ← pyIter dedup_keys
      pure (["<div class=\"highlight-box\">",
        "<div class=\"highlight-title\">Deduplicate Keys</div>",
        "<ul class=\"highlight-list\">"] ++
        (dks.map dedupeEntryParts).join ++ ["</ul>", "</div>"])
    else if pyTruthy dedup_strs then do
      let ds ← pyIter dedup_strs
      pure (["<div class=\"highlight-box\">",
        "<div class=\"highlight-title\">Deduplicate Keys</div>",
        "<p style=\"font-size: 12px; line-height: 1.6; margin-top: 8px; color: var(--muted-foreground);\">",
        html_escape (joinSep " | " (ds.map pyStr)), "</p>", "</div>"])
    else pure []
  let downgraded := pyOrJ (optJ (← jgetE sc "downgraded_entries")) (.arr [])
  let downBlock ←
    if pyTruthy downgraded then do
      let des ← pyIter downgraded
      pure (["<div class=\"highlight-box\">",
        "<div class=\"highlight-title\">降级/观察条目</div>",
        "<ul class=\"highlight-list\">"] ++
        (des.map downgradedEntryParts).join ++ ["</ul>", "</div>"])
    else pure []
  pure (joinSep "\n" (counts ++ vendorBlock ++ freshBlock ++ birdBlock ++
    dedupeBlock ++ downBlock ++ ["</section>"]))

/-- `f.stem` for a `*.html` file name. -/
def dropHtmlSuffix (name : String) : String :=
  ⟨name.data.take (name.data.length - 5)⟩

/-- `re.match(r"\d{4}-\d{2}-\d{2}", s)`: the date pattern anchored at the
start of the string. -/
def reDateMatch (s : String) : Bool :=
  match s.data with
  | a :: b :: c :: d :: e :: f :: g :: h :: i :: j :: _ =>
    a.isDigit && b.isDigit && c.isDigit && d.isDigit && e = '-' &&
    f.isDigit && g.isDigit && h = '-' && i.isDigit && j.isDigit
  | _ => false

/-- Code-point lexicographic string comparison, as Python compares
`str` values. -/
def ltCharList : List Char → List Char → Bool
  | [], [] => false
  | [], _ :: _ => true
  | _ :: _, [] => false
  | a :: as, b :: bs =>
    if a.toNat < b.toNat then true
    else if b.toNat < a.toNat then false
    else ltCharList as bs

def strLtB (a b : String) : Bool := ltCharList a.data b.data

/-- Stable insertion into a descending list. -/
def insertDesc (x : String) : List String → List String
  | [] => [x]
  | y :: rest => if strLtB y x then x :: y :: rest else y :: insertDesc x rest

/-- `sorted(files, reverse=True)`. -/
def sortDesc : List String → List String
  | [] => []
  | x :: rest => insertDesc x (sortDesc rest)

/-- The navigation entry emitted for one archive file. -/
def navEntry (current_date f : String) : List String :=
  let date_str := dropHtmlSuffix f
  if !reDateMatch date_str then []
  else if date_str = current_date then
    ["<span style=\"padding: 4px 10px; background: var(--foreground); color: var(--background); border-radius: 6px; font-size: 12px; font-weight: 500;\">" ++
      date_str ++ "</span>"]
  else
    ["<a href=\"./archive/" ++ date_str ++
      ".html\" style=\"padding: 4px 10px; background: var(--card); border: 1px solid var(--border); border-radius: 6px; font-size: 12px; color: var(--foreground); text-decoration: none;\">" ++
      date_str ++ "</a>"]

/-- `render_archive_nav` from `render.py` over the current archive
directory listing. -/
def render_archive_nav (archiveFiles : List String) (current_date : String) :
    String :=
  let files := sortDesc (archiveFiles.filter fun f =>
    (".html".data).isSuffixOf f.data)
  if files.isEmpty then ""
  else
    joinSep "\n" (["<div style=\"margin-top: 24px;\">",
      "<div style=\"display: flex; flex-wrap: wrap; gap: 8px; justify-content: center;\">"] ++
      (files.map (navEntry current_date)).join ++ ["</div>", "</div>"])

/-- The inputs of one `render.py` run: the parsed JSON files (absent files
give the `load_json` defaults), the template file, the `archive/`
directory listing, and the clock. -/
structure RenderIn where
  dailyFile : Option Json
  technemeFile : Option Json
  templateFile : Option String
  archiveFiles : List String
  nowY : Nat
  nowM : Nat
  nowD : Nat
  nowUtcStr : String

/-- The `<date>` the run uses: the digest's `date` field coerced to a
string when truthy, else today's UTC date. -/
def renderDate (inp : RenderIn) : String :=
  let daily := inp.dailyFile.getD (.obj [])
  let dateJ := jgetD daily "date" .null
  if pyTruthy dateJ then pyStr dateJ else fmtDate inp.nowY inp.nowM inp.nowD

/-- One `<li>` of the TechMeme block. -/
def techmemeLi (it : Json) : Except String (List String) :=
  match it with
  | .str s =>
    .ok (if pyStrip s ≠ "" then
      ["<li><span>⚡</span><div>" ++ html_escape (pyStrip s) ++ "</div></li>"]
    else [])
  | _ => do
    let d := pyOrJ it (.obj [])
    let t1 ← jgetE d "text"
    let t2 ← jgetE d "title"
    let text := pyStr (pyOrJ (optJ t1) (pyOrJ (optJ t2) (.str "")))
    pure (if pyStrip text ≠ "" then
      ["<li><span>⚡</span><div>" ++ html_escape (pyStrip text) ++ "</div></li>"]
    else [])

def techmemeLis : List Json → Except String (List String)
  | [] => .ok []
  | it :: rest => do
    let a ← techmemeLi it
    let b ← techmemeLis rest
    pure (a ++ b)

/-- Everything `main` computes before the writes: the substituted page
`out` and the archive navigation markup (computed after the archive file
has been written, so today's file is part of the listing). -/
def renderContent (inp : RenderIn) (date : String) :
    Except String (String × String) := do
  let daily := inp.dailyFile.getD (.obj [])
  let ymd := (strptimeYMD date).getD (inp.nowY, inp.nowM, inp.nowD)
  let date_day := toString ymd.2.2
  let date_month := monthName ymd.2.1 ++ " " ++ toString ymd.1
  let date_human := toString ymd.1 ++ "年" ++ toString ymd.2.1 ++ "月" ++
    toString ymd.2.2 ++ "日"
  let tpl ← match inp.templateFile with
    | some t => Except.ok t
    | none => Except.error "FileNotFoundError: template.html"
  let sections := pyOrJ (optJ (← jgetE daily "sections")) (.obj [])
  let headlines := pyOrJ (optJ (← jgetE daily "headlines")) (.arr [])
  let sliced ← pySliceJ headlines 5
  let cards1 ← render_cards sliced none none
  let p1 := ["<!-- 核心看点 -->", "<section class=\"section\">",
    "<h2 class=\"section-title\"><span>🔥</span> 核心看点</h2>", cards1,
    "</section>"]
  let techneme := inp.technemeFile.getD (.obj [])
  let tmh ← jgetE daily "techmeme_headlines"
  let tm_list ←
    if pyTruthy (optJ tmh) then pure (optJ tmh)
    else do
      let h2 ← jgetE techneme "headlines"
      if pyTruthy (optJ h2) then pure (optJ h2)
      else do
        let h3 ← jgetE techneme "stories"
        pure (pyOrJ (optJ h3) (.arr []))
  let p2 ←
    if pyTruthy tm_list then do
      let tm5 ← pySliceJ tm_list 5
      let elems ← pyIter tm5
      let lis ← techmemeLis elems
      pure (["<!-- TechMeme 头条 -->", "<section class=\"section\">",
        "<h2 class=\"section-title\"><span>🌐</span> TechMeme 当日头条</h2>",
        "<div class=\"highlight-box\">", "<ul class=\"highlight-list\">"] ++
        lis ++ ["</ul>", "</div>", "</section>"])
    else pure []
  let rels ← render_cards (pyOrJ (optJ (← jgetE sections "releases")) (.arr []))
    (some "#e85d04") (some "发布")
  let upds ← render_cards (pyOrJ (optJ (← jgetE sections "updates")) (.arr []))
    (some "#4285f4") (some "更新")
  let oss ← render_cards (pyOrJ (optJ (← jgetE sections "opensource")) (.arr []))
    (some "#10a37f") (some "开源")
  let bench ← render_cards (pyOrJ (optJ (← jgetE sections "benchmarks")) (.arr []))
    (some "#8e44ad") (some "评测")
  let xh ← render_x_highlights (optJ (← jgetE daily "x_highlights"))
  let p3 := ["<!-- 新模型/工具 -->", "<section class=\"section\">",
    "<h2 class=\"section-title\"><span>🚀</span> 新模型/工具</h2>", rels, upds,
    oss, bench, xh, "</section>"]
  let biz ← render_cards (pyOrJ (optJ (← jgetE sections "business")) (.arr []))
    (some "#1f1d1a") (some "商业")
  let p4 := ["<!-- 企业动态 -->", "<section class=\"section\">",
    "<h2 class=\"section-title\"><span>💼</span> 企业动态</h2>", biz,
    "</section>"]
  let rsk ← render_cards (pyOrJ (optJ (← jgetE sections "risks")) (.arr []))
    (some "#c0392b") (some "风险")
  let p5 := ["<!-- 风险/事故 -->", "<section class=\"section\">",
    "<h2 class=\"section-title\"><span>⚠️</span> 风险/事故</h2>", rsk,
    "</section>"]
  let p6 ← render_self_check daily
  let content_parts := p1 ++ p2 ++ p3 ++ p4 ++ p5 ++ [p6]
  let content_html := joinSep "\n"
    (content_parts.filter fun p => p ≠ "" && pyStrip p ≠ "")
  let out := substituteAll tpl (html_escape date_human) (html_escape date_day)
    (html_escape date_month) content_html (html_escape inp.nowUtcStr)
  let navFiles :=
    if (date ++ ".html") ∈ inp.archiveFiles then inp.archiveFiles
    else inp.archiveFiles ++ [date ++ ".html"]
  let nav := render_archive_nav navFiles date
  pure (out, nav)

/-- `main()` of `render.py`: after the content is built, the page is
written to `archive/<date>.html`, then `index.html` and the archive file
again both receive the page with the archive navigation substituted.
Returns the file writes in order; a Python exception aborts the run
before any write. -/
def renderMain (inp : RenderIn) : Except String (List (String × String)) :=
  let daily := inp.dailyFile.getD (.obj [])
  match daily with
  | .obj _ =>
    let date := renderDate inp
    match renderContent inp date with
    | .error e => .error e
    | .ok pr =>
      .ok [("archive/" ++ date ++ ".html", pr.1),
        ("index.html", substituteNav pr.1 pr.2),
        ("archive/" ++ date ++ ".html", substituteNav pr.1 pr.2)]
  | _ => .error "AttributeError"

/-! ### C3: the files one renderer run writes. -/

/-- The final content a sequence of in-order file writes leaves at a
path. -/
def fsFinal (ws : List (String × String)) (path : String) : Option String :=
  ((ws.filter fun w => w.1 = path).getLast?).map Prod.snd

/-- The archive path named by the claim: `archive/<date>.html` where
`<date>` is the digest value of the `date` field, or the current UTC
date only when that field is absent (transcribed from the claim text,
not from the code, for comparison with `renderMain`). -/
def claimC3Path (inp : RenderIn) : String :=
  let daily := inp.dailyFile.getD (.obj [])
  "archive/" ++
    (match jget daily "date" with
     | some v => pyStr v
     | none => fmtDate inp.nowY inp.nowM inp.nowD) ++ ".html"

/-- A digest whose `date` field is present but the empty string: the
claim then names `archive/.html`, while the code falls back to the
clock because it tests `daily.get("date") or ...` for truthiness, not
presence. -/
def cxC3Inp : RenderIn :=
  { dailyFile := some (.obj [("date", .str "")])
    technemeFile := none
    templateFile := some ""
    archiveFiles := []
    nowY := 2026, nowM := 1, nowD := 2
    nowUtcStr := "2026-01-02 03:04 UTC" }

/-- The write list of the run on `cxC3Inp` (forced lazily: only the
paths are ever inspected). -/
def cxC3Writes : List (String × String) :=
  match renderMain cxC3Inp with
  | .ok ws => ws
  | .error _ => []

theorem archive_ne_index (date : String) :
    ("archive/" ++ date ++ ".html") ≠ "index.html" := by
  intro h
  have h2 : ("archive/" ++ date ++ ".html").data.head? = some (Char.ofNat 105) := by
    rw [h]; decide
  rw [String.data_append, String.data_append] at h2
  have h4 : ("archive/").data = Char.ofNat 97 :: "rchive/".data := by decide
  rw [h4] at h2
  simp at h2

/-- C3 (claim as written is refuted by this counterexample): on the
digest `\x7b"date": ""\x7d` the run completes, yet none of the files it
writes is the `archive/<date>.html` the claim names, because the code
replaces a falsy `date` by the clock date while the claim only allows
that when the field is absent. -/
theorem C3_counterexample :
    (renderMain cxC3Inp).isOk = true ∧
    claimC3Path cxC3Inp = "archive/.html" ∧
    cxC3Writes.all (fun w => w.1 ≠ claimC3Path cxC3Inp) = true := by
  refine ⟨by decide, by decide, by decide⟩

/-- C3 (amended): whenever a renderer run completes without an
exception, the last write to `archive/<date>.html` — with `<date>` the
digest date when truthy, today otherwise — and the last write to
`index.html` leave the two files with the same content, and both files
are written. -/
theorem C3_render_writes (inp : RenderIn) (ws : List (String × String))
    (h : renderMain inp = .ok ws) :
    fsFinal ws ("archive/" ++ renderDate inp ++ ".html") =
      fsFinal ws "index.html" ∧
    (fsFinal ws "index.html").isSome = true ∧
    (fsFinal ws ("archive/" ++ renderDate inp ++ ".html")).isSome = true := by
  have hne : ("archive/" ++ renderDate inp ++ ".html") ≠ "index.html" :=
    archive_ne_index (renderDate inp)
  unfold renderMain at h
  rcases hdaily : (inp.dailyFile.getD (.obj [])) with _ | b | n | s | l | kvs
  all_goals rw [hdaily] at h
  case null | bool | num | str | arr => cases h
  dsimp only at h
  cases hc : renderContent inp (renderDate inp) with
  | error e => rw [hc] at h; cases h
  | ok pr =>
    rw [hc] at h
    injection h with h1
    subst h1
    refine ⟨?_, ?_, ?_⟩ <;>
      simp [fsFinal, List.filter, hne, Ne.symm hne]

/-- A run on an empty digest with an empty template, giving the amended
C3 theorem a concrete instance. -/
def c3wInp : RenderIn :=
  { dailyFile := some (.obj [])
    technemeFile := none
    templateFile := some ""
    archiveFiles := []
    nowY := 2026, nowM := 1, nowD := 2
    nowUtcStr := "2026-01-02 03:04 UTC" }

def c3wWs : List (String × String) :=
  match renderMain c3wInp with
  | .ok ws => ws
  | .error _ => []

theorem C3_witness :
    fsFinal c3wWs ("archive/" ++ renderDate c3wInp ++ ".html") =
      fsFinal c3wWs "index.html" ∧
    (fsFinal c3wWs "index.html").isSome = true ∧
    (fsFinal c3wWs ("archive/" ++ renderDate c3wInp ++ ".html")).isSome = true :=
  C3_render_writes c3wInp c3wWs (by rfl)

/-! ### `migrate_archives.py`. -/

/-- Consume a literal at the head of the input. -/
def stripLit (p s : List Char) : Option (List Char) :=
  if p.isPrefixOf s then some (s.drop p.length) else none

/-- `extract_date_from_filename`: `filename.replace(".html", "")`. -/
def extract_date_from_filename (name : String) : String :=
  pyReplace name ".html" ""

/-- `date_to_chinese`; `strptime` raises `ValueError` on a malformed
date. -/
def date_to_chinese (date_str : String) : Except String String :=
  match strptimeYMD date_str with
  | none => .error "ValueError"
  | some ymd =>
    .ok (toString ymd.1 ++ "年" ++ toString ymd.2.1 ++ "月" ++
      toString ymd.2.2 ++ "日")

/-- `<div\s+class="CLS">`: the literal `<div`, at least one whitespace
character (the greedy run is forced maximal because the following
literal starts with a non-space), then `class="CLS">`. -/
def divClassOpen (cls : List Char) (s : List Char) : Option (List Char) :=
  match stripLit "<div".data s with
  | none => none
  | some t =>
    if (t.takeWhile pySpace).isEmpty then none
    else stripLit ("class=\"".data ++ cls ++ "\">".data) (t.dropWhile pySpace)

/-- The suffix of the container pattern, `\s*</div>\s*</body>`: each
greedy `\s*` is forced to the whole space run because `<` is not a
space. -/
def containerTail (s : List Char) : Bool :=
  match stripLit "</div>".data (s.dropWhile pySpace) with
  | none => false
  | some t => (stripLit "</body>".data (t.dropWhile pySpace)).isSome

/-- Smallest `l ≥ 1` such that the container tail matches after
dropping `l` characters: the lazy `(.+?)` of the container regex. -/
def firstLGo : List Char → Option Nat
  | [] => none
  | _ :: rest =>
    if containerTail rest then some 1 else (firstLGo rest).map (· + 1)

/-- The `\s*(.+?)` backtracking of the container regex at a fixed start:
the greedy `\s*` tries `k` from the full space run downwards, and for
each `k` the lazy group takes the shortest extension that lets the tail
match. -/
def kLoop (s : List Char) : Nat → Option (List Char)
  | 0 =>
    match firstLGo s with
    | some l => some (s.take l)
    | none => none
  | k + 1 =>
    match firstLGo (s.drop (k + 1)) with
    | some l => some ((s.drop (k + 1)).take l)
    | none => kLoop s k

/-- `re.search` of the container pattern: the leftmost start at which
`<div\s+class="container">` matches and the rest of the pattern can be
completed; returns group 1. -/
def searchContainer : List Char → Option (List Char)
  | [] => none
  | c :: rest =>
    match divClassOpen "container".data (c :: rest) with
    | some t =>
      match kLoop t (t.takeWhile pySpace).length with
      | some g => some g
      | none => searchContainer rest
    | none => searchContainer rest

/-- Smallest drop after which one of the closing literals is a head;
consumes that literal: the lazy `.*?` before a closing tag. -/
def findClose (close1 close2 : List Char) : List Char → Option (List Char)
  | [] => none
  | c :: r =>
    if close1.isPrefixOf (c :: r) then some ((c :: r).drop close1.length)
    else if close2.isPrefixOf (c :: r) then some ((c :: r).drop close2.length)
    else findClose close1 close2 r

/-- `re.sub(open .*? close, '', s, DOTALL)`: left-to-right removal of
each block from an opening match to the nearest closing literal. The
opening matcher is passed as a function; fuel is the input length. -/
def remGo (openM : List Char → Option (List Char)) (close1 close2 : List Char) :
    Nat → List Char → List Char
  | _, [] => []
  | 0, s => s
  | fuel + 1, c :: r =>
    match openM (c :: r) with
    | some t =>
      match findClose close1 close2 t with
      | some rest => remGo openM close1 close2 fuel rest
      | none => c :: remGo openM close1 close2 fuel r
    | none => c :: remGo openM close1 close2 fuel r

def removeDelimited (openM : List Char → Option (List Char))
    (close1 close2 : List Char) (s : List Char) : List Char :=
  remGo openM close1 close2 s.length s

/-- `re.sub(r"\n\x7b3,\x7d", "\n\n", s)`: each maximal run of three or
more newlines collapses to two. -/
def collapseNLGo : Nat → List Char → List Char
  | _, [] => []
  | 0, s => s
  | fuel + 1, c :: r =>
    if c = Char.ofNat 10 then
      let run := 1 + (r.takeWhile (· = Char.ofNat 10)).length
      if 3 ≤ run then
        Char.ofNat 10 :: Char.ofNat 10 ::
          collapseNLGo fuel (r.dropWhile (· = Char.ofNat 10))
      else c :: collapseNLGo fuel r
    else c :: collapseNLGo fuel r

/-- `extract_body_content` from `migrate_archives.py`. -/
def extract_body_content (html : String) : String :=
  match searchContainer html.data with
  | none => ""
  | some g =>
    let c1 := removeDelimited (stripLit "<header>".data) "</header>".data
      "</header>".data g
    let c2 := removeDelimited (divClassOpen "page-title".data) "</div>".data
      "</div>".data c1
    let c3 := removeDelimited (stripLit "<footer>".data) "</footer>".data
      "</footer>".data c2
    ⟨collapseNLGo (stripChars c3).length (stripChars c3)⟩

/-- The negative lookahead `(?!\s+class)`: at least one space followed
by the literal `class`. -/
def wsClassAhead (s : List Char) : Bool :=
  !(s.takeWhile pySpace).isEmpty &&
    "class".data.isPrefixOf (s.dropWhile pySpace)

/-- `re.sub(r"<section(?!\s+class)>", ...)`. -/
def sectionSubGo : Nat → List Char → List Char
  | _, [] => []
  | 0, s => s
  | fuel + 1, c :: r =>
    match stripLit "<section".data (c :: r) with
    | some t =>
      if !wsClassAhead t && ">".data.isPrefixOf t then
        "<section class=\"section\">".data ++ sectionSubGo fuel (t.drop 1)
      else c :: sectionSubGo fuel r
    | none => c :: sectionSubGo fuel r

/-- `re.sub` of `<div\s+class="CLS">` by a fixed replacement. -/
def divClassSubGo (cls rep : List Char) : Nat → List Char → List Char
  | _, [] => []
  | 0, s => s
  | fuel + 1, c :: r =>
    match divClassOpen cls (c :: r) with
    | some rest => rep ++ divClassSubGo cls rep fuel rest
    | none => c :: divClassSubGo cls rep fuel r

/-- `re.sub(r"class=\"check-section\"[^>]*>", "class=\"highlight-box\">", s)`:
the greedy `[^>]*` is forced to the run of non-`>` characters, which
must be terminated by `>`. -/
def checkSectionSubGo : Nat → List Char → List Char
  | _, [] => []
  | 0, s => s
  | fuel + 1, c :: r =>
    match stripLit "class=\"check-section\"".data (c :: r) with
    | some t =>
      match t.dropWhile (· ≠ Char.ofNat 62) with
      | g :: rest =>
        if g = Char.ofNat 62 then
          "class=\"highlight-box\">".data ++ checkSectionSubGo fuel rest
        else c :: checkSectionSubGo fuel r
      | [] => c :: checkSectionSubGo fuel r
    | none => c :: checkSectionSubGo fuel r

/-- The opening of the archive-section pattern
`<(?:section|div)\s+class="archive"[^>]*>`. -/
def archiveOpen (s : List Char) : Option (List Char) :=
  let afterTag :=
    match stripLit "<section".data s with
    | some t => some t
    | none => stripLit "<div".data s
  match afterTag with
  | none => none
  | some t =>
    if (t.takeWhile pySpace).isEmpty then none
    else
      match stripLit "class=\"archive\"".data (t.dropWhile pySpace) with
      | none => none
      | some u =>
        match u.dropWhile (· ≠ Char.ofNat 62) with
        | g :: rest => if g = Char.ofNat 62 then some rest else none
        | [] => none

/-- `re.sub(r"style=\"[^\"]*font-family[^\"]*\"", "", s)`: the match
exists at `style="` exactly when the run of non-quote characters that
follows contains `font-family` and is closed by a quote. -/
def styleSubGo : Nat → List Char → List Char
  | _, [] => []
  | 0, s => s
  | fuel + 1, c :: r =>
    match stripLit "style=\"".data (c :: r) with
    | some t =>
      if containsSub (t.takeWhile (· ≠ Char.ofNat 34)) "font-family".data then
        match t.dropWhile (· ≠ Char.ofNat 34) with
        | _ :: rest => styleSubGo fuel rest
        | [] => c :: styleSubGo fuel r
      else c :: styleSubGo fuel r
    | none => c :: styleSubGo fuel r

/-- `normalize_content` from `migrate_archives.py`. -/
def normalize_content (content : String) : String :=
  let c : String := ⟨sectionSubGo content.data.length content.data⟩
  let c := pyReplace c "class=\"news-item\"" "class=\"card\""
  let c : String := ⟨divClassSubGo "news-title".data "<div class=\"card-title\">".data
    c.data.length c.data⟩
  let c : String := ⟨divClassSubGo "news-desc".data "<div class=\"card-content\">".data
    c.data.length c.data⟩
  let c : String := ⟨divClassSubGo "news-time".data "<div class=\"card-meta\">".data
    c.data.length c.data⟩
  let c := pyReplace c "class=\"news-source\"" "class=\"card-sources\""
  let c := pyReplace c "class=\"news-sources\"" "class=\"card-sources\""
  let c := pyReplace c "class=\"news-tag\"" "class=\"tag\""
  let c := pyReplace c "class=\"tag highlight\"" "class=\"tag tag-hot\""
  let c : String := ⟨checkSectionSubGo c.data.length c.data⟩
  let c := pyReplace c "class=\"check-title\"" "class=\"highlight-title\""
  let c := pyReplace c "class=\"check-list\"" "class=\"highlight-list\""
  let c := pyReplace c "class=\"x-card\"" "class=\"card\""
  let c := pyReplace c "class=\"x-header\"" "class=\"card-meta\""
  let c := pyReplace c "class=\"x-name\"" "class=\"x-author\""
  let c := pyReplace c "class=\"x-stats\"" "class=\"x-engagement\""
  let c : String := ⟨removeDelimited archiveOpen "</section>".data "</div>".data
    c.data⟩
  let c := pyReplace c "class=\"dedupe-list\"" "class=\"highlight-box\""
  ⟨styleSubGo c.data.length c.data⟩

/-- `build_archive_nav` from `migrate_archives.py`: a verbatim copy of
the renderer archive navigation over the same directory listing. -/
def build_archive_nav (archiveFiles : List String) (current_date : String) :
    String :=
  let files := sortDesc (archiveFiles.filter fun f =>
    (".html".data).isSuffixOf f.data)
  if files.isEmpty then ""
  else
    joinSep "\n" (["<div style=\"margin-top: 24px;\">",
      "<div style=\"display: flex; flex-wrap: wrap; gap: 8px; justify-content: center;\">"] ++
      (files.map (navEntry current_date)).join ++ ["</div>", "</div>"])

/-- `build_new_page` from `migrate_archives.py`; the template read and
`strptime` can raise. -/
def build_new_page (tpl : Option String) (archiveFiles : List String)
    (nowUtc : String) (date_str : String) (content : String) :
    Except String String :=
  match tpl with
  | none => .error "FileNotFoundError: template.html"
  | some t =>
    match date_to_chinese date_str with
    | .error e => .error e
    | .ok dc =>
      let nav := build_archive_nav archiveFiles date_str
      .ok (pyReplace (pyReplace (pyReplace (pyReplace t
        "\x7b\x7bDATE_HUMAN\x7d\x7d" dc)
        "\x7b\x7bCONTENT\x7d\x7d" content)
        "\x7b\x7bGENERATED_AT_UTC\x7d\x7d" nowUtc)
        "\x7b\x7bARCHIVE_NAV\x7d\x7d" nav)

/-- `migrate_file`: the returned pair is the success flag and the file
writes the call performs (at most its own file). -/
def migrate_file (tpl : Option String) (archiveFiles : List String)
    (nowUtc : String) (name : String) (html : String) (dry_run : Bool) :
    Except String (Bool × List (String × String)) :=
  let date_str := extract_date_from_filename name
  let content := extract_body_content html
  if pyStrip content = "" then .ok (false, [])
  else
    match build_new_page tpl archiveFiles nowUtc date_str
        (normalize_content content) with
    | .error e => .error e
    | .ok new_html =>
      if dry_run then .ok (true, []) else .ok (true, [(name, new_html)])

/-- Stable insertion into an ascending list, and `sorted(...)`. -/
def insertAsc (x : String) : List String → List String
  | [] => [x]
  | y :: rest => if strLtB x y then x :: y :: rest else y :: insertAsc x rest

def sortAsc : List String → List String
  | [] => []
  | x :: rest => insertAsc x (sortAsc rest)

/-- `max(files, key=lambda f: f.stem)`: the first file whose stem is
maximal. -/
def maxByStem (names : List String) : String :=
  names.foldl (fun best n =>
    if strLtB (dropHtmlSuffix best) (dropHtmlSuffix n) then n else best)
    (names.headD "")

/-- The per-file loop of `main`. -/
def migrateLoop (tpl : Option String) (archiveNames : List String)
    (nowUtc : String) (files : List (String × String)) (skip : String)
    (dry_run : Bool) : List String → Except String (List (String × String))
  | [] => .ok []
  | n :: rest =>
    if dropHtmlSuffix n = skip then
      migrateLoop tpl archiveNames nowUtc files skip dry_run rest
    else
      match migrate_file tpl archiveNames nowUtc n
          ((files.lookup n).getD "") dry_run with
      | .error e => .error e
      | .ok res =>
        match migrateLoop tpl archiveNames nowUtc files skip dry_run rest with
        | .error e => .error e
        | .ok ws => .ok (res.2 ++ ws)

/-- `main()` of `migrate_archives.py` over the archive directory: the
result is the list of archive file writes and whether the final
`render.py` subprocess was run (it is skipped under `--dry-run`). -/
def migrate_main (tpl : Option String) (nowUtc : String)
    (files : List (String × String)) (dry_run : Bool) :
    Except String (List (String × String) × Bool) :=
  let names := sortAsc ((files.map Prod.fst).filter fun f =>
    (".html".data).isSuffixOf f.data)
  if names.isEmpty then .ok ([], false)
  else
    let latest := dropHtmlSuffix (maxByStem names)
    match migrateLoop tpl names nowUtc files latest dry_run names with
    | .error e => .error e
    | .ok ws => .ok (ws, !dry_run)

/-- C7: when the content extraction yields nothing (no container match,
or only whitespace), `migrate_file` reports failure and performs no
write on the file; and a `--dry-run` invocation of the migration writes
no archive file and skips the `render.py` subprocess. -/
theorem C7_migrate_guard :
    (∀ (tpl : Option String) (ns : List String) (now name html : String)
      (dry : Bool), pyStrip (extract_body_content html) = "" →
      migrate_file tpl ns now name html dry = .ok (false, [])) ∧
    (∀ (tpl : Option String) (now : String) (files : List (String × String))
      (r : List (String × String) × Bool),
      migrate_main tpl now files true = .ok r → r.1 = [] ∧ r.2 = false) := by
  constructor
  · intro tpl ns now name html dry h
    unfold migrate_file
    dsimp only
    rw [h]
    simp
  · intro tpl now files r h
    have key : ∀ (tpl : Option String) (ns : List String) (now : String)
        (fs : List (String × String)) (skip : String) (todo : List String)
        (ws : List (String × String)),
        migrateLoop tpl ns now fs skip true todo = .ok ws → ws = [] := by
      intro tpl ns now fs skip todo
      induction todo with
      | nil => intro ws hw; rw [migrateLoop] at hw; injection hw with h1; exact h1.symm
      | cons n rest ih =>
        intro ws hw
        rw [migrateLoop] at hw
        by_cases hs : dropHtmlSuffix n = skip
        · rw [if_pos hs] at hw; exact ih ws hw
        · rw [if_neg hs] at hw
          cases hmf : migrate_file tpl ns now n ((fs.lookup n).getD "") true with
          | error e => rw [hmf] at hw; cases hw
          | ok res =>
            rw [hmf] at hw
            cases hrec : migrateLoop tpl ns now fs skip true rest with
            | error e => rw [hrec] at hw; cases hw
            | ok ws2 =>
              rw [hrec] at hw
              injection hw with h1
              have hres : res.2 = [] := by
                unfold migrate_file at hmf
                dsimp only at hmf
                by_cases hstrip :
                    pyStrip (extract_body_content ((fs.lookup n).getD "")) = ""
                · rw [if_pos hstrip] at hmf
                  injection hmf with h2; rw [← h2]
                · rw [if_neg hstrip] at hmf
                  cases hb : build_new_page tpl ns now
                      (extract_date_from_filename n)
                      (normalize_content
                        (extract_body_content ((fs.lookup n).getD ""))) with
                  | error e => rw [hb] at hmf; cases hmf
                  | ok p =>
                    rw [hb] at hmf
                    simp only [if_pos rfl] at hmf
                    injection hmf with h2; rw [← h2]
              rw [← h1, hres, List.nil_append]
              exact ih ws2 hrec
    unfold migrate_main at h
    dsimp only at h
    by_cases hn : (sortAsc ((files.map Prod.fst).filter fun f =>
        (".html".data).isSuffixOf f.data)).isEmpty
    · rw [if_pos hn] at h
      injection h with h1
      rw [← h1]
      exact ⟨rfl, rfl⟩
    · rw [if_neg hn] at h
      cases hl : migrateLoop tpl
          (sortAsc ((files.map Prod.fst).filter fun f =>
            (".html".data).isSuffixOf f.data)) now files
          (dropHtmlSuffix (maxByStem
            (sortAsc ((files.map Prod.fst).filter fun f =>
              (".html".data).isSuffixOf f.data)))) true
          (sortAsc ((files.map Prod.fst).filter fun f =>
            (".html".data).isSuffixOf f.data)) with
      | error e => rw [hl] at h; cases h
      | ok ws =>
        rw [hl] at h
        injection h with h1
        rw [← h1]
        exact ⟨key _ _ _ _ _ _ ws hl, rfl⟩

theorem C7_witness :
    migrate_file none [] "now" "2026-02-06.html" "<html></html>" false =
      .ok (false, []) ∧
    migrate_main none "now" [("2026-02-06.html", "x"), ("2026-02-07.html", "y")]
      true = .ok ([], false) ∧
    (([], false) : List (String × String) × Bool).1 = [] :=
  ⟨C7_migrate_guard.1 none [] "now" "2026-02-06.html" "<html></html>" false
      (by decide),
    by rfl,
    (C7_migrate_guard.2 none "now"
      [("2026-02-06.html", "x"), ("2026-02-07.html", "y")] ([], false)
      (by rfl)).1⟩

/-! ### `fetch_sources.py`: oracles, regex search, fetchers. -/

/-- An XML element as `xml.etree.ElementTree` exposes it: tag (with the
`\x7buri\x7dname` form for namespaced tags), attributes, the text before
the first child, and the child elements. -/
inductive Xml where
  | elem (tag : String) (attrs : List (String × String)) (text : Option String)
    (children : List Xml)

def xmlTag : Xml → String
  | .elem t _ _ _ => t

def xmlAttrs : Xml → List (String × String)
  | .elem _ a _ _ => a

def xmlText : Xml → Option String
  | .elem _ _ tx _ => tx

def xmlChildren : Xml → List Xml
  | .elem _ _ _ ch => ch

/-- The environment of one fetcher run: `net` is the body
`fetch_url` obtains for a URL (`none` when the request raised and was
caught), `pj` is `json.loads`, `px` is `ET.fromstring` (`none` on
`ParseError`), `tsToIso` is
`datetime.fromtimestamp(t).isoformat()`. -/
structure Net where
  net : String → Option String
  pj : String → Option Json
  px : String → Option Xml
  tsToIso : Int → String

/-- `fetch_url`: every exception is caught and turned into `None`. -/
def fetch_url (o : Net) (url : String) : Option String := o.net url

/-- `fetch_url` applied to an arbitrary Python value: a non-string URL
makes `urllib` raise inside `fetch_url`, which returns `None`. -/
def fetchUrlJ (o : Net) (url : Json) : Option String :=
  match url with
  | .str u => o.net u
  | _ => none

/-- `fetch_json`: `None` unless the body is truthy and parses. -/
def fetch_json (o : Net) (url : String) : Option Json :=
  match o.net url with
  | none => none
  | some content => if content = "" then none else o.pj content

/-- ASCII lowering, the effect of `re.IGNORECASE` on the ASCII pattern
literals used here. -/
def lowerC (c : Char) : Char :=
  if 65 ≤ c.toNat ∧ c.toNat ≤ 90 then Char.ofNat (c.toNat + 32) else c

/-- Case-insensitive literal consumption. -/
def litCI : List Char → List Char → Option (List Char)
  | [], s => some s
  | _ :: _, [] => none
  | p :: ps, c :: cs => if lowerC c = lowerC p then litCI ps cs else none

/-- First success over a list of candidate remainders: the backtracking
order of a regex choice point. -/
def firstSome {α : Type} (f : List Char → Option α) :
    List (List Char) → Option α
  | [] => none
  | s :: rest =>
    match f s with
    | some a => some a
    | none => firstSome f rest

/-- The candidate remainders of a greedy `[class]*`, longest consumption
first. -/
def starChoices (p : Char → Bool) (s : List Char) : List (List Char) :=
  ((List.range ((s.takeWhile p).length + 1)).reverse).map (fun k => s.drop k)

/-- The candidate remainders of a lazy `.*?` under `DOTALL`, shortest
consumption first. -/
def suffixesFrom : List Char → List (List Char)
  | [] => [[]]
  | c :: r => (c :: r) :: suffixesFrom r

/-- One character of the class `["\x27]`. -/
def quoteCh : List Char → Option (List Char)
  | [] => none
  | c :: r => if c = Char.ofNat 34 ∨ c = sq then some r else none

def dquote : List Char → Option (List Char)
  | [] => none
  | c :: r => if c = Char.ofNat 34 then some r else none

/-- `([^"\x27]+)["\x27]`: the greedy group is forced to the whole
quote-free run, which the quote must close; yields the group and the
remainder after the closing quote. -/
def groupToQuote (s : List Char) : Option (List Char × List Char) :=
  let run := s.takeWhile fun c => ¬ (c = Char.ofNat 34 ∨ c = sq)
  if run.isEmpty then none
  else
    match quoteCh (s.drop run.length) with
    | some rest => some (run, rest)
    | none => none

def gtC : Char := Char.ofNat 62

/-- `<meta[^>]*ATTR=["\x27]VAL["\x27][^>]*content=["\x27]([^"\x27]+)["\x27]`
at a fixed start (case-insensitive). -/
def metaPropFirstAt (attr val : List Char) (s : List Char) :
    Option (List Char) :=
  (litCI "<meta".data s).bind fun t =>
  firstSome (fun u =>
    (litCI attr u).bind fun v =>
    (quoteCh v).bind fun w =>
    (litCI val w).bind fun x =>
    (quoteCh x).bind fun y =>
    firstSome (fun z =>
      (litCI "content=".data z).bind fun a =>
      (quoteCh a).bind fun b =>
      (groupToQuote b).map (·.1))
    (starChoices (· ≠ gtC) y))
  (starChoices (· ≠ gtC) t)

/-- `<meta[^>]*content=["\x27]([^"\x27]+)["\x27][^>]*ATTR=["\x27]VAL["\x27]`
at a fixed start (case-insensitive). -/
def metaContentFirstAt (attr val : List Char) (s : List Char) :
    Option (List Char) :=
  (litCI "<meta".data s).bind fun t =>
  firstSome (fun u =>
    (litCI "content=".data u).bind fun v =>
    (quoteCh v).bind fun w =>
    (groupToQuote w).bind fun pr =>
    firstSome (fun y =>
      (litCI attr y).bind fun z =>
      (quoteCh z).bind fun a =>
      (litCI val a).bind fun b =>
      (quoteCh b).map fun _ => pr.1)
    (starChoices (· ≠ gtC) pr.2))
  (starChoices (· ≠ gtC) t)

/-- `re.search`: leftmost start wins; at that start the pattern matches
in its own preference order. -/
def reSearch {α : Type} (m : List Char → Option α) : List Char → Option α
  | [] => none
  | c :: r =>
    match m (c :: r) with
    | some a => some a
    | none => reSearch m r

/-- `extract_description` from `fetch_sources.py`. -/
def extract_description (html : String) : String :=
  if html = "" then ""
  else
    match reSearch (metaPropFirstAt "property=".data "og:description".data)
        html.data with
    | some g => pyStrip ⟨g⟩
    | none =>
    match reSearch (metaContentFirstAt "property=".data "og:description".data)
        html.data with
    | some g => pyStrip ⟨g⟩
    | none =>
    match reSearch (metaPropFirstAt "name=".data "description".data)
        html.data with
    | some g => pyStrip ⟨g⟩
    | none =>
    match reSearch (metaContentFirstAt "name=".data "description".data)
        html.data with
    | some g => pyStrip ⟨g⟩
    | none => ""

/-- A Python value as a number when `int`/`float`/`bool`. -/
def jNum? : Json → Option Int
  | .num m => some m
  | .bool b => some (if b then 1 else 0)
  | _ => none

/-- Python `a >= b` on digest values: numbers (booleans included)
compare numerically, strings compare by code points, anything else
raises `TypeError` (list-vs-list ordering, which Python also allows, is
not reachable from the comparisons these scripts make and returns an
error here). -/
def pyGEJ (a b : Json) : Except String Bool :=
  match jNum? a, jNum? b with
  | some x, some y => .ok (decide (y ≤ x))
  | _, _ =>
    match a, b with
    | .str x, .str y => .ok (!strLtB x y)
    | _, _ => .error "TypeError: comparison"

/-- Python `n >= j` with an `int` left operand. -/
def pyGEn (n : Nat) (j : Json) : Except String Bool :=
  match jNum? j with
  | some m => .ok (decide (m ≤ (n : Int)))
  | none => .error "TypeError: comparison"

/-- Python `s in j` with a string left operand: key test on dicts,
membership on lists, substring on strings, `TypeError` otherwise. -/
def pyInStr (s : String) (j : Json) : Except String Bool :=
  match j with
  | .obj kvs => .ok (jlookup kvs s).isSome
  | .arr l => .ok (l.any fun x =>
      match x with
      | .str t => t = s
      | _ => false)
  | .str t => .ok (containsSub t.data s.data)
  | _ => .error "TypeError: in"

def hnTopURL : String := "https://hacker-news.firebaseio.com/v0/topstories.json"

def hnItemURL (sid : Json) : String :=
  "https://hacker-news.firebaseio.com/v0/item/" ++ pyStr sid ++ ".json"

/-- `description = extract_description(html)[:300] if html else ""`
after `html = fetch_url(item["url"], timeout=10)`. -/
def hnDesc (o : Net) (url : Json) : String :=
  match fetchUrlJ o url with
  | some html =>
    if html = "" then "" else ⟨(extract_description html).data.take 300⟩
  | none => ""

/-- The item dict one qualifying story becomes. -/
def hnItem (o : Net) (fetch_desc : Json) (sid story : Json) :
    Except String Json := do
  let title ← jgetDE story "title" (.str "")
  let url ← jgetDE story "url" (.str "")
  let score ← jgetDE story "score" (.num 0)
  let byv ← jgetDE story "by" (.str "")
  let timev ← jgetDE story "time" (.num 0)
  let iso ← match jNum? timev with
    | some t => Except.ok (o.tsToIso t)
    | none => Except.error "TypeError: fromtimestamp"
  let desc : Json ←
    if pyTruthy fetch_desc then pure (.str (hnDesc o url))
    else pure (.str "")
  pure (.obj [("title", title), ("url", url), ("score", score), ("by", byv),
    ("time", .str iso),
    ("comments", .str ("https://news.ycombinator.com/item?id=" ++ pyStr sid)),
    ("description", desc)])

/-- The story loop of `fetch_hackernews`; `cnt` is `len(items)` so
far. -/
def hnLoop (o : Net) (min_score limitJ fetch_desc : Json) :
    List Json → Nat → Except String (List Json)
  | [], _ => .ok []
  | sid :: rest, cnt =>
    match pyGEn cnt limitJ with
    | .error e => .error e
    | .ok true => .ok []
    | .ok false =>
      match fetch_json o (hnItemURL sid) with
      | none => hnLoop o min_score limitJ fetch_desc rest cnt
      | some story =>
        if !pyTruthy story then hnLoop o min_score limitJ fetch_desc rest cnt
        else
          match jgetDE story "score" (.num 0) with
          | .error e => .error e
          | .ok score =>
            match pyGEJ score min_score with
            | .error e => .error e
            | .ok false => hnLoop o min_score limitJ fetch_desc rest cnt
            | .ok true =>
              match jgetDE story "url" .null with
              | .error e => .error e
              | .ok urlv =>
                if !pyTruthy urlv then
                  hnLoop o min_score limitJ fetch_desc rest cnt
                else
                  match hnItem o fetch_desc sid story with
                  | .error e => .error e
                  | .ok item =>
                    match hnLoop o min_score limitJ fetch_desc rest (cnt + 1) with
                    | .error e => .error e
                    | .ok out => .ok (item :: out)

/-- `fetch_hackernews` from `fetch_sources.py` (the initial `print`
already dereferences `config.get`). -/
def fetch_hackernews (o : Net) (config : Json) : Except String (List Json) := do
  let _ ← jgetE config "filter"
  let _ ← jgetE config "min_score"
  match fetch_json o hnTopURL with
  | none => pure []
  | some sj =>
    if !pyTruthy sj then pure []
    else do
      let min_score ← jgetDE config "min_score" (.num 100)
      let limit ← jgetDE config "limit" (.num 10)
      let fetch_desc ← jgetDE config "fetch_description" (.bool true)
      let top ← pySliceJ sj 30
      let sids ← pyIter top
      hnLoop o min_score limit fetch_desc sids 0

/-- Python `j * 2`: numbers double, strings and lists repeat, the rest
raises `TypeError`. -/
def pyMul2 (j : Json) : Except String Json :=
  match j with
  | .num m => .ok (.num (2 * m))
  | .bool b => .ok (.num (if b then 2 else 0))
  | .str s => .ok (.str (s ++ s))
  | .arr l => .ok (.arr (l ++ l))
  | _ => .error "TypeError: mul"

/-- The reddit request URL; computing `limit * 2` can raise. -/
def reddit_url (config : Json) : Except String String := do
  let subreddit ← jgetDE config "subreddit" (.str "all")
  let sort ← jgetDE config "sort" (.str "hot")
  let limit ← jgetDE config "limit" (.num 10)
  let l2 ← pyMul2 limit
  pure ("https://www.reddit.com/r/" ++ pyStr subreddit ++ "/" ++ pyStr sort ++
    ".json?limit=" ++ pyStr l2)

/-- `dict[key]`: `KeyError`/`TypeError` semantics of a subscript. -/
def pySubscript (j : Json) (k : String) : Except String Json :=
  match j with
  | .obj kvs =>
    match jlookup kvs k with
    | some v => .ok v
    | none => .error "KeyError"
  | _ => .error "TypeError: subscript"

def redditItem (post : Json) : Except String Json := do
  let title ← jgetDE post "title" (.str "")
  let url ← jgetDE post "url" (.str "")
  let score ← jgetDE post "score" (.num 0)
  let author ← jgetDE post "author" (.str "")
  let subreddit ← jgetDE post "subreddit" (.str "")
  let num_comments ← jgetDE post "num_comments" (.num 0)
  let permalink ← jgetDE post "permalink" (.str "")
  pure (.obj [("title", title), ("url", url), ("score", score),
    ("author", author), ("subreddit", subreddit),
    ("num_comments", num_comments),
    ("permalink", .str ("https://reddit.com" ++ pyStr permalink))])

/-- The child loop of `fetch_reddit`; the length check runs after every
child. -/
def redditLoop (limitJ : Json) : List Json → Nat → Except String (List Json)
  | [], _ => .ok []
  | child :: rest, cnt =>
    match jgetDE child "data" (.obj []) with
    | .error e => .error e
    | .ok post =>
      match jgetDE post "score" (.num 0) with
      | .error e => .error e
      | .ok score =>
        match pyGEJ score (.num 50) with
        | .error e => .error e
        | .ok true =>
          match redditItem post with
          | .error e => .error e
          | .ok item =>
            match pyGEn (cnt + 1) limitJ with
            | .error e => .error e
            | .ok true => .ok [item]
            | .ok false =>
              match redditLoop limitJ rest (cnt + 1) with
              | .error e => .error e
              | .ok out => .ok (item :: out)
        | .ok false =>
          match pyGEn cnt limitJ with
          | .error e => .error e
          | .ok true => .ok []
          | .ok false => redditLoop limitJ rest cnt

/-- `fetch_reddit` from `fetch_sources.py`. -/
def fetch_reddit (o : Net) (config : Json) : Except String (List Json) := do
  let u ← reddit_url config
  let limit ← jgetDE config "limit" (.num 10)
  match fetch_json o u with
  | none => pure []
  | some dataJ =>
    if !pyTruthy dataJ then pure []
    else do
      let hasData ← pyInStr "data" dataJ
      if !hasData then pure []
      else do
        let inner ← pySubscript dataJ "data"
        let children ← jgetDE inner "children" (.arr [])
        let elems ← pyIter children
        redditLoop limit elems 0

/-- Smallest split of the input at which the closing literal starts;
returns the consumed part and the remainder after the literal: a lazy
`(.*?)` followed by a literal. -/
def lazyUptoGo (close : List Char) : List Char → Option (List Char × List Char)
  | [] => none
  | c :: r =>
    if close.isPrefixOf (c :: r) then some ([], (c :: r).drop close.length)
    else (lazyUptoGo close r).map fun pr => (c :: pr.1, pr.2)

/-- `<h2[^>]*>.*?<a[^>]*href="/([^"]+)"[^>]*>` (DOTALL) at a fixed
start. -/
def repoMatchAt (s : List Char) : Option (List Char) :=
  (stripLit "<h2".data s).bind fun t =>
  firstSome (fun u =>
    (stripLit ">".data u).bind fun v =>
    firstSome (fun w =>
      (stripLit "<a".data w).bind fun x =>
      firstSome (fun y =>
        (stripLit "href=\"/".data y).bind fun z =>
        let run := z.takeWhile (· ≠ Char.ofNat 34)
        if run.isEmpty then none
        else
          (dquote (z.drop run.length)).bind fun a =>
          firstSome (fun b => (stripLit ">".data b).map fun _ => run)
          (starChoices (· ≠ gtC) a))
      (starChoices (· ≠ gtC) x))
    (suffixesFrom v))
  (starChoices (· ≠ gtC) t)

/-- `<p[^>]*class="[^"]*col-9[^"]*"[^>]*>(.*?)</p>` (DOTALL) at a fixed
start. -/
def descMatchAt (s : List Char) : Option (List Char) :=
  (stripLit "<p".data s).bind fun t =>
  firstSome (fun u =>
    (stripLit "class=\"".data u).bind fun v =>
    firstSome (fun w =>
      (stripLit "col-9".data w).bind fun x =>
      let run := x.takeWhile (· ≠ Char.ofNat 34)
      (dquote (x.drop run.length)).bind fun y =>
      firstSome (fun z =>
        (stripLit ">".data z).bind fun a =>
        (lazyUptoGo "</p>".data a).map (·.1))
      (starChoices (· ≠ gtC) y))
    (starChoices (· ≠ Char.ofNat 34) v))
  (starChoices (· ≠ gtC) t)

/-- `([0-9,]+)\s*stars?\s+today` at a fixed start: each greedy piece is
forced, the optional `s` backtracks. -/
def starsMatchAt (s : List Char) : Option (List Char) :=
  let run := s.takeWhile fun c => c.isDigit || c = Char.ofNat 44
  if run.isEmpty then none
  else
    match stripLit "star".data ((s.drop run.length).dropWhile pySpace) with
    | none => none
    | some u =>
      let tailOk : List Char → Bool := fun v =>
        !(v.takeWhile pySpace).isEmpty &&
          "today".data.isPrefixOf (v.dropWhile pySpace)
      let withS :=
        match u with
        | c :: r => c = Char.ofNat 115 && tailOk r
        | [] => false
      if withS || tailOk u then some run else none

/-- `<span[^>]*itemprop="programmingLanguage"[^>]*>([^<]+)</span>` at a
fixed start. -/
def langMatchAt (s : List Char) : Option (List Char) :=
  (stripLit "<span".data s).bind fun t =>
  firstSome (fun u =>
    (stripLit "itemprop=\"programmingLanguage\"".data u).bind fun v =>
    firstSome (fun w =>
      (stripLit ">".data w).bind fun x =>
      let run := x.takeWhile (· ≠ Char.ofNat 60)
      if run.isEmpty then none
      else if "</span>".data.isPrefixOf (x.drop run.length) then some run
      else none)
    (starChoices (· ≠ gtC) v))
  (starChoices (· ≠ gtC) t)

/-- One github trending item from one article split. -/
def gtItem (o : Net) (fetch_desc : Json) (article : String) :
    Option Json :=
  match reSearch repoMatchAt article.data with
  | none => none
  | some rp0 =>
    let repo_path := pyStrip ⟨rp0⟩
    if "login".data.isPrefixOf repo_path.data ||
        "sponsors".data.isPrefixOf repo_path.data then none
    else
      let desc0 :=
        match reSearch descMatchAt article.data with
        | some d => pyReplace (pyStrip ⟨d⟩) "\n" " "
        | none => ""
      let desc1 := pyReplace (pyReplace (pyReplace desc0 "&amp;" "&")
        "&lt;" "<") "&gt;" ">"
      let description :=
        if desc1 = "" && pyTruthy fetch_desc then
          match o.net ("https://github.com/" ++ repo_path) with
          | some repo_html =>
            if repo_html = "" then ""
            else ⟨(extract_description repo_html).data.take 300⟩
          | none => ""
        else desc1
      let stars_today :=
        match reSearch starsMatchAt article.data with
        | some g => pyReplace ⟨g⟩ "," ""
        | none => "0"
      let lang :=
        match reSearch langMatchAt article.data with
        | some g => pyStrip ⟨g⟩
        | none => ""
      some (.obj [("repo", .str repo_path),
        ("name", .str ((pySplit repo_path "/").getLastD "")),
        ("url", .str ("https://github.com/" ++ repo_path)),
        ("description", .str description),
        ("stars_today", .str stars_today),
        ("language", .str lang)])

/-- The article loop of `fetch_github_trending`; the length check runs
before each article. -/
def gtLoop (o : Net) (fetch_desc limitJ : Json) :
    List String → Nat → Except String (List Json)
  | [], _ => .ok []
  | article :: rest, cnt =>
    match pyGEn cnt limitJ with
    | .error e => .error e
    | .ok true => .ok []
    | .ok false =>
      match gtItem o fetch_desc article with
      | none => gtLoop o fetch_desc limitJ rest cnt
      | some item =>
        match gtLoop o fetch_desc limitJ rest (cnt + 1) with
        | .error e => .error e
        | .ok out => .ok (item :: out)

def gt_url (config : Json) : Except String String := do
  let language ← jgetDE config "language" (.str "")
  let since ← jgetDE config "since" (.str "daily")
  pure ("https://github.com/trending/" ++ pyStr language ++ "?since=" ++
    pyStr since)

/-- `fetch_github_trending` from `fetch_sources.py`. -/
def fetch_github_trending (o : Net) (config : Json) :
    Except String (List Json) := do
  let u ← gt_url config
  let limit ← jgetDE config "limit" (.num 5)
  let fetch_desc ← jgetDE config "fetch_description" (.bool true)
  match o.net u with
  | none => pure []
  | some content =>
    if content = "" then pure []
    else
      gtLoop o fetch_desc limit
        ((pySplit content "<article class=\"Box-row\"").drop 1) 0

/-- All proper descendants of an element in document order. -/
def xmlDescend : Xml → List Xml
  | .elem _ _ _ ch => xmlDescendList ch
where xmlDescendList : List Xml → List Xml
  | [] => []
  | c :: rest => c :: (xmlDescend c ++ xmlDescendList rest)

/-- `root.findall(".//TAG")`. -/
def findallDesc (root : Xml) (tag : String) : List Xml :=
  (xmlDescend root).filter fun e => xmlTag e = tag

/-- `elem.find(TAG)`: the first direct child with the tag. -/
def findChild (x : Xml) (tag : String) : Option Xml :=
  (xmlChildren x).find? fun c => xmlTag c = tag

/-- `elem.find(a)` falling back to `elem.find(b)` when `None`. -/
def findChild2 (x : Xml) (a b : String) : Option Xml :=
  match findChild x a with
  | some e => some e
  | none => findChild x b

/-- `elem.text if elem is not None else ""` as a Python value. -/
def textOrEmpty : Option Xml → Json
  | some e =>
    match xmlText e with
    | some t => .str t
    | none => .null
  | none => .str ""

/-- `.strip()` on the value: `AttributeError` when it is `None`. -/
def jStrip : Json → Except String String
  | .str s => .ok (pyStrip s)
  | _ => .error "AttributeError: strip"

/-- Python `l[:limit]` with an arbitrary limit value. -/
def pySliceLim {α : Type} (l : List α) (limitJ : Json) :
    Except String (List α) :=
  match limitJ with
  | .num m =>
    .ok (if 0 ≤ m then l.take m.toNat else l.take (l.length - (-m).toNat))
  | .bool b => .ok (l.take (if b then 1 else 0))
  | .null => .ok l
  | _ => .error "TypeError: slice"

def atomNS : String := "\x7bhttp://www.w3.org/2005/Atom\x7d"

/-- One feed entry of `fetch_rss`: `none` when skipped for a falsy
title or link; `.strip()` on a `None` text raises. -/
def rssEntry (entry : Xml) : Except String (Option Json) := do
  let title := textOrEmpty (findChild2 entry "title" (atomNS ++ "title"))
  let link_elem := findChild2 entry "link" (atomNS ++ "link")
  let link : Json :=
    match link_elem with
    | some e =>
      let hrefV : Json :=
        match (xmlAttrs e).lookup "href" with
        | some h => .str h
        | none => .null
      let textV : Json :=
        match xmlText e with
        | some t => .str t
        | none => .null
      pyOrJ hrefV (pyOrJ textV (.str ""))
    | none => .str ""
  let description := textOrEmpty
    (findChild2 entry "description" (atomNS ++ "summary"))
  let pubdate := textOrEmpty (findChild2 entry "pubDate" (atomNS ++ "published"))
  if pyTruthy title && pyTruthy link then do
    let ts ← jStrip title
    let ls ← jStrip link
    let ds ← jStrip description
    let ps ← jStrip pubdate
    pure (some (.obj [("title", .str ts), ("url", .str ls),
      ("description", .str ⟨ds.data.take 300⟩), ("published", .str ps)]))
  else pure none

def rssLoop : List Xml → Except String (List Json)
  | [] => .ok []
  | e :: rest =>
    match rssEntry e with
    | .error err => .error err
    | .ok none => rssLoop rest
    | .ok (some item) =>
      match rssLoop rest with
      | .error err => .error err
      | .ok out => .ok (item :: out)

/-- `fetch_rss` from `fetch_sources.py`; only `ET.ParseError` is
caught. -/
def fetch_rss (o : Net) (config : Json) : Except String (List Json) := do
  let url ← jgetE config "url"
  let limit ← jgetDE config "limit" (.num 10)
  if !pyTruthy (optJ url) then pure []
  else
    match fetchUrlJ o (optJ url) with
    | none => pure []
    | some content =>
      if content = "" then pure []
      else
        match o.px content with
        | none => pure []
        | some root =>
          let entries :=
            if (findallDesc root "item").isEmpty then
              findallDesc root (atomNS ++ "entry")
            else findallDesc root "item"
          match pySliceLim entries limit with
          | .error e => .error e
          | .ok sliced => rssLoop sliced

lemma jgetDE_obj (kvs : List (String × Json)) (k : String) (d : Json) :
    jgetDE (.obj kvs) k d = .ok ((jlookup kvs k).getD d) := by
  simp only [jgetDE, jgetE]
  cases jlookup kvs k <;> rfl

/-- C2: each fetcher turns a failed fetch or an unparseable response
into the empty list instead of an exception: `fetch_json` yielding
`None` for Hacker News and Reddit, `fetch_url` yielding `None` for
GitHub Trending, and for RSS either a failed fetch or a body
`ET.fromstring` rejects. -/
theorem C2_fetch_failures :
    (∀ (o : Net) (kvs : List (String × Json)),
      fetch_json o hnTopURL = none →
      fetch_hackernews o (.obj kvs) = .ok []) ∧
    (∀ (o : Net) (kvs : List (String × Json)) (u : String),
      reddit_url (.obj kvs) = .ok u → fetch_json o u = none →
      fetch_reddit o (.obj kvs) = .ok []) ∧
    (∀ (o : Net) (kvs : List (String × Json)) (u : String),
      gt_url (.obj kvs) = .ok u → o.net u = none →
      fetch_github_trending o (.obj kvs) = .ok []) ∧
    (∀ (o : Net) (kvs : List (String × Json)) (u : String),
      jlookup kvs "url" = some (.str u) → u ≠ "" →
      (o.net u = none ∨ ∀ c, o.net u = some c → o.px c = none) →
      fetch_rss o (.obj kvs) = .ok []) := by
  refine ⟨?_, ?_, ?_, ?_⟩
  · intro o kvs h
    simp only [fetch_hackernews, jgetE, bind, Except.bind, h]
    rfl
  · intro o kvs u h1 h2
    simp only [fetch_reddit, h1, jgetDE_obj, bind, Except.bind, h2]
    rfl
  · intro o kvs u h1 h2
    simp only [fetch_github_trending, h1, jgetDE_obj, bind, Except.bind, h2]
    rfl
  · intro o kvs u h1 h2 h3
    simp only [fetch_rss, jgetE, h1, jgetDE_obj, bind, Except.bind, optJ]
    have ht : pyTruthy (.str u) = true := by
      simp [pyTruthy, h2]
    rw [ht]
    simp only [Bool.not_true, Bool.false_eq_true, if_false, fetchUrlJ]
    rcases h3 with h3 | h3
    · rw [h3]
      rfl
    · cases hn : o.net u with
      | none => rfl
      | some c =>
        by_cases hc : c = ""
        · simp only [if_pos hc]
          rfl
        · simp only [if_neg hc, h3 c hn]
          rfl

def failNet : Net :=
  { net := fun _ => none, pj := fun _ => none, px := fun _ => none,
    tsToIso := fun _ => "" }

theorem C2_witness :
    fetch_hackernews failNet (.obj []) = .ok [] ∧
    fetch_reddit failNet (.obj [("limit", .str "9")]) = .ok [] ∧
    fetch_github_trending failNet (.obj []) = .ok [] ∧
    fetch_rss failNet (.obj [("url", .str "u")]) = .ok [] := by
  refine ⟨?_, ?_, ?_, ?_⟩
  · exact C2_fetch_failures.1 failNet [] (by rfl)
  · exact C2_fetch_failures.2.1 failNet [("limit", .str "9")]
      "https://www.reddit.com/r/all/hot.json?limit=99" (by rfl) (by rfl)
  · exact C2_fetch_failures.2.2.1 failNet []
      "https://github.com/trending/?since=daily" (by rfl) (by rfl)
  · exact C2_fetch_failures.2.2.2 failNet [("url", .str "u")] "u" (by rfl)
      (by decide) (Or.inl (by rfl))

/-- The description field is a string of at most 300 characters. -/
def descLenOk (it : Json) : Bool :=
  match jget it "description" with
  | some (.str t) => decide (t.data.length ≤ 300)
  | _ => false

lemma bindOk {α β : Type} {e : Except String α} {k : α → Except String β}
    {b : β} (h : Except.bind e k = .ok b) : ∃ a, e = .ok a ∧ k a = .ok b := by
  cases e with
  | error z => simp [Except.bind] at h
  | ok a => exact ⟨a, rfl, by simpa [Except.bind] using h⟩

lemma hnDesc_len (o : Net) (url : Json) : (hnDesc o url).length ≤ 300 := by
  unfold hnDesc
  cases fetchUrlJ o url with
  | none => decide
  | some html =>
    by_cases hh : html = ""
    · subst hh; decide
    · simp only [if_neg hh]
      have he : (String.mk ((extract_description html).data.take 300)).length =
          ((extract_description html).data.take 300).length := rfl
      rw [he, List.length_take]
      exact min_le_left _ _

lemma hnItem_desc (o : Net) (fd sid story item : Json)
    (h : hnItem o fd sid story = .ok item) : descLenOk item = true := by
  simp only [hnItem, bind] at h
  obtain ⟨t, h1, h⟩ := bindOk h
  obtain ⟨u, h2, h⟩ := bindOk h
  obtain ⟨sc, h3, h⟩ := bindOk h
  obtain ⟨bv, h4, h⟩ := bindOk h
  obtain ⟨tv, h5, h⟩ := bindOk h
  cases h6 : jNum? tv with
  | none =>
    rw [h6] at h
    simp [Except.bind] at h
  | some tn =>
    rw [h6] at h
    obtain ⟨iso, h6b, h⟩ := bindOk h
    by_cases hf : pyTruthy fd = true
    · rw [if_pos hf] at h
      obtain ⟨d, h7, h⟩ := bindOk h
      simp only [pure, Except.pure, Except.ok.injEq] at h h7
      subst h
      subst h7
      simp [descLenOk, jget, jlookup, hnDesc_len]
    · rw [if_neg hf] at h
      obtain ⟨d, h7, h⟩ := bindOk h
      simp only [pure, Except.pure, Except.ok.injEq] at h h7
      subst h
      subst h7
      simp [descLenOk, jget, jlookup]

lemma hnLoop_desc (o : Net) (ms lim fd : Json) :
    ∀ (sids : List Json) (cnt : Nat) (out : List Json),
      hnLoop o ms lim fd sids cnt = .ok out →
      ∀ it ∈ out, descLenOk it = true := by
  intro sids
  induction sids with
  | nil =>
    intro cnt out h it hit
    simp only [hnLoop, Except.ok.injEq] at h
    subst h
    cases hit
  | cons sid rest ih =>
    intro cnt out h it hit
    rw [hnLoop] at h
    cases hg : pyGEn cnt lim with
    | error e => rw [hg] at h; cases h
    | ok b =>
      rw [hg] at h
      cases b with
      | true =>
        simp only [Except.ok.injEq] at h
        subst h; cases hit
      | false =>
        cases hf : fetch_json o (hnItemURL sid) with
        | none => rw [hf] at h; exact ih cnt out h it hit
        | some story =>
          rw [hf] at h
          by_cases ht : pyTruthy story = true
          · simp only [ht, Bool.not_true, Bool.false_eq_true, if_false] at h
            cases h3 : jgetDE story "score" (.num 0) with
            | error e => rw [h3] at h; cases h
            | ok score =>
              rw [h3] at h
              try dsimp only at h
              cases h4 : pyGEJ score ms with
              | error e => rw [h4] at h; cases h
              | ok b2 =>
                rw [h4] at h
                try dsimp only at h
                cases b2 with
                | false => exact ih cnt out h it hit
                | true =>
                  cases h5 : jgetDE story "url" .null with
                  | error e => rw [h5] at h; cases h
                  | ok urlv =>
                    rw [h5] at h
                    try dsimp only at h
                    by_cases hu : pyTruthy urlv = true
                    · simp only [hu, Bool.not_true, Bool.false_eq_true,
                        if_false] at h
                      cases h6 : hnItem o fd sid story with
                      | error e => rw [h6] at h; cases h
                      | ok item =>
                        rw [h6] at h
                        try dsimp only at h
                        cases h7 : hnLoop o ms lim fd rest (cnt + 1) with
                        | error e => rw [h7] at h; cases h
                        | ok out2 =>
                          rw [h7] at h
                          try dsimp only at h
                          simp only [Except.ok.injEq] at h
                          subst h
                          rcases List.mem_cons.mp hit with rfl | hit2
                          · exact hnItem_desc o fd sid story it h6
                          · exact ih (cnt + 1) out2 h7 it hit2
                    · simp only [eq_false_of_ne_true hu, Bool.not_false,
                        if_true] at h
                      exact ih cnt out h it hit
          · simp only [eq_false_of_ne_true ht, Bool.not_false, if_true] at h
            exact ih cnt out h it hit

lemma rssEntry_desc (e : Xml) (item : Json)
    (h : rssEntry e = .ok (some item)) : descLenOk item = true := by
  simp only [rssEntry, bind] at h
  by_cases hc : (pyTruthy (textOrEmpty (findChild2 e "title" (atomNS ++ "title")))
      && pyTruthy
        (match findChild2 e "link" (atomNS ++ "link") with
          | some le =>
            pyOrJ
              (match (xmlAttrs le).lookup "href" with
                | some hv => .str hv
                | none => .null)
              (pyOrJ
                (match xmlText le with
                  | some tv => .str tv
                  | none => .null) (.str ""))
          | none => .str "")) = true
  · rw [if_pos hc] at h
    obtain ⟨ts, h1, h⟩ := bindOk h
    obtain ⟨ls, h2, h⟩ := bindOk h
    obtain ⟨ds, h3, h⟩ := bindOk h
    obtain ⟨ps, h4, h⟩ := bindOk h
    simp only [pure, Except.pure, Except.ok.injEq, Option.some.injEq] at h
    subst h
    simp only [descLenOk, jget, jlookup]
    simp [List.length_take_le]
  · rw [if_neg hc] at h
    simp [pure, Except.pure] at h

lemma rssLoop_desc :
    ∀ (es : List Xml) (out : List Json), rssLoop es = .ok out →
      ∀ it ∈ out, descLenOk it = true := by
  intro es
  induction es with
  | nil =>
    intro out h it hit
    simp only [rssLoop, Except.ok.injEq] at h
    subst h; cases hit
  | cons e rest ih =>
    intro out h it hit
    rw [rssLoop] at h
    cases h1 : rssEntry e with
    | error z => rw [h1] at h; cases h
    | ok oi =>
      rw [h1] at h
      cases oi with
      | none => exact ih out h it hit
      | some item =>
        cases h2 : rssLoop rest with
        | error z => rw [h2] at h; cases h
        | ok out2 =>
          rw [h2] at h
          simp only [Except.ok.injEq] at h
          subst h
          rcases List.mem_cons.mp hit with rfl | hit2
          · exact rssEntry_desc e it h1
          · exact ih out2 h2 it hit2

/-- C9: every item `fetch_hackernews` or `fetch_rss` returns carries a
string `description` of at most 300 characters. -/
theorem C9_description_bound :
    (∀ (o : Net) (config : Json) (items : List Json),
      fetch_hackernews o config = .ok items →
      ∀ it ∈ items, descLenOk it = true) ∧
    (∀ (o : Net) (config : Json) (items : List Json),
      fetch_rss o config = .ok items →
      ∀ it ∈ items, descLenOk it = true) := by
  constructor
  · intro o config items h it hit
    simp only [fetch_hackernews, bind] at h
    obtain ⟨x1, h1, h⟩ := bindOk h
    obtain ⟨x2, h2, h⟩ := bindOk h
    cases hf : fetch_json o hnTopURL with
    | none =>
      rw [hf] at h
      simp only [pure, Except.pure, Except.ok.injEq] at h
      subst h; cases hit
    | some sj =>
      rw [hf] at h
      by_cases ht : pyTruthy sj = true
      · simp only [ht, Bool.not_true, Bool.false_eq_true, if_false, bind] at h
        obtain ⟨ms, h3, h⟩ := bindOk h
        obtain ⟨lim, h4, h⟩ := bindOk h
        obtain ⟨fd, h5, h⟩ := bindOk h
        obtain ⟨top, h6, h⟩ := bindOk h
        obtain ⟨sids, h7, h⟩ := bindOk h
        exact hnLoop_desc o ms lim fd sids 0 items h it hit
      · simp only [eq_false_of_ne_true ht, Bool.not_false, if_true] at h
        simp only [pure, Except.pure, Except.ok.injEq] at h
        subst h; cases hit
  · intro o config items h it hit
    simp only [fetch_rss, bind] at h
    obtain ⟨url, h1, h⟩ := bindOk h
    obtain ⟨lim, h2, h⟩ := bindOk h
    by_cases ht : pyTruthy (optJ url) = true
    · simp only [ht, Bool.not_true, Bool.false_eq_true, if_false] at h
      cases hf : fetchUrlJ o (optJ url) with
      | none =>
        rw [hf] at h
        try dsimp only at h
        simp only [pure, Except.pure, Except.ok.injEq] at h
        subst h; cases hit
      | some content =>
        rw [hf] at h
        try dsimp only at h
        by_cases hc : content = ""
        · rw [if_pos hc] at h
          simp only [pure, Except.pure, Except.ok.injEq] at h
          subst h; cases hit
        · rw [if_neg hc] at h
          cases hp : o.px content with
          | none =>
            rw [hp] at h
            try dsimp only at h
            simp only [pure, Except.pure, Except.ok.injEq] at h
            subst h; cases hit
          | some root =>
            rw [hp] at h
            try dsimp only at h
            cases hs : pySliceLim
                (if (findallDesc root "item").isEmpty = true then
                  findallDesc root (atomNS ++ "entry")
                else findallDesc root "item") lim with
            | error z => rw [hs] at h; cases h
            | ok sliced =>
              rw [hs] at h
              try dsimp only at h
              exact rssLoop_desc sliced items h it hit
    · simp only [eq_false_of_ne_true ht, Bool.not_false, if_true] at h
      simp only [pure, Except.pure, Except.ok.injEq] at h
      subst h; cases hit

/-- A one-item feed for concrete runs. -/
def wFeed : Xml :=
  .elem "rss" [] none [.elem "channel" [] none [.elem "item" [] none
    [.elem "title" [] (some "T") [], .elem "link" [] (some "L") [],
      .elem "description" [] (some "D") []]]]

/-- An oracle with one qualifying Hacker News story and one RSS item. -/
def wNet : Net :=
  { net := fun u =>
      if u = hnTopURL then some "ids"
      else if u = hnItemURL (.str "a") then some "story"
      else if u = "f" then some "feedxml"
      else none,
    pj := fun s =>
      if s = "ids" then some (.arr [.str "a"])
      else if s = "story" then
        some (.obj [("score", .num 200), ("url", .str "u2")])
      else none,
    px := fun s => if s = "feedxml" then some wFeed else none,
    tsToIso := fun _ => "TS" }

def c9HnItems : List Json :=
  (fetch_hackernews wNet (.obj [])).toOption.getD []

def c9RssItems : List Json :=
  (fetch_rss wNet (.obj [("url", .str "f")])).toOption.getD []

theorem C9_witness :
    fetch_hackernews wNet (.obj []) = .ok c9HnItems ∧
    (∀ it ∈ c9HnItems, descLenOk it = true) ∧
    c9HnItems.length = 1 ∧
    fetch_rss wNet (.obj [("url", .str "f")]) = .ok c9RssItems ∧
    (∀ it ∈ c9RssItems, descLenOk it = true) ∧
    c9RssItems.length = 1 :=
  ⟨by rfl,
    C9_description_bound.1 wNet (.obj []) c9HnItems (by rfl),
    by rfl,
    by rfl,
    C9_description_bound.2 wNet (.obj [("url", .str "f")]) c9RssItems (by rfl),
    by rfl⟩

/-- The numeric bound a Python value imposes as a loop limit. -/
def hnLimN (lim : Json) : Nat :=
  match jNum? lim with
  | some m => m.toNat
  | none => 0

def hnLimitNat (config : Json) : Nat :=
  hnLimN (jgetD config "limit" (.num 10))

/-- `story_ids[:30]` as the id list the story loop walks. -/
def hnSids (sj : Json) : Except String (List Json) :=
  match pySliceJ sj 30 with
  | .error e => .error e
  | .ok t => pyIter t

/-- The provenance one returned item has: its story was fetched from the
id's item URL, was truthy, passed the `min_score` comparison, had a
truthy `url`, and the item is exactly the dict built from it. -/
def hnGood (o : Net) (ms fd : Json) (sid item : Json) : Prop :=
  ∃ story score urlv,
    fetch_json o (hnItemURL sid) = some story ∧
    pyTruthy story = true ∧
    jgetDE story "score" (.num 0) = .ok score ∧
    pyGEJ score ms = .ok true ∧
    jgetDE story "url" .null = .ok urlv ∧
    pyTruthy urlv = true ∧
    hnItem o fd sid story = .ok item

lemma hnLoop_spec (o : Net) (ms lim fd : Json) :
    ∀ (sids : List Json) (cnt : Nat) (out : List Json),
      hnLoop o ms lim fd sids cnt = .ok out →
      out.length + cnt ≤ max (hnLimN lim) cnt ∧
      ∃ subs, subs.Sublist sids ∧ List.Forall₂ (hnGood o ms fd) subs out := by
  intro sids
  induction sids with
  | nil =>
    intro cnt out h
    simp only [hnLoop, Except.ok.injEq] at h
    subst h
    exact ⟨by simp, [], List.Sublist.refl _, List.Forall₂.nil⟩
  | cons sid rest ih =>
    intro cnt out h
    rw [hnLoop] at h
    cases hg : pyGEn cnt lim with
    | error e => rw [hg] at h; cases h
    | ok b =>
      rw [hg] at h
      cases b with
      | true =>
        simp only [Except.ok.injEq] at h
        subst h
        exact ⟨by simp, [], List.nil_sublist _, List.Forall₂.nil⟩
      | false =>
        have hlt : cnt < hnLimN lim := by
          simp only [pyGEn] at hg
          cases hj : jNum? lim with
          | none => rw [hj] at hg; cases hg
          | some m =>
            rw [hj] at hg
            simp only [Except.ok.injEq, decide_eq_false_iff_not, not_le] at hg
            simp only [hnLimN, hj]
            omega
        cases hf : fetch_json o (hnItemURL sid) with
        | none =>
          rw [hf] at h
          obtain ⟨hlen, subs, hsub, hfa⟩ := ih cnt out h
          exact ⟨hlen, subs, hsub.cons _, hfa⟩
        | some story =>
          rw [hf] at h
          by_cases ht : pyTruthy story = true
          · simp only [ht, Bool.not_true, Bool.false_eq_true, if_false] at h
            cases h3 : jgetDE story "score" (.num 0) with
            | error e => rw [h3] at h; cases h
            | ok score =>
              rw [h3] at h
              try dsimp only at h
              cases h4 : pyGEJ score ms with
              | error e => rw [h4] at h; cases h
              | ok b2 =>
                rw [h4] at h
                try dsimp only at h
                cases b2 with
                | false =>
                  obtain ⟨hlen, subs, hsub, hfa⟩ := ih cnt out h
                  exact ⟨hlen, subs, hsub.cons _, hfa⟩
                | true =>
                  cases h5 : jgetDE story "url" .null with
                  | error e => rw [h5] at h; cases h
                  | ok urlv =>
                    rw [h5] at h
                    try dsimp only at h
                    by_cases hu : pyTruthy urlv = true
                    · simp only [hu, Bool.not_true, Bool.false_eq_true,
                        if_false] at h
                      cases h6 : hnItem o fd sid story with
                      | error e => rw [h6] at h; cases h
                      | ok item =>
                        rw [h6] at h
                        try dsimp only at h
                        cases h7 : hnLoop o ms lim fd rest (cnt + 1) with
                        | error e => rw [h7] at h; cases h
                        | ok out2 =>
                          rw [h7] at h
                          try dsimp only at h
                          simp only [Except.ok.injEq] at h
                          subst h
                          obtain ⟨hlen, subs, hsub, hfa⟩ := ih (cnt + 1) out2 h7
                          refine ⟨?_, sid :: subs, hsub.cons₂ _, ?_⟩
                          · simp only [List.length_cons]
                            omega
                          · exact List.Forall₂.cons
                              ⟨story, score, urlv, hf, ht, h3, h4, h5, hu, h6⟩
                              hfa
                    · simp only [eq_false_of_ne_true hu, Bool.not_false,
                        if_true] at h
                      obtain ⟨hlen, subs, hsub, hfa⟩ := ih cnt out h
                      exact ⟨hlen, subs, hsub.cons _, hfa⟩
          · simp only [eq_false_of_ne_true ht, Bool.not_false, if_true] at h
            obtain ⟨hlen, subs, hsub, hfa⟩ := ih cnt out h
            exact ⟨hlen, subs, hsub.cons _, hfa⟩

/-- C8: `fetch_hackernews` returns at most `limit` items (default 10);
each comes from one of the first 30 top-story ids — its story was
fetched, scored at least `min_score` (default 100) and had a truthy
url, and the returned list follows the top-story order (a `Sublist` of
the sliced id list related item-by-item to the output). -/
theorem C8_hn_provenance (o : Net) (config : Json) (items : List Json)
    (h : fetch_hackernews o config = .ok items) :
    items.length ≤ hnLimitNat config ∧
    (items = [] ∨ ∃ sj sids subs,
      fetch_json o hnTopURL = some sj ∧
      hnSids sj = .ok sids ∧
      subs.Sublist sids ∧
      List.Forall₂
        (hnGood o (jgetD config "min_score" (.num 100))
          (jgetD config "fetch_description" (.bool true))) subs items) := by
  simp only [fetch_hackernews, bind] at h
  obtain ⟨x1, h1, h⟩ := bindOk h
  obtain ⟨x2, h2, h⟩ := bindOk h
  have hobj : ∃ kvs, config = Json.obj kvs := by
    cases config with
    | obj kvs => exact ⟨kvs, rfl⟩
    | null => simp [jgetE] at h1
    | bool b => simp [jgetE] at h1
    | num n => simp [jgetE] at h1
    | str s => simp [jgetE] at h1
    | arr l => simp [jgetE] at h1
  obtain ⟨kvs, rfl⟩ := hobj
  cases hf : fetch_json o hnTopURL with
  | none =>
    rw [hf] at h
    simp only [pure, Except.pure, Except.ok.injEq] at h
    subst h
    exact ⟨by simp, Or.inl rfl⟩
  | some sj =>
    rw [hf] at h
    by_cases ht : pyTruthy sj = true
    · simp only [ht, Bool.not_true, Bool.false_eq_true, if_false, bind] at h
      obtain ⟨ms, h3, h⟩ := bindOk h
      obtain ⟨lim, h4, h⟩ := bindOk h
      obtain ⟨fd, h5, h⟩ := bindOk h
      obtain ⟨top, h6, h⟩ := bindOk h
      obtain ⟨sids, h7, h⟩ := bindOk h
      rw [jgetDE_obj] at h3 h4 h5
      simp only [Except.ok.injEq] at h3 h4 h5
      obtain ⟨hlen, subs, hsub, hfa⟩ := hnLoop_spec o ms lim fd sids 0 items h
      constructor
      · have he : hnLimitNat (Json.obj kvs) = hnLimN lim := by
          rw [← h4]
          simp only [hnLimitNat, jgetD, jget]
          cases jlookup kvs "limit" <;> rfl
        rw [he]
        simpa using hlen
      · refine Or.inr ⟨sj, sids, subs, ?_, ?_, hsub, ?_⟩
        · rfl
        · simp only [hnSids, h6, h7]
        · have hms : jgetD (Json.obj kvs) "min_score" (.num 100) = ms := by
            rw [← h3]
            simp only [jgetD, jget]
            cases jlookup kvs "min_score" <;> rfl
          have hfd : jgetD (Json.obj kvs) "fetch_description" (.bool true) =
              fd := by
            rw [← h5]
            simp only [jgetD, jget]
            cases jlookup kvs "fetch_description" <;> rfl
          rw [hms, hfd]
          exact hfa
    · simp only [eq_false_of_ne_true ht, Bool.not_false, if_true] at h
      simp only [pure, Except.pure, Except.ok.injEq] at h
      subst h
      exact ⟨by simp, Or.inl rfl⟩

def c8Items : List Json :=
  (fetch_hackernews wNet (.obj [])).toOption.getD []

theorem C8_witness :
    c8Items.length ≤ hnLimitNat (.obj []) ∧
    (c8Items = [] ∨ ∃ sj sids subs,
      fetch_json wNet hnTopURL = some sj ∧
      hnSids sj = .ok sids ∧
      subs.Sublist sids ∧
      List.Forall₂
        (hnGood wNet (jgetD (.obj []) "min_score" (.num 100))
          (jgetD (.obj []) "fetch_description" (.bool true))) subs c8Items) ∧
    c8Items.length = 1 := by
  have h := C8_hn_provenance wNet (.obj []) c8Items (by rfl)
  exact ⟨h.1, h.2, by rfl⟩

/-! ### `fetch_all` and `update_techneme.py`. -/

/-- The `fetchers` dispatch table of `fetch_all`. -/
def fetchOne (o : Net) (stype cfg : Json) :
    Option (Except String (List Json)) :=
  match stype with
  | .str "hackernews" => some (fetch_hackernews o cfg)
  | .str "reddit" => some (fetch_reddit o cfg)
  | .str "github_trending" => some (fetch_github_trending o cfg)
  | .str "rss" => some (fetch_rss o cfg)
  | _ => none

/-- The source loop of `fetch_all`, returning the `results["sources"]`
entries in iteration order (duplicate source ids, which Python would
overwrite in place, are not collapsed). -/
def fetchSources (o : Net) : List Json → Except String (List (String × Json))
  | [] => .ok []
  | source :: rest => do
    let en ← jgetDE source "enabled" (.bool false)
    if !pyTruthy en then fetchSources o rest
    else do
      let sid ← jgetE source "id"
      let stype ← jgetE source "type"
      let scfg ← jgetDE source "config" (.obj [])
      match fetchOne o (optJ stype) scfg with
      | none => fetchSources o rest
      | some r =>
        match r with
        | .error e => .error e
        | .ok items =>
          match fetchSources o rest with
          | .error e => .error e
          | .ok restEntries =>
            .ok ((pyStr (optJ sid),
              Json.obj [("type", optJ stype), ("count", .num items.length),
                ("items", .arr items)]) :: restEntries)

/-- `fetch_all` followed by `main`: the JSON written to
`data/fetched_sources.json`. -/
def fetch_main (o : Net) (nowIso : String) (sourcesCfg : Json) :
    Except String Json := do
  let srcsV ← jgetDE sourcesCfg "sources" (.arr [])
  let srcs ← pyIter srcsV
  match fetchSources o srcs with
  | .error e => .error e
  | .ok entries =>
    .ok (.obj [("fetched_at", .str nowIso), ("sources", .obj entries)])

/-- `fetch_technews` from `update_techneme.py`: every exception in the
try block (subprocess failure, JSON error, non-dict data, unsliceable
stories) is caught and yields the empty list. `subOut` is the scraper
subprocess output. -/
def fetch_technews (subOut : Option String) (pj : String → Option Json) :
    Json :=
  match subOut with
  | none => .arr []
  | some out =>
    match pj out with
    | none => .arr []
    | some d =>
      match d with
      | .obj kvs =>
        match pySliceJ ((jlookup kvs "stories").getD (.arr [])) 5 with
        | .ok r => r
        | .error _ => .arr []
      | _ => .arr []

def tagPairs : List (String × String) :=
  [("AI", "tag-hot"), ("OpenAI", "tag-hot"), ("IPO", "tag-hot"),
    ("投资", "tag-hot"), ("收购", "tag-new"), ("财报", ""), ("中国", ""),
    ("模型", "tag-new")]

/-- The keyword scan over `tag_map` (insertion order; `in` on the raw
summary value follows Python membership semantics). -/
def tagFind (title : String) (summary : Json) :
    List (String × String) → Except String (String × String)
  | [] => .ok ("", "科技")
  | (kw, tc) :: rest =>
    if containsSub title.data kw.data then .ok (tc, kw)
    else do
      let b ← pyInStr kw summary
      if b then .ok (tc, kw) else tagFind title summary rest

/-- The lines one story contributes in `generate_techneme_html`. -/
def technemeStory (story : Json) : Except String (List String) := do
  let tv ← jgetDE story "title" (.str "")
  let title ← match tv with
    | .str s => Except.ok (pyStrip ((pySplit s "(").headD ""))
    | _ => Except.error "AttributeError: split"
  let url ← jgetDE story "url" (.str "")
  let sv ← jgetDE story "summary" (.str "")
  let n ← pyLen sv
  let summary : Json ←
    if 150 < n then
      match sv with
      | .str s => Except.ok (.str (⟨s.data.take 150⟩ ++ "..."))
      | _ => Except.error "TypeError: concat"
    else Except.ok sv
  let ts ← jgetDE story "timestamp" (.str "")
  let tsShown ←
    if pyTruthy ts then
      match pySliceJ ts 16 with
      | .ok r => Except.ok (pyStr r)
      | .error e => Except.error e
    else Except.ok "Today"
  let tag ← tagFind title summary tagPairs
  pure (["            <article class=\"news-item\">",
    (if tag.1 ≠ "" then
      "                <span class=\"tag " ++ tag.1 ++ "\">" ++ tag.2 ++
        "</span>"
    else "                <span class=\"tag\">" ++ tag.2 ++ "</span>"),
    "                <h3 class=\"news-title\">" ++ title ++ "</h3>",
    "                <div class=\"news-meta\">TechMeme · " ++ tsShown ++
      "</div>",
    "                <div class=\"news-desc\">" ++ pyStr summary ++ "</div>",
    "                <a class=\"news-link\" href=\"" ++ pyStr url ++
      "\" target=\"_blank\">阅读更多 →</a>",
    "            </article>", ""])

def technemeStories : List Json → Except String (List String)
  | [] => .ok []
  | s :: rest => do
    let a ← technemeStory s
    let b ← technemeStories rest
    pure (a ++ b)

/-- `generate_techneme_html` from `update_techneme.py`. -/
def generate_techneme_html (stories : Json) : Except String String :=
  if !pyTruthy stories then .ok ""
  else do
    let s5 ← pySliceJ stories 5
    let elems ← pyIter s5
    let parts ← technemeStories elems
    pure (joinSep "\n"
      (["        <!-- TechMeme 当日头条 -->",
        "        <section class=\"section\">",
        "            <h2 class=\"section-title\">🌐 TechMeme 当日头条</h2>",
        ""] ++ parts ++ ["        </section>"]))

def technemeOpen : String := "        <!-- TechMeme 当日头条 -->"

def technemeClose : String :=
  "        </section>\n\n        <!-- 新模型/工具 -->"

/-- Whether the lazy delimited pattern matches somewhere in the
content. -/
def searchDelim (a b : List Char) : List Char → Bool
  | [] => false
  | c :: r =>
    (match stripLit a (c :: r) with
      | some t => (lazyUptoGo b t).isSome
      | none => false) ||
    searchDelim a b r

/-- `re.sub` of `A.*?B` (DOTALL) by a replacement, left to right. -/
def subDelimGo (a b rep : List Char) : Nat → List Char → List Char
  | _, [] => []
  | 0, s => s
  | fuel + 1, c :: r =>
    match stripLit a (c :: r) with
    | some t =>
      match lazyUptoGo b t with
      | some pr => rep ++ subDelimGo a b rep fuel pr.2
      | none => c :: subDelimGo a b rep fuel r
    | none => c :: subDelimGo a b rep fuel r

/-- `update_daily_report` from `update_techneme.py`: the new
`index.html` content (the replacement text is inserted literally; the
repository's generated pages contain no backslash escapes for `re.sub`
to reinterpret). -/
def update_daily_report (techneme_html content : String) : String :=
  let rep := techneme_html ++ "\n\n        <!-- 新模型/工具 -->"
  if searchDelim technemeOpen.data technemeClose.data content.data then
    ⟨subDelimGo technemeOpen.data technemeClose.data rep.data
      content.data.length content.data⟩
  else
    pyReplace content "        <!-- 新模型/工具 -->" rep

/-- The git invocations `git_push` issues (failures are caught and only
printed). -/
def gitCmds (today : String) : List (List String) :=
  [["git", "add", "index.html"],
    ["git", "commit", "-m", "Auto-update TechMeme headlines - " ++ today],
    ["git", "push"]]

/-- `main()` of `update_techneme.py`: the file writes and the git
commands of one run, over the subprocess output, the parser, the
current `index.html` and the clock date. -/
def techneme_main (subOut : Option String) (pj : String → Option Json)
    (indexFile : Option String) (today : String) :
    Except String (List (String × String) × List (List String)) :=
  let stories := fetch_technews subOut pj
  if !pyTruthy stories then .ok ([], [])
  else
    match generate_techneme_html stories with
    | .error e => .error e
    | .ok html =>
      match indexFile with
      | none => .error "FileNotFoundError: index.html"
      | some content =>
        .ok ([("index.html", update_daily_report html content)],
          gitCmds today)

/-- One enabled RSS source, as a parsed `sources.json`. -/
def c10SrcCfg : Json :=
  .obj [("sources", .arr [.obj [("enabled", .bool true), ("id", .str "feed"),
    ("type", .str "rss"), ("config", .obj [("url", .str "f")])]])]

/-- The `count` the run records for the source `feed`. -/
def c10Count (r : Except String Json) : Option Json :=
  match r with
  | .ok j =>
    (jget j "sources").bind fun s => (jget s "feed").bind fun e =>
      jget e "count"
  | .error _ => none

/-- C10 (claim as written is refuted by this counterexample): two runs
of the fetcher over the same `sources.json` and the same clock write
different outputs when the network answers differently — the scripts
are not a function of input files and clock alone. -/
theorem C10_counterexample :
    c10Count (fetch_main failNet "now" c10SrcCfg) = some (.num 0) ∧
    c10Count (fetch_main wNet "now" c10SrcCfg) = some (.num 1) :=
  ⟨rfl, rfl⟩

/-- C10 (amended): each script's writes are a function of its declared
inputs alone — input files, the clock, and the external responses
(network, XML/JSON parsers, subprocess output). Runs with identical
files, clock and externally observed behaviour produce identical
outputs, and nothing carries over between runs. -/
theorem C10_scripts_deterministic :
    (∀ (o1 o2 : Net), (∀ u, o1.net u = o2.net u) →
      (∀ s, o1.pj s = o2.pj s) → (∀ s, o1.px s = o2.px s) →
      (∀ t, o1.tsToIso t = o2.tsToIso t) →
      ∀ now cfg, fetch_main o1 now cfg = fetch_main o2 now cfg) ∧
    (∀ (isOld1 isOld2 : String → Bool), (∀ s, isOld1 s = isOld2 s) →
      ∀ d, validate_main isOld1 d = validate_main isOld2 d) ∧
    (∀ inp : RenderIn, renderMain inp = renderMain inp) ∧
    (∀ (tpl : Option String) (now : String) (files : List (String × String))
      (dry : Bool),
      migrate_main tpl now files dry = migrate_main tpl now files dry) ∧
    (∀ (sub1 sub2 : Option String) (pj1 pj2 : String → Option Json),
      sub1 = sub2 → (∀ s, pj1 s = pj2 s) → ∀ idx today,
      techneme_main sub1 pj1 idx today = techneme_main sub2 pj2 idx today) := by
  refine ⟨?_, ?_, fun _ => rfl, fun _ _ _ _ => rfl, ?_⟩
  · intro o1 o2 h1 h2 h3 h4 now cfg
    have ho : o1 = o2 := by
      cases o1 with
      | mk n1 p1 x1 t1 =>
        cases o2 with
        | mk n2 p2 x2 t2 =>
          simp only [Net.mk.injEq]
          exact ⟨funext h1, funext h2, funext h3, funext h4⟩
    rw [ho]
  · intro f1 f2 h d
    have hf : f1 = f2 := funext h
    rw [hf]
  · intro s1 s2 p1 p2 hs hp idx today
    subst hs
    have hpp : p1 = p2 := funext hp
    rw [hpp]

theorem C10_witness :
    fetch_main failNet "now" (.obj []) =
      fetch_main
        { net := fun _ => none, pj := fun _ => none, px := fun _ => none,
          tsToIso := fun _ => "" } "now" (.obj []) ∧
    validate_main (fun _ => false) (.obj []) =
      validate_main (fun _ => false || false) (.obj []) :=
  ⟨C10_scripts_deterministic.1 failNet
      { net := fun _ => none, pj := fun _ => none, px := fun _ => none,
        tsToIso := fun _ => "" }
      (fun _ => rfl) (fun _ => rfl) (fun _ => rfl) (fun _ => rfl) "now"
      (.obj []),
    C10_scripts_deterministic.2.1 (fun _ => false) (fun _ => false || false)
      (fun _ => rfl) (.obj [])⟩

end AiDaily
